import Mathlib

/-!
# Atlas graph persistence layer: connection manager, event bus, transaction executor

A shallow embedding of `services/neo4j/events.js` (the `DatabaseEventSystem`
singleton built on a Node `EventEmitter`) and `services/neo4j/driver.js` (the
`Neo4jDriver` singleton).  Asynchronous methods are embedded as functions from
the state before the call to the settled outcome and the state after it; the
outcomes of the awaited external operations (the Neo4j client library, the
clock) are inputs of the call.  Every interaction with the outside world is
appended to a ghost trace, so that "is published", "is invoked" and "is
closed" are statements about that trace.  A handler is modelled by what the
emitter sees of it: called with a payload, it returns or it throws.  Logging
(`logger`, `requestContextService`) is recorded in the trace and assumed not
to throw.
-/

namespace Atlas

/-! ## JavaScript values and events -/

/-- A JavaScript value as far as the code inspects one: an `Error` instance
with its `name`, `message` and optional `code`, or any other value, given by
its `String(...)` rendering. -/
inductive JsValue where
  | error (name message : String) (code : Option String)
  | other (str : String)
  deriving DecidableEq, Repr

/-- The expression `error instanceof Error ? error.message : String(error)`. -/
def errorMessage : JsValue → String
  | .error _ message _ => message
  | .other str => str

/-- The enum `DatabaseEventType` (events.js 6-12). -/
inductive DatabaseEventType where
  | WRITE_OPERATION
  | READ_OPERATION
  | TRANSACTION_COMPLETE
  | ERROR
  deriving DecidableEq, Repr

/-- The string each member of `DatabaseEventType` stands for: the event name
handed to the emitter. -/
def DatabaseEventType.value : DatabaseEventType → String
  | .WRITE_OPERATION => "write_operation"
  | .READ_OPERATION => "read_operation"
  | .TRANSACTION_COMPLETE => "transaction_complete"
  | .ERROR => "error"

/-- Query parameters: an object, kept as its key/value pairs. -/
abbrev Params := List (String × String)

/-- Result records of a transaction function. -/
abbrev Records := List String

/-- The data published with an event.  The first three are the object
literals built in driver.js; `value` is any other data a publisher passes. -/
inductive Payload where
  | write (timestamp : String) (transactionId : Nat) (query : String) (params : Params)
  | read (timestamp query : String)
  | error (timestamp operation error query : String)
  | value (v : JsValue)
  deriving DecidableEq, Repr

/-- Identity of a listener function: the two anonymous debug loggers the
constructor registers in development mode, or a function of a subscriber. -/
inductive Fn where
  | debugWrite
  | debugError
  | user (n : Nat)
  deriving DecidableEq, Repr

/-- An entry of an emitter listener array.  `run` is what calling the
function does as far as the emitter can tell: return (`none`) or throw. -/
structure Listener where
  fn : Fn
  once : Bool
  run : Payload → Option JsValue

/-- Everything the code does to the outside world, in program order. -/
inductive Effect where
  | log (level message : String)
  | driverCreated (driver : Nat)
  | verifyConnectivity (driver : Nat)
  | driverClosed (driver : Nat)
  | sessionOpened (session driver : Nat) (database : Option String)
  | transaction (session : Nat) (write ok : Bool)
  | sessionClosed (session : Nat)
  | emitted (type : DatabaseEventType) (data : Payload)
  | listenerCalled (fn : Fn) (type : DatabaseEventType) (data : Payload)
  | exportStarted
  | exportSettled (ok : Bool)
  deriving DecidableEq, Repr

/-! ## The process environment -/

/-- The three fields of `config` read by `initDriver`; `none` is `undefined`. -/
structure Config where
  neo4jUri : Option String
  neo4jUser : Option String
  neo4jPassword : Option String

/-- What the process is started with: the configuration, `NODE_ENV`, and the
runtime function `util.inspect` the emitter uses to render an unhandled
"error" payload (a parameter: it is not part of the repository). -/
structure Runtime where
  config : Config
  nodeEnv : Option String
  inspect : Payload → String

/-- JavaScript `!x` on an optional string: `undefined` and `""` are falsy. -/
def falsy : Option String → Bool
  | none => true
  | some s => s == ""

/-! ## events.js: `DatabaseEventSystem` -/

/-- The emitter of a `DatabaseEventSystem`: its listener arrays, by event. -/
structure DatabaseEventSystem where
  listeners : DatabaseEventType → List Listener

/-- A debug logger registered by the constructor: it logs and returns. -/
def debugListener (fn : Fn) : Listener :=
  { fn := fn, once := false, run := fun _ => none }

/-- The constructor (events.js 18-39): an emitter with no listeners, and in
development mode one logger for WRITE_OPERATION and one for ERROR. -/
def DatabaseEventSystem.new (rt : Runtime) : DatabaseEventSystem :=
  if rt.nodeEnv = some "development" then
    { listeners := fun t =>
        match t with
        | .WRITE_OPERATION => [debugListener .debugWrite]
        | .ERROR => [debugListener .debugError]
        | _ => [] }
  else
    { listeners := fun _ => [] }

/-- The error Node raises from `emit("error", er)` when nothing listens and
`er` is not an `Error`: `ERR_UNHANDLED_ERROR`. -/
def unhandledError (stringified : String) : JsValue :=
  .error "Error" ("Unhandled error. (" ++ stringified ++ ")") (some "ERR_UNHANDLED_ERROR")

/-- The loop of `emit` over a copy of the listener array: each listener is
called in turn; a `once` wrapper removes itself before calling its function;
an exception leaves the loop at once.  Returns the array left behind, the
functions called, and the exception if any. -/
def deliver (data : Payload) : List Listener → List Listener × List Fn × Option JsValue
  | [] => ([], [], none)
  | l :: rest =>
    let keep := if l.once then [] else [l]
    match l.run data with
    | some e => (keep ++ rest, [l.fn], some e)
    | none =>
      let r := deliver data rest
      (keep ++ r.1, l.fn :: r.2.1, r.2.2)

/-- The result of an `emit`: what it returns or throws, the emitter after
it, and the effects in order. -/
structure Emitted where
  result : Except JsValue Bool
  bus : DatabaseEventSystem
  effects : List Effect

/-- Node `EventEmitter.prototype.emit(type, data)`.  For the event named
"error" with no listener it throws: `data` itself when that is an `Error`,
else `ERR_UNHANDLED_ERROR`.  With no listener for another event it returns
false.  Otherwise listeners run in order and an exception propagates. -/
def emit (rt : Runtime) (bus : DatabaseEventSystem) (type : DatabaseEventType)
    (data : Payload) : Emitted :=
  let published := [Effect.emitted type data]
  match bus.listeners type with
  | [] =>
    if type.value = "error" then
      let er := match data with
        | .value (.error name message code) => JsValue.error name message code
        | _ => unhandledError (rt.inspect data)
      { result := .error er, bus := bus, effects := published }
    else
      { result := .ok false, bus := bus, effects := published }
  | l :: ls =>
    let r := deliver data (l :: ls)
    { result := match r.2.2 with
        | some e => .error e
        | none => .ok true
      bus := { listeners := Function.update bus.listeners type r.1 }
      effects := published ++ r.2.1.map (fun f => Effect.listenerCalled f type data) }

/-- The outcome of a call that returns nothing: `none`, or what it threw. -/
structure Published where
  thrown : Option JsValue
  bus : DatabaseEventSystem
  effects : List Effect

/-- The method `publish(eventType, data)` (events.js 70-72): one `emit`. -/
def DatabaseEventSystem.publish (rt : Runtime) (bus : DatabaseEventSystem)
    (eventType : DatabaseEventType) (data : Payload) : Published :=
  let r := emit rt bus eventType data
  { thrown := match r.result with
      | .error e => some e
      | .ok _ => none
    bus := r.bus
    effects := r.effects }

/-- The method `subscribe(eventType, listener)` (events.js 54-56):
`emitter.on` appends the listener to the array of the event. -/
def DatabaseEventSystem.subscribe (bus : DatabaseEventSystem) (eventType : DatabaseEventType)
    (fn : Fn) (run : Payload → Option JsValue) : DatabaseEventSystem :=
  { listeners := Function.update bus.listeners eventType
      (bus.listeners eventType ++ [{ fn := fn, once := false, run := run }]) }

/-- The method `subscribeOnce(eventType, listener)` (events.js 78-80):
`emitter.once` appends a wrapper that removes itself when it is called. -/
def DatabaseEventSystem.subscribeOnce (bus : DatabaseEventSystem)
    (eventType : DatabaseEventType) (fn : Fn) (run : Payload → Option JsValue) :
    DatabaseEventSystem :=
  { listeners := Function.update bus.listeners eventType
      (bus.listeners eventType ++ [{ fn := fn, once := true, run := run }]) }

/-- Node `removeListener` on one listener array: scanning from the end, the
first entry that is the function, or a `once` wrapper of it, is removed. -/
def removeLast (fn : Fn) (ls : List Listener) : List Listener :=
  (ls.reverse.eraseP (fun l => l.fn = fn)).reverse

/-- The method `unsubscribe(eventType, listener)` (events.js 62-64):
`emitter.off`. -/
def DatabaseEventSystem.unsubscribe (bus : DatabaseEventSystem)
    (eventType : DatabaseEventType) (fn : Fn) : DatabaseEventSystem :=
  { listeners := Function.update bus.listeners eventType
      (removeLast fn (bus.listeners eventType)) }

/-! ## driver.js: `Neo4jDriver` -/

/-- How a call settles: it returns a value, or throws. -/
inductive Outcome (α : Type) where
  | returned (value : α)
  | threw (error : JsValue)
  deriving DecidableEq, Repr

/-- State of the promise returned by `initDriver`: still awaiting
`verifyConnectivity`, fulfilled with the value of `this.driver`, or rejected. -/
inductive PromiseState where
  | pending
  | fulfilled (driver : Option Nat)
  | rejected (reason : JsValue)
  deriving DecidableEq, Repr

/-- A promise object: its identity (the index of the `initDriver` run that
returned it) and its state. -/
structure Promise where
  id : Nat
  state : PromiseState
  deriving DecidableEq, Repr

/-- The fields of the class `Neo4jDriver` (driver.js 11-15).  A driver object
is named by the index of the `neo4j.driver(...)` call that made it; `none` is
`null`.  `transactionCounter` is a JavaScript number that starts at 0 and only
ever grows by `++`; it is kept as a natural number. -/
structure Neo4jDriver where
  driver : Option Nat
  connectionPromise : Option Promise
  transactionCounter : Nat
  deriving DecidableEq, Repr

/-- The constructor (driver.js 11-15). -/
def Neo4jDriver.new : Neo4jDriver :=
  { driver := none, connectionPromise := none, transactionCounter := 0 }

/-- The process state: the two singletons, counters naming the objects the
client library has handed out, and the trace of effects so far. -/
structure State where
  neo : Neo4jDriver
  bus : DatabaseEventSystem
  driversCreated : Nat
  promisesCreated : Nat
  sessionsOpened : Nat
  trace : List Effect

/-- The state when both modules have been loaded: `neo4jDriver` and
`databaseEvents` freshly constructed, nothing done yet. -/
def State.init (rt : Runtime) : State :=
  { neo := Neo4jDriver.new, bus := DatabaseEventSystem.new rt
    driversCreated := 0, promisesCreated := 0, sessionsOpened := 0, trace := [] }

/-- Append effects to the trace. -/
def State.record (s : State) (effects : List Effect) : State :=
  { s with trace := s.trace ++ effects }

/-- Outcomes of the external operations one call awaits, and the clock
readings of its two `new Date().toISOString()` sites: whether
`neo4j.driver(...)` throws, whether `verifyConnectivity()` rejects, whether
`driver.session(...)` throws, what the transaction function settles to,
whether `session.close()` and `driver.close()` reject. -/
structure External where
  createDriver : Option JsValue
  verifyConnectivity : Option JsValue
  openSession : Option JsValue
  transaction : Outcome Records
  closeSession : Option JsValue
  closeDriver : Option JsValue
  now : String
  nowCatch : String

/-- The catch block of `initDriver` (driver.js 53-64): log, then throw a new
`Error` whose message wraps the message of what was caught. -/
def initDriverCatch (error : JsValue) (s : State) : JsValue × State :=
  (.error "Error" ("Failed to initialize Neo4j connection: " ++ errorMessage error) none,
   s.record [.log "error" "Failed to initialize Neo4j driver"])

/-- The part of `initDriver` that runs before its only `await` (driver.js
29-49): the state of the promise the call returns, and the state after. -/
def initDriverStart (rt : Runtime) (ext : External) (s : State) : PromiseState × State :=
  match s.neo.driver with
  | some d => (.fulfilled (some d), s)
  | none =>
    if falsy rt.config.neo4jUri || falsy rt.config.neo4jUser || falsy rt.config.neo4jPassword then
      let r := initDriverCatch
        (.error "Error" "Neo4j connection details are not properly configured" none) s
      (.rejected r.1, r.2)
    else
      let s1 := s.record [.log "info" "Initializing Neo4j driver connection"]
      match ext.createDriver with
      | some e =>
        let r := initDriverCatch e s1
        (.rejected r.1, r.2)
      | none =>
        let d := s1.driversCreated
        (.pending,
         { s1 with
           neo := { s1.neo with driver := some d }
           driversCreated := d + 1
           trace := s1.trace ++ [.driverCreated d, .verifyConnectivity d] })

/-- The part of `initDriver` after `await this.driver.verifyConnectivity()`
(driver.js 49-64): it returns `this.driver` as it is then, or wraps the
rejection. -/
def initDriverResume (ext : External) (s : State) : Outcome (Option Nat) × State :=
  match ext.verifyConnectivity with
  | none =>
    (.returned s.neo.driver,
     s.record [.log "info" "Neo4j driver connection established successfully"])
  | some e =>
    let r := initDriverCatch e s
    (.threw r.1, r.2)

/-- The promise state a settled outcome gives. -/
def PromiseState.settled : Outcome (Option Nat) → PromiseState
  | .returned d => .fulfilled d
  | .threw e => .rejected e

/-- The method `initDriver` (driver.js 29-65) run to its end: what its
promise settles to. -/
def initDriver (rt : Runtime) (ext : External) (s : State) : Outcome (Option Nat) × State :=
  let r := initDriverStart rt ext s
  match r.1 with
  | .pending => initDriverResume ext r.2
  | .fulfilled d => (.returned d, r.2)
  | .rejected e => (.threw e, r.2)

/-- The method `getDriver` (driver.js 70-75), up to the value of its
`return`: the promise stored in `connectionPromise`, made by `initDriver`
only when the field is unset.  The promise of the `async` call itself is a
new object on every call; it follows the stored promise and settles as that
one does. -/
def getDriver (rt : Runtime) (ext : External) (s : State) : Promise × State :=
  match s.neo.connectionPromise with
  | some p => (p, s)
  | none =>
    let r := initDriverStart rt ext s
    let p : Promise := { id := r.2.promisesCreated, state := r.1 }
    (p, { r.2 with
          neo := { r.2.neo with connectionPromise := some p }
          promisesCreated := r.2.promisesCreated + 1 })

/-- The field `connectionPromise` once the promise `p` has settled: the field
refers to a promise object and shows the new state when that object is `p`;
a field that was reset, or holds another promise, is as before. -/
def Promise.settleIn (p : Promise) (state : PromiseState) (slot : Option Promise) :
    Option Promise :=
  slot.map fun q => if q.id = p.id then { id := p.id, state := state } else q

/-- Awaiting the stored promise `p` that a call of `getDriver` follows: a
settled promise gives its outcome; a pending one first lets `initDriver` run
to its end, which settles that promise.  The field `connectionPromise` is
not assigned. -/
def awaitDriver (ext : External) (p : Promise) (s : State) : Outcome (Option Nat) × State :=
  match p.state with
  | .fulfilled d => (.returned d, s)
  | .rejected e => (.threw e, s)
  | .pending =>
    let r := initDriverResume ext s
    (r.1, { r.2 with
            neo := { r.2.neo with
                     connectionPromise :=
                       p.settleIn (PromiseState.settled r.1) r.2.neo.connectionPromise } })

/-- The `TypeError` of reading `.session` of `null`. -/
def nullSessionError : JsValue :=
  .error "TypeError" "Cannot read properties of null (reading \x27session\x27)" none

/-- The method `getSession` (driver.js 81-90): await the driver, then open a
session on it; `database || undefined` drops an empty name. -/
def getSession (rt : Runtime) (ext : External) (database : Option String) (s : State) :
    Outcome Nat × State :=
  let g := getDriver rt ext s
  let a := awaitDriver ext g.1 g.2
  match a.1 with
  | .threw e => (.threw e, a.2)
  | .returned none => (.threw nullSessionError, a.2)
  | .returned (some d) =>
    match ext.openSession with
    | some e => (.threw e, a.2)
    | none =>
      let session := a.2.sessionsOpened
      (.returned session,
       { a.2 with
         sessionsOpened := session + 1
         trace := a.2.trace ++
           [.sessionOpened session d (if falsy database then none else database)] })

/-- Publish on the `databaseEvents` singleton of the state. -/
def State.publish (rt : Runtime) (s : State) (eventType : DatabaseEventType)
    (data : Payload) : Option JsValue × State :=
  let r := s.bus.publish rt eventType data
  (r.thrown, { s with bus := r.bus, trace := s.trace ++ r.effects })

/-- The method `publishWriteOperation` (driver.js 186-193): bump the counter,
then publish WRITE_OPERATION carrying it. -/
def publishWriteOperation (rt : Runtime) (ext : External) (query : String) (params : Params)
    (s : State) : Option JsValue × State :=
  let s1 := { s with neo := { s.neo with transactionCounter := s.neo.transactionCounter + 1 } }
  s1.publish rt .WRITE_OPERATION (.write ext.now s1.neo.transactionCounter query params)

/-- The `finally` block of both execute methods: `await session.close()`; a
rejection of the close replaces the outcome reached so far. -/
def closeSession (ext : External) (session : Nat) (r : Outcome Records × State) :
    Outcome Records × State :=
  let s := r.2.record [.sessionClosed session]
  match ext.closeSession with
  | some e => (.threw e, s)
  | none => (r.1, s)

/-- The `catch` block of both execute methods: log, publish ERROR with the
message and the query, rethrow what was caught. -/
def catchBlock (rt : Runtime) (ext : External) (operation logMessage cypher : String)
    (error : JsValue) (s : State) : Outcome Records × State :=
  let s1 := s.record [.log "error" logMessage]
  let p := s1.publish rt .ERROR (.error ext.nowCatch operation (errorMessage error) cypher)
  match p.1 with
  | some e => (.threw e, p.2)
  | none => (.threw error, p.2)

/-- The `try` block of `executeQuery` (driver.js 100-111). -/
def executeQueryTry (rt : Runtime) (ext : External) (cypher : String) (params : Params)
    (session : Nat) (s : State) : Outcome Records × State :=
  match ext.transaction with
  | .threw e => (.threw e, s.record [.transaction session true false])
  | .returned result =>
    let p := publishWriteOperation rt ext cypher params
      (s.record [.transaction session true true])
    match p.1 with
    | some e => (.threw e, p.2)
    | none => (.returned result, p.2)

/-- The `try`/`catch`/`finally` statement of `executeQuery` (driver.js
100-134), run with the session obtained. -/
def executeQueryBody (rt : Runtime) (ext : External) (cypher : String) (params : Params)
    (session : Nat) (s : State) : Outcome Records × State :=
  let t := executeQueryTry rt ext cypher params session s
  let c := match t.1 with
    | .returned result => (Outcome.returned result, t.2)
    | .threw error =>
      catchBlock rt ext "executeQuery" "Error executing Neo4j query" cypher error t.2
  closeSession ext session c

/-- The method `executeQuery` (driver.js 98-135): the session is obtained
outside the `try`, so a failure to obtain it propagates as it is. -/
def executeQuery (rt : Runtime) (ext : External) (cypher : String) (params : Params)
    (database : Option String) (s : State) : Outcome Records × State :=
  let g := getSession rt ext database s
  match g.1 with
  | .threw e => (.threw e, g.2)
  | .returned session => executeQueryBody rt ext cypher params session g.2

/-- The `try` block of `executeReadQuery` (driver.js 145-156). -/
def executeReadQueryTry (rt : Runtime) (ext : External) (cypher : String)
    (session : Nat) (s : State) : Outcome Records × State :=
  match ext.transaction with
  | .threw e => (.threw e, s.record [.transaction session false false])
  | .returned result =>
    let p := (s.record [.transaction session false true]).publish rt .READ_OPERATION
      (.read ext.now cypher)
    match p.1 with
    | some e => (.threw e, p.2)
    | none => (.returned result, p.2)

/-- The `try`/`catch`/`finally` statement of `executeReadQuery` (driver.js
145-179), run with the session obtained. -/
def executeReadQueryBody (rt : Runtime) (ext : External) (cypher : String)
    (session : Nat) (s : State) : Outcome Records × State :=
  let t := executeReadQueryTry rt ext cypher session s
  let c := match t.1 with
    | .returned result => (Outcome.returned result, t.2)
    | .threw error =>
      catchBlock rt ext "executeReadQuery" "Error executing Neo4j read query" cypher error t.2
  closeSession ext session c

/-- The method `executeReadQuery` (driver.js 143-180). -/
def executeReadQuery (rt : Runtime) (ext : External) (cypher : String)
    (database : Option String) (s : State) : Outcome Records × State :=
  let g := getSession rt ext database s
  match g.1 with
  | .threw e => (.threw e, g.2)
  | .returned session => executeReadQueryBody rt ext cypher session g.2

/-- The method `triggerBackgroundBackup` (driver.js 199-220) up to its
return: it logs, starts `exportDatabase()` and does not await it. -/
def triggerBackgroundBackup (s : State) : State :=
  s.record [.log "debug" "Triggering background database backup with rotation...",
            .exportStarted]

/-- The callbacks `triggerBackgroundBackup` attaches to the promise of
`exportDatabase()` (driver.js 206-219), run when the export settles: the
`then` callback logs the path, the `catch` callback logs the failure. -/
def backupSettled (outcome : Outcome String) (s : State) : State :=
  match outcome with
  | .returned backupPath =>
    s.record [.exportSettled true,
              .log "info" ("Background database backup successful: " ++ backupPath)]
  | .threw _ =>
    s.record [.exportSettled false, .log "error" "Background database backup failed:"]

/-- The method `close` (driver.js 224-244): nothing without a driver; else
close it, and on success unset `driver` and `connectionPromise`; a failure is
logged and rethrown as it is. -/
def close (ext : External) (s : State) : Option JsValue × State :=
  match s.neo.driver with
  | none => (none, s)
  | some d =>
    let s1 := s.record [.driverClosed d]
    match ext.closeDriver with
    | none =>
      (none,
       { s1 with
         neo := { s1.neo with driver := none, connectionPromise := none }
         trace := s1.trace ++ [.log "info" "Neo4j driver connection closed"] })
    | some e =>
      (some e, s1.record [.log "error" "Error closing Neo4j driver connection"])

/-! ## types/mcp.js: tool responses -/

/-- An entry of the `content` array of a tool response; a `text` of `none`
is `undefined`, a `_type` of `none` an entry without that key. -/
structure TextContent where
  type : String
  text : Option String
  _type : Option String
  deriving DecidableEq, Repr

/-- The object `createToolResponse` builds; an `isError` of `none` is
`undefined`. -/
structure ToolResponse where
  content : List TextContent
  isError : Option Bool
  _type : String
  deriving DecidableEq, Repr

/-- The function `createToolResponse(text, isError)` (mcp.js 71-81). -/
def createToolResponse (text : Option String) (isError : Option Bool) : ToolResponse :=
  { content := [{ type := "text", text := text, _type := some "text" }]
    isError := isError
    _type := "tool_response" }

/-! ## The delete tools: `responseFormat.js` -/

/-- An entry of `errors` in a bulk delete response: the id that could not be
removed, and the `code`, `message` and `details` of its error; `details` is
kept as its `JSON.stringify` rendering, `none` when it is falsy. -/
structure DeleteError where
  id : String
  code : String
  message : String
  details : Option String
  deriving DecidableEq, Repr

/-- The data of a delete response.  It is a bulk response when it has an
array `deleted` and a property `errors`, else a single response. -/
inductive DeleteResponse where
  | single (success : Bool) (id message : String)
  | bulk (success : Bool) (message : String) (deleted : List String)
      (errors : List DeleteError)
  deriving DecidableEq, Repr

/-- The words in which the three `responseFormat.js` files of the delete
tools differ. -/
structure DeleteWords where
  singleTitle : String
  idLabel : String
  bulkTitle : String
  removedUnit : String
  removedHeading : String

/-- The words of atlas_knowledge_delete/responseFormat.js. -/
def knowledgeWords : DeleteWords :=
  { singleTitle := "Knowledge Item Removal", idLabel := "Knowledge ID"
    bulkTitle := "Knowledge Cleanup Operation", removedUnit := "knowledge item(s)"
    removedHeading := "Removed Knowledge Items" }

/-- The words of atlas_project_delete/responseFormat.js. -/
def projectWords : DeleteWords :=
  { singleTitle := "Project Removal", idLabel := "Project ID"
    bulkTitle := "Project Cleanup Operation", removedUnit := "project(s)"
    removedHeading := "Removed Projects" }

/-- The words of atlas_task_delete/responseFormat.js. -/
def taskWords : DeleteWords :=
  { singleTitle := "Task Removal", idLabel := "Task ID"
    bulkTitle := "Task Cleanup Operation", removedUnit := "task(s)"
    removedHeading := "Removed Tasks" }

/-- The characters `String.prototype.trim` removes: WhiteSpace and
LineTerminator of ECMAScript. -/
def isJsWhiteSpace (c : Char) : Bool :=
  c.toNat ∈ [9, 10, 11, 12, 13, 32, 160, 5760, 8232, 8233, 8239, 8287, 12288, 65279]
    || (8192 ≤ c.toNat && c.toNat ≤ 8202)

/-- The method `trim()` of a string. -/
def jsTrim (s : String) : String :=
  String.mk ((s.toList.dropWhile isJsWhiteSpace).reverse.dropWhile isJsWhiteSpace).reverse

/-- The method `format` of the single formatters (responseFormat.js 6-11). -/
def formatSingleDelete (w : DeleteWords) (success : Bool) (id message : String) : String :=
  w.singleTitle ++ "\n\n" ++
    "Result: " ++ (if success then "✅ Success" else "❌ Failed") ++ "\n" ++
    w.idLabel ++ ": " ++ id ++ "\n" ++
    "Message: " ++ message ++ "\n"

/-- The status line of the bulk formatters (responseFormat.js 20). -/
def bulkStatus (success : Bool) (errors : List DeleteError) : String :=
  if success && errors.length == 0 then "✅ Complete Success"
  else if errors.length > 0 then "⚠️ Partial Success / Errors"
  else "✅ Success (No items or no errors)"

/-- One entry of the errors section (responseFormat.js 33-40); `index`
counts from 0. -/
def formatDeleteError (index : Nat) (e : DeleteError) : String :=
  toString (index + 1) ++ ". Failed to remove ID: " ++ e.id ++ "\n" ++
    "   Error Code: " ++ e.code ++ "\n" ++
    "   Message: " ++ e.message ++
    (match e.details with
      | some json => "\n   Details: " ++ json
      | none => "")

/-- The method `format` of the bulk formatters (responseFormat.js 17-44). -/
def formatBulkDelete (w : DeleteWords) (success : Bool) (message : String)
    (deleted : List String) (errors : List DeleteError) : String :=
  let summary :=
    w.bulkTitle ++ "\n\n" ++
      "Status: " ++ bulkStatus success errors ++ "\n" ++
      "Summary: " ++ message ++ "\n" ++
      "Removed: " ++ toString deleted.length ++ " " ++ w.removedUnit ++ "\n" ++
      "Errors: " ++ toString errors.length ++ " error(s)\n"
  let deletedSection :=
    if deleted.length > 0 then
      "\n--- " ++ w.removedHeading ++ " (" ++ toString deleted.length ++ ") ---\n\n" ++
        String.intercalate "\n" (deleted.map (fun id => "- " ++ id))
    else ""
  let errorsSection :=
    if errors.length > 0 then
      "\n--- Errors Encountered (" ++ toString errors.length ++ ") ---\n\n" ++
        String.intercalate "\n\n"
          ((List.range errors.length).zip errors |>.map (fun p => formatDeleteError p.1 p.2))
    else ""
  jsTrim (summary ++ deletedSection ++ errorsSection)

/-- The body shared by `formatKnowledgeDeleteResponse`,
`formatProjectDeleteResponse` and `formatTaskDeleteResponse`
(responseFormat.js 53-72); `isError` is the parameter of that name. -/
def formatDeleteResponse (w : DeleteWords) (data : DeleteResponse) (_isError : Bool) :
    ToolResponse :=
  match data with
  | .bulk success message deleted errors =>
    createToolResponse (some (formatBulkDelete w success message deleted errors))
      (some (!success || decide (errors.length > 0)))
  | .single success id message =>
    createToolResponse (some (formatSingleDelete w success id message)) (some (!success))

/-- The function `formatKnowledgeDeleteResponse(data, isError)`. -/
def formatKnowledgeDeleteResponse (data : DeleteResponse) (isError : Bool) : ToolResponse :=
  formatDeleteResponse knowledgeWords data isError

/-- The function `formatProjectDeleteResponse(data, isError)`. -/
def formatProjectDeleteResponse (data : DeleteResponse) (isError : Bool) : ToolResponse :=
  formatDeleteResponse projectWords data isError

/-- The function `formatTaskDeleteResponse(data, isError)`. -/
def formatTaskDeleteResponse (data : DeleteResponse) (isError : Bool) : ToolResponse :=
  formatDeleteResponse taskWords data isError

/-! ## atlas_unified_search/responseFormat.js: `truncateText` -/

/-- A JavaScript string as the list of its UTF-16 code units: `length` and
`substring` count code units. -/
abbrev JsString := List Nat

/-- The string "...". -/
def ellipsis : JsString := [46, 46, 46]

/-- The call `text.substring(0, end)` for an integer `end`: an end below 0
counts as 0, an end past the length as the length. -/
def substringTo (text : JsString) (endIndex : Int) : JsString :=
  text.take endIndex.toNat

/-- The method `truncateText(text, maxLength)` (responseFormat.js 96-105),
for `text` a string and `maxLength` an integer. -/
def truncateText (text : JsString) (maxLength : Int) : JsString :=
  if text.length = 0 then []
  else if (text.length : Int) ≤ maxLength then text
  else substringTo text (maxLength - 3) ++ ellipsis

/-! ## DependencyValidator -/

/-- Modelled from the spec: the scope of a dependency check, one DAG per
entity kind (section 4.4; `ProjectErrorCode.DEPENDENCY_CYCLE` and
`TaskErrorCode.DEPENDENCY_CYCLE` in errors.js).  The validator itself is not
among the sources. -/
inductive DependencyScope where
  | project
  | task
  deriving DecidableEq, Repr

/-- Modelled from the spec: a committed DEPENDS_ON relationship (section 3):
`source` depends on `target`, both entities of the kind of `scope`. -/
structure DependsOn where
  scope : DependencyScope
  source : String
  target : String
  deriving DecidableEq, Repr

/-- Modelled from the spec: the entities a node depends on directly, within
one scope (section 4.4, "within the relevant scope only"). -/
def dependenciesOf (scope : DependencyScope) (graph : List DependsOn) (node : String) :
    List String :=
  (graph.filter (fun e => e.scope = scope ∧ e.source = node)).map DependsOn.target

/-- Modelled from the spec: the reachability search of section 4.4 with its
mark-visited discipline.  Nodes waiting on the stack that are already marked
are skipped; the next one is marked and the nodes it depends on are pushed.
The result is the set of marked nodes when the stack is empty (or the fuel
is used up). -/
def reachableFrom (scope : DependencyScope) (graph : List DependsOn) :
    Nat → List String → List String → List String
  | 0, _, visited => visited
  | fuel + 1, stack, visited =>
    match stack.dropWhile (fun n => decide (n ∈ visited)) with
    | [] => visited
    | node :: rest =>
      reachableFrom scope graph fuel (dependenciesOf scope graph node ++ rest) (node :: visited)

/-- Modelled from the spec: `wouldCreateCycle(graphScope, proposedEdge)` of
section 4.4 for the proposed edge `source` DEPENDS_ON `target`: a self-loop
is rejected at once; otherwise the search runs from `target` and looks for
`source`.  Each round of the search marks a new node, so as many rounds as
the graph has edges, plus two, are enough. -/
def wouldCreateCycle (scope : DependencyScope) (graph : List DependsOn)
    (source target : String) : Bool :=
  if source = target then true
  else decide (source ∈ reachableFrom scope graph (graph.length + 2) [target] [])

/-! ## atlas_database_clean/types.js: `AtlasDatabaseCleanSchema` -/

/-- A JSON value as far as the schema looks at one: it tells `true` from
`false` and compares strings; of a number, an array or an object it only
sees the kind. -/
inductive Json where
  | null
  | bool (b : Bool)
  | number
  | string (s : String)
  | array
  | object
  deriving DecidableEq, Repr

/-- The input handed to the schema: a JSON object, given by its entries
(each key once), or any other value. -/
inductive ToolArgs where
  | notObject
  | object (fields : List (String × Json))
  deriving DecidableEq, Repr

/-- The enum `ResponseFormat` (mcp.js 49-53). -/
inductive ResponseFormat where
  | FORMATTED
  | JSON
  deriving DecidableEq, Repr

/-- The string each member of `ResponseFormat` stands for. -/
def ResponseFormat.value : ResponseFormat → String
  | .FORMATTED => "formatted"
  | .JSON => "json"

/-- The schema `z.literal(true)` on the value of a property, `none` when the
property is absent: only the boolean `true` passes. -/
def zLiteralTrue : Option Json → Option Bool
  | some (.bool true) => some true
  | _ => none

/-- The schema of `createResponseFormatEnum()` (mcp.js 54-56),
`z.nativeEnum(ResponseFormat)`: a value passes when it is one of the values
of the enum. -/
def createResponseFormatEnum : Option Json → Option ResponseFormat
  | some (.string s) =>
    if s = ResponseFormat.FORMATTED.value then some .FORMATTED
    else if s = ResponseFormat.JSON.value then some .JSON
    else none
  | _ => none

/-- The schema `createResponseFormatEnum().optional().default(FORMATTED)`
(types.js 12-15): an absent property takes the default, which then goes
through the enum; a present one goes through the enum as it is. -/
def responseFormatSchema : Option Json → Option ResponseFormat
  | none => createResponseFormatEnum (some (.string ResponseFormat.FORMATTED.value))
  | some v => createResponseFormatEnum (some v)

/-- What `AtlasDatabaseCleanSchema` parses an accepted input to. -/
structure DatabaseCleanInput where
  acknowledgement : Bool
  responseFormat : ResponseFormat
  deriving DecidableEq, Repr

/-- The schema `AtlasDatabaseCleanSchema` (types.js 7-17), a strict
`z.object`: the input must be an object, each property of the shape must
pass its schema, and no key outside the shape may be present; `none` is a
`ZodError`. -/
def AtlasDatabaseCleanSchema.parse : ToolArgs → Option DatabaseCleanInput
  | .notObject => none
  | .object fields =>
    match zLiteralTrue (fields.lookup "acknowledgement"),
      responseFormatSchema (fields.lookup "responseFormat"),
      fields.all (fun kv => kv.1 = "acknowledgement" ∨ kv.1 = "responseFormat") with
    | some acknowledgement, some responseFormat, true =>
      some { acknowledgement := acknowledgement, responseFormat := responseFormat }
    | _, _, _ => none

/-! ## types/errors.js and types/tool.js: `McpError.toResponse`, `registerTool` -/

mutual
/-- A thrown value, by what the `catch` block of `wrappedHandler` asks of
it: an `McpError` with its `code`, `message` and `details`, a `ZodError` with
the messages of its issues, any other `Error` with its `message`, or a value
that is not an `Error`. -/
inductive Thrown where
  | mcpError (code message : String) (details : Details)
  | zodError (messages : List String)
  | error (message : String)
  | other
/-- The field `details` of an `McpError`, by what `toResponse` asks of it:
whether it is falsy and, when it is not, what
`JSON.stringify(details, null, 2)` does. -/
inductive Details where
  | falsy
  | truthy (json : Stringified)
/-- What a call of `JSON.stringify` does: it returns a string, returns
`undefined` (for `undefined`, a function or a symbol), or throws (a
`TypeError` for a cyclic object or a BigInt, or what a `toJSON` throws). -/
inductive Stringified where
  | text (s : String)
  | undefined
  | threw (e : Thrown)
end

/-- The method `McpError.toResponse()` (errors.js 75-87) of an error with
the given fields; `.error e` when building the text throws `e`.  The entry
of `content` has no `_type`. -/
def McpError.toResponse (code message : String) (details : Details) :
    Except Thrown ToolResponse :=
  let respond (text : String) : ToolResponse :=
    { content := [{ type := "text", text := some text, _type := none }]
      isError := some true
      _type := "tool_response" }
  match details with
  | .falsy => .ok (respond ("Error [" ++ code ++ "]: " ++ message ++ ""))
  | .truthy (.text s) =>
    .ok (respond ("Error [" ++ code ++ "]: " ++ message ++ ("\nDetails: " ++ s)))
  | .truthy .undefined =>
    .ok (respond ("Error [" ++ code ++ "]: " ++ message ++ ("\nDetails: " ++ "undefined")))
  | .truthy (.threw e) => .error e

/-- What the runtime tells `wrappedHandler` about a handler result: whether
`typeof result === "object" && result !== null && "content" in result`, and
what `JSON.stringify(result)` does. -/
structure JsRuntime (ρ : Type) where
  isObjectWithContent : ρ → Bool
  stringify : ρ → Stringified

/-- What `await handler(validatedInput, extra)` does: the handler returns a
value (or a promise fulfilled with it), throws (or returns a promise that
rejects), or returns a promise that never settles. -/
inductive HandlerOutcome (ρ : Type) where
  | returned (result : ρ)
  | threw (e : Thrown)
  | pending

/-- The value `wrappedHandler` resolves to: the result of the handler
itself, or a response built by `createToolResponse` or `toResponse`. -/
inductive Resolved (ρ : Type) where
  | unchanged (result : ρ)
  | response (r : ToolResponse)

/-- State of the promise `wrappedHandler` returns. -/
inductive Settled (ρ : Type) where
  | resolved (value : Resolved ρ)
  | rejected (e : Thrown)
  | pending

/-- A call of `wrappedHandler`: the state its promise reaches and the inputs
the handler was called with. -/
structure Wrapped (β ρ : Type) where
  settled : Settled ρ
  handlerCalls : List β

/-- The `catch (error)` block of `wrappedHandler` (tool.js 32-40). -/
def wrappedHandlerCatch {ρ : Type} (error : Thrown) : Settled ρ :=
  match error with
  | .mcpError code message details =>
    match McpError.toResponse code message details with
    | .ok r => .resolved (.response r)
    | .error e => .rejected e
  | .zodError messages =>
    .resolved (.response (createToolResponse
      (some ("Validation error: " ++ ", ".intercalate messages)) (some true)))
  | .error message =>
    .resolved (.response (createToolResponse (some ("Error: " ++ message)) (some true)))
  | .other =>
    .resolved (.response (createToolResponse
      (some ("Error: " ++ "An unknown error occurred")) (some true)))

/-- The `wrappedHandler` that `registerTool` builds and registers
(tool.js 8-41), for a `schema` whose `z.object(schema).parse` is `parse` and
a handler whose call does `handler validatedInput extra`. -/
def wrappedHandler {α β ε ρ : Type} (js : JsRuntime ρ) (parse : α → Except Thrown β)
    (handler : β → ε → HandlerOutcome ρ) (args : α) (extra : ε) : Wrapped β ρ :=
  match parse args with
  | .error e => { settled := wrappedHandlerCatch e, handlerCalls := [] }
  | .ok validatedInput =>
    match handler validatedInput extra with
    | .pending => { settled := .pending, handlerCalls := [validatedInput] }
    | .threw e => { settled := wrappedHandlerCatch e, handlerCalls := [validatedInput] }
    | .returned result =>
      if js.isObjectWithContent result then
        { settled := .resolved (.unchanged result), handlerCalls := [validatedInput] }
      else
        match js.stringify result with
        | .text s =>
          { settled := .resolved (.response (createToolResponse (some s) none))
            handlerCalls := [validatedInput] }
        | .undefined =>
          { settled := .resolved (.response (createToolResponse none none))
            handlerCalls := [validatedInput] }
        | .threw e => { settled := wrappedHandlerCatch e, handlerCalls := [validatedInput] }

/-! ## atlas_unified_search/responseFormat.js: `UnifiedSearchFormatter.format` -/

/-- The UTF-16 code units of a string literal. -/
def utf16 (s : String) : JsString :=
  s.toList.flatMap fun c =>
    if c.toNat < 65536 then [c.toNat]
    else [55296 + (c.toNat - 65536) / 1024, 56320 + (c.toNat - 65536) % 1024]

/-- What the formatter takes from the runtime: `toUpperCase()` of a string
and `new Date(value).toLocaleString()`. -/
structure Locale where
  toUpperCase : JsString → JsString
  dateToLocaleString : JsString → JsString

/-- An entry of `results`, with the fields the formatter reads: `type`, `id`,
`title`, `entityType` and `matchedProperty` are strings, `score` a finite
number, read as the double nearest to the value given; `matchedValue`,
`projectName` and `createdAt` are strings or absent (`none`). -/
structure SearchResultItem where
  type : JsString
  id : JsString
  title : JsString
  entityType : JsString
  matchedProperty : JsString
  matchedValue : Option JsString
  projectName : Option JsString
  createdAt : Option JsString
  score : ℚ
  deriving DecidableEq

/-- The argument `responseData` of `format`: `results` is an array or
(`none`) something else; the four numbers are integers or absent. -/
structure UnifiedSearchResponse where
  results : Option (List SearchResultItem)
  total : Option Int
  page : Option Int
  limit : Option Int
  totalPages : Option Int

/-- An integer inside a template literal. -/
def numberText (n : Int) : JsString := utf16 (toString n)

/-- The template part `${value ?? fallback}`. -/
def orDefault (value : Option Int) (fallback : Int) : JsString :=
  numberText (value.getD fallback)

/-- The template part `${value}`: an absent value reads "undefined". -/
def templateNumber : Option Int → JsString
  | some n => numberText n
  | none => utf16 "undefined"

/-- The power `2^e` of two for an integer exponent. -/
def pow2 (e : Int) : ℚ := if 0 ≤ e then (2 : ℚ) ^ e.toNat else 1 / (2 : ℚ) ^ (-e).toNat

/-- The nearest integer, a half going to the even neighbour. -/
def roundHalfEven (x : ℚ) : Int :=
  let f := ⌊x⌋
  let d := x - f
  if d < 1 / 2 then f else if 1 / 2 < d then f + 1 else if f % 2 = 0 then f else f + 1

/-- The binary exponent of a positive number `a`: the `e` with
`2^e ≤ a < 2^(e+1)`. -/
def binaryExponent (a : ℚ) : Int :=
  let e : Int := (Nat.log2 a.num.natAbs : Int) - (Nat.log2 a.den : Int)
  if a < pow2 e then e - 1 else e

/-- The rounding of every arithmetic operation on JavaScript numbers: the
IEEE 754 double nearest to the exact result, ties to even, with 53
significant bits and exponents from -1022 on (below that the spacing stays
`2^-1074`).  A number is given by its exact value; past the largest double,
where the code has `Infinity`, the rounded value is kept, which compares the
same with every double. -/
def toDouble (x : ℚ) : ℚ :=
  if x = 0 then 0
  else
    let e := max (binaryExponent |x|) (-1022)
    let ulp := pow2 (e - 52)
    (roundHalfEven (x / ulp) : ℚ) * ulp

/-- The function `Math.round` on a number: the nearest integer, a half
rounded up; the result is a double as it is. -/
def mathRound (x : ℚ) : Int := ⌊x + 1 / 2⌋

/-- The method `capitalizeFirstLetter(str)` (responseFormat.js 78-80):
`str.charAt(0).toUpperCase() + str.slice(1)`. -/
def capitalizeFirstLetter (rt : Locale) (str : JsString) : JsString :=
  rt.toUpperCase (str.take 1) ++ str.drop 1

/-- The method `getRelevanceIndicator(score)` (responseFormat.js 84-92). -/
def getRelevanceIndicator (score : ℚ) : JsString :=
  if score ≥ 8 then utf16 "🔍 [Highly Relevant]"
  else if score ≥ 6 then utf16 "🔍 [Relevant]"
  else if score ≥ 4 then utf16 "🔍 [Moderately Relevant]"
  else utf16 "🔍 [Potentially Relevant]"

/-- The own properties of `groupedResults` in the order of their creation:
each key with the array stored under it. -/
abbrev GroupedResults := List (JsString × List SearchResultItem)

/-- The names of the properties every plain object inherits from
`Object.prototype`; each is a function, or for `__proto__` the prototype. -/
def objectPrototypeKeys : List JsString :=
  ["constructor", "__defineGetter__", "__defineSetter__", "hasOwnProperty",
    "__lookupGetter__", "__lookupSetter__", "isPrototypeOf", "propertyIsEnumerable",
    "toString", "valueOf", "__proto__", "toLocaleString"].map utf16

/-- What reading `groupedResults[key]` gives: an array the formatter stored
there, a member inherited from `Object.prototype`, or `undefined`. -/
inductive Property where
  | ownArray
  | inherited
  | undefined
  deriving DecidableEq, Repr

/-- The read `groupedResults[key]` of the object literal `groupedResults`. -/
def getProperty (groupedResults : GroupedResults) (key : JsString) : Property :=
  if key ∈ groupedResults.map Prod.fst then .ownArray
  else if key ∈ objectPrototypeKeys then .inherited
  else .undefined

/-- The call `groupedResults[key].push(result)` on an own array. -/
def pushResult (groupedResults : GroupedResults) (key : JsString)
    (result : SearchResultItem) : GroupedResults :=
  groupedResults.map fun entry =>
    if entry.1 = key then (entry.1, entry.2 ++ [result]) else entry

/-- The callback of `results.forEach` (responseFormat.js 20-26): an array is
created under `result.type` when reading that key gives a falsy value, then
`push` is called on what the key reads; an inherited member is truthy and
has no `push`, which throws a `TypeError`. -/
def groupResult (groupedResults : GroupedResults) (result : SearchResultItem) :
    Except Thrown GroupedResults :=
  let groupedResults :=
    match getProperty groupedResults result.type with
    | .undefined => groupedResults ++ [(result.type, [])]
    | _ => groupedResults
  match getProperty groupedResults result.type with
  | .ownArray => .ok (pushResult groupedResults result.type result)
  | _ => .error (.error "groupedResults[result.type].push is not a function")

/-- The array index a property key stands for: a key that is the decimal
numeral, without leading zero, of an integer below 2^32 - 1. -/
def arrayIndex (key : JsString) : Option Nat :=
  if key = [48] then some 0
  else if key ≠ [] ∧ key.head? ≠ some 48 ∧ key.all (fun u => 48 ≤ u ∧ u ≤ 57) = true then
    let n := key.foldl (fun acc u => 10 * acc + (u - 48)) 0
    if n < 4294967295 then some n else none
  else none

/-- The call `Object.entries(groupedResults)`: the own properties, those
whose key is an array index first in ascending order of the index, then the
others in the order of their creation. -/
def objectEntries (groupedResults : GroupedResults) : GroupedResults :=
  (groupedResults.filter fun entry => (arrayIndex entry.1).isSome).insertionSort
      (fun a b => (arrayIndex a.1).getD 0 ≤ (arrayIndex b.1).getD 0)
    ++ groupedResults.filter fun entry => !(arrayIndex entry.1).isSome

/-- The callback of `items.forEach` (responseFormat.js 33-66): the value of
`resultsOutput` after the callback ran on `item` at `index`. -/
def formatItem (rt : Locale) (resultsOutput : JsString) (item : SearchResultItem)
    (index : Nat) : JsString :=
  let score : ℚ := toDouble ((mathRound (toDouble (toDouble item.score * 10)) : ℚ) / 10)
  let relevanceIndicator := getRelevanceIndicator score
  let resultsOutput := resultsOutput
    ++ (numberText (index + 1) ++ utf16 ". " ++ relevanceIndicator ++ utf16 " "
        ++ item.title ++ utf16 "\n")
  let projectName :=
    match item.projectName with
    | some (u :: us) => u :: us
    | _ => utf16 "Unknown"
  let resultsOutput :=
    if item.type = utf16 "project" then
      resultsOutput ++ (utf16 "   ID: " ++ item.id ++ utf16 "\n")
        ++ (utf16 "   Type: " ++ item.entityType ++ utf16 "\n")
        ++ (utf16 "   Match: Found in " ++ item.matchedProperty ++ utf16 "\n")
    else if item.type = utf16 "task" then
      resultsOutput ++ (utf16 "   ID: " ++ item.id ++ utf16 "\n")
        ++ (utf16 "   Project: " ++ projectName ++ utf16 "\n")
        ++ (utf16 "   Type: " ++ item.entityType ++ utf16 "\n")
        ++ (utf16 "   Match: Found in " ++ item.matchedProperty ++ utf16 "\n")
    else if item.type = utf16 "knowledge" then
      resultsOutput ++ (utf16 "   ID: " ++ item.id ++ utf16 "\n")
        ++ (utf16 "   Project: " ++ projectName ++ utf16 "\n")
        ++ (utf16 "   Domain: " ++ item.entityType ++ utf16 "\n")
        ++ (utf16 "   Match: Found in " ++ item.matchedProperty ++ utf16 "\n")
    else resultsOutput
  let resultsOutput :=
    match item.matchedValue with
    | some (u :: us) =>
      resultsOutput
        ++ (utf16 "   Content: \"" ++ truncateText (u :: us) 100 ++ utf16 "\"\n")
    | _ => resultsOutput
  let resultsOutput :=
    match item.createdAt with
    | some (u :: us) =>
      resultsOutput ++ (utf16 "   Created: " ++ rt.dateToLocaleString (u :: us) ++ utf16 "\n")
    | _ => resultsOutput
  resultsOutput ++ utf16 "\n"

/-- The callback of `Object.entries(groupedResults).forEach`
(responseFormat.js 29-67): the value of `resultsOutput` after the callback
ran on the entry `[type, items]`. -/
def formatGroup (rt : Locale) (resultsOutput : JsString)
    (entry : JsString × List SearchResultItem) : JsString :=
  let resultsOutput := resultsOutput
    ++ (utf16 "\n" ++ capitalizeFirstLetter rt entry.1 ++ utf16 " Results ("
        ++ numberText entry.2.length ++ utf16 ")\n\n")
  entry.2.enum.foldl (fun resultsOutput p => formatItem rt resultsOutput p.2 p.1)
    resultsOutput

/-- The constant `summary` of `format` (responseFormat.js 11-13). -/
def summaryText (responseData : UnifiedSearchResponse) : JsString :=
  utf16 "Search Results\n\n"
    ++ (utf16 "Found " ++ orDefault responseData.total 0 ++ utf16 " result(s)\n")
    ++ (utf16 "Page " ++ orDefault responseData.page 1 ++ utf16 " of "
        ++ orDefault responseData.totalPages 1 ++ utf16 " ("
        ++ orDefault responseData.limit 0 ++ utf16 " per page)\n")

/-- The variable `paginationHelp` of `format` (responseFormat.js 69-72). -/
def paginationHelp (responseData : UnifiedSearchResponse) : JsString :=
  match responseData.totalPages with
  | some totalPages =>
    if totalPages > 1 then
      utf16 "\nTo view more results, use \x27page\x27 parameter (current: "
        ++ templateNumber responseData.page ++ utf16 ", total pages: "
        ++ numberText totalPages ++ utf16 ")."
    else []
  | none => []

/-- The method `UnifiedSearchFormatter.format(responseData)`
(responseFormat.js 7-74): the string it returns, or what it throws. -/
def UnifiedSearchFormatter.format (rt : Locale) (responseData : UnifiedSearchResponse) :
    Except Thrown JsString :=
  let summary := summaryText responseData
  match responseData.results with
  | none => .ok (summary ++ utf16 "\nNo matches found for the specified search criteria.")
  | some results =>
    if results.length = 0 then
      .ok (summary ++ utf16 "\nNo matches found for the specified search criteria.")
    else
      match results.foldlM groupResult [] with
      | .error e => .error e
      | .ok groupedResults =>
        let resultsOutput := (objectEntries groupedResults).foldl (formatGroup rt) []
        .ok (summary ++ resultsOutput ++ paginationHelp responseData)

/-! ## Reading a trace -/

/-- The functions called, in order, according to a trace. -/
def calledFns : List Effect → List Fn
  | [] => []
  | .listenerCalled f _ _ :: rest => f :: calledFns rest
  | _ :: rest => calledFns rest

/-- The events published, in order, according to a trace. -/
def emittedEvents : List Effect → List (DatabaseEventType × Payload)
  | [] => []
  | .emitted t data :: rest => (t, data) :: emittedEvents rest
  | _ :: rest => emittedEvents rest

/-- The payloads of the WRITE_OPERATION events of a trace, in order. -/
def writeEvents (trace : List Effect) : List Payload :=
  ((emittedEvents trace).filter (fun e => e.1 = .WRITE_OPERATION)).map Prod.snd

/-- The `transactionId` field of a payload, when it has one. -/
def Payload.transactionId : Payload → Option Nat
  | .write _ transactionId _ _ => some transactionId
  | _ => none

/-- The sessions on which `close()` was invoked, in order. -/
def closedSessions : List Effect → List Nat
  | [] => []
  | .sessionClosed session :: rest => session :: closedSessions rest
  | _ :: rest => closedSessions rest

/-- The sessions opened, in order. -/
def openedSessions : List Effect → List Nat
  | [] => []
  | .sessionOpened session _ _ :: rest => session :: openedSessions rest
  | _ :: rest => openedSessions rest

/-- The drivers made by `neo4j.driver(...)`, in order. -/
def createdDrivers : List Effect → List Nat
  | [] => []
  | .driverCreated d :: rest => d :: createdDrivers rest
  | _ :: rest => createdDrivers rest

/-- The number of `exportDatabase()` calls of a trace. -/
def exportCount : List Effect → Nat
  | [] => 0
  | .exportStarted :: rest => exportCount rest + 1
  | _ :: rest => exportCount rest

/-- Whether a thrown value is an instance of a class of the given name. -/
def JsValue.isNamed (className : String) : JsValue → Bool
  | .error name _ _ => name == className
  | .other _ => false

/-- The effects a call appended: the trace after it, past the trace before. -/
def effectsSince (s s' : State) : List Effect :=
  s'.trace.drop s.trace.length

/-- One `executeQuery` call: its arguments and what the outside world does
during it. -/
structure QueryCall where
  ext : External
  cypher : String
  params : Params
  database : Option String

/-- Run one call. -/
def QueryCall.run (rt : Runtime) (c : QueryCall) (s : State) : Outcome Records × State :=
  executeQuery rt c.ext c.cypher c.params c.database s

/-- Run a sequence of `executeQuery` calls, one after the other. -/
def runQueries (rt : Runtime) : List QueryCall → State → State
  | [], s => s
  | c :: cs, s => runQueries rt cs (c.run rt s).2

/-- The state at startup, with the given handlers already subscribed. -/
def State.start (rt : Runtime) (bus : DatabaseEventSystem) : State :=
  { State.init rt with bus := bus }

/-- Every WRITE_OPERATION event published so far carries a `transactionId`
no larger than the counter. -/
def WriteInv (s : State) : Prop :=
  ∀ p ∈ writeEvents s.trace, ∃ i, p.transactionId = some i ∧ i ≤ s.neo.transactionCounter

/-- The driver each opened session was opened on, in order. -/
def sessionDrivers : List Effect → List Nat
  | [] => []
  | .sessionOpened _ d _ :: rest => d :: sessionDrivers rest
  | _ :: rest => sessionDrivers rest

/-- A step of the connection manager, with what the outside world does
during it: a call of `getDriver` left waiting on the promise it returns; the
pending `verifyConnectivity` settling, which lets `initDriver` run to its
end; a call of `getSession` run to its end. -/
inductive ConnStep where
  | getDriverCall (ext : External)
  | verifySettles (ext : External)
  | getSessionCall (ext : External) (database : Option String)

/-- The outside world during a step. -/
def ConnStep.ext : ConnStep → External
  | .getDriverCall ext => ext
  | .verifySettles ext => ext
  | .getSessionCall ext _ => ext

/-- The pending initialization, if there is one, runs to its end. -/
def settle (ext : External) (s : State) : State :=
  match s.neo.connectionPromise with
  | none => s
  | some p =>
    match p.state with
    | .pending => (awaitDriver ext p s).2
    | _ => s

/-- What is kept of a call: the stored promise its own promise follows, as
`getDriver` returned it, and for a call of `getSession` how the call
ended. -/
structure CallRecord where
  followed : Promise
  session : Option (Outcome Nat)
  deriving DecidableEq, Repr

/-- Run a step.  For a call, the first component is its record. -/
def ConnStep.run (rt : Runtime) : ConnStep → State → Option CallRecord × State
  | .getDriverCall ext, s =>
    (some { followed := (getDriver rt ext s).1, session := none }, (getDriver rt ext s).2)
  | .verifySettles ext, s => (none, settle ext s)
  | .getSessionCall ext database, s =>
    (some { followed := (getDriver rt ext s).1
            session := some (getSession rt ext database s).1 },
     (getSession rt ext database s).2)

/-- Run a sequence of steps: the records of the calls, and the state at the
end. -/
def runConn (rt : Runtime) : List ConnStep → State → List CallRecord × State
  | [], s => ([], s)
  | a :: rest, s =>
    let r := a.run rt s
    let t := runConn rt rest r.2
    (r.1.toList ++ t.1, t.2)

/-- The state, in the state `s` of the connection manager, of the promise of
a call that follows the stored promise `p`: what `p` had settled to when the
call returned it, and for a `p` that was pending then, the state of the
stored promise now. -/
def Promise.stateIn (p : Promise) (s : State) : PromiseState :=
  match p.state with
  | .pending =>
    match s.neo.connectionPromise with
    | some q => if q.id = p.id then q.state else .pending
    | none => .pending
  | settled => settled

/-- A call record agrees with a state: the field `connectionPromise` holds
the promise the call follows, in a state the call had seen unless it saw it
pending; a `getSession` call ended after that promise settled, failing with
its rejection reason, or with a session when it was fulfilled with a
driver. -/
def CallRecord.AgreesWith (c : CallRecord) (s : State) : Prop :=
  ∃ st, s.neo.connectionPromise = some ⟨c.followed.id, st⟩
    ∧ (c.followed.state = .pending ∨ c.followed.state = st)
    ∧ ∀ o, c.session = some o →
        st ≠ .pending ∧ (∀ e, st = .rejected e → o = .threw e)
        ∧ ∀ n, o = .returned n → ∃ d, st = .fulfilled (some d)

/-- What holds of the connection manager as long as `close()` is not called:
either nothing has been started, or there is the one promise 0, with either
no driver ever made and the promise rejected (which `good` excludes), or the
one driver 0 made and the promise pending, fulfilled with it, or rejected.
Every session was opened on driver 0. -/
def ConnInv (good : Prop) (s : State) : Prop :=
  (∀ d ∈ sessionDrivers s.trace, d = 0)
  ∧ ((s.neo.connectionPromise = none ∧ s.neo.driver = none ∧ createdDrivers s.trace = []
        ∧ s.driversCreated = 0 ∧ s.promisesCreated = 0)
    ∨ ∃ st, s.neo.connectionPromise = some ⟨0, st⟩ ∧ s.promisesCreated = 1
        ∧ ((s.neo.driver = none ∧ createdDrivers s.trace = [] ∧ s.driversCreated = 0
              ∧ (∃ e, st = .rejected e) ∧ ¬ good)
          ∨ (s.neo.driver = some 0 ∧ createdDrivers s.trace = [0] ∧ s.driversCreated = 1
              ∧ (st = .pending ∨ st = .fulfilled (some 0) ∨ ∃ e, st = .rejected e))))

/-- The number of exports that have settled, according to a trace. -/
def settledCount : List Effect → Nat
  | [] => 0
  | .exportSettled _ :: rest => settledCount rest + 1
  | _ :: rest => settledCount rest

/-- The export jobs in flight: started and not yet settled. -/
def exportsInFlight (trace : List Effect) : Nat :=
  exportCount trace - settledCount trace

/-- The log entries of a trace, in order: level and message. -/
def logEntries : List Effect → List (String × String)
  | [] => []
  | .log level message :: rest => (level, message) :: logEntries rest
  | _ :: rest => logEntries rest

/-- A burst of `n` calls of `triggerBackgroundBackup`, no export settling in
between. -/
def triggerTimes : Nat → State → State
  | 0, s => s
  | n + 1, s => triggerTimes n (triggerBackgroundBackup s)

/-- A sequence of `publish` calls of one event type, one payload each: all
effects in order, and the emitter at the end. -/
def publishAll (rt : Runtime) (t : DatabaseEventType) :
    List Payload → DatabaseEventSystem → List Effect × DatabaseEventSystem
  | [], bus => ([], bus)
  | d :: ds, bus =>
    let r := bus.publish rt t d
    let rest := publishAll rt t ds r.bus
    (r.effects ++ rest.1, rest.2)

/-- A call on the connection manager run to its end, with what the outside
world does during it: `getDriver()`, `getSession(database)` or `close()`. -/
inductive DriverCall where
  | driver (ext : External)
  | session (ext : External) (database : Option String)
  | shutdown (ext : External)

/-- Run a call: the error its caller sees (`none` when the call succeeds),
and the state after. -/
def DriverCall.run (rt : Runtime) : DriverCall → State → Option JsValue × State
  | .driver ext, s =>
    let g := getDriver rt ext s
    let a := awaitDriver ext g.1 g.2
    (match a.1 with
      | .threw e => some e
      | .returned _ => none,
     a.2)
  | .session ext database, s =>
    let r := getSession rt ext database s
    (match r.1 with
      | .threw e => some e
      | .returned _ => none,
     r.2)
  | .shutdown ext, s => close ext s

/-- Run a sequence of calls, one after the other: what each caller sees,
and the state at the end. -/
def runCalls (rt : Runtime) : List DriverCall → State → List (Option JsValue) × State
  | [], s => ([], s)
  | c :: rest, s =>
    let r := c.run rt s
    let t := runCalls rt rest r.2
    (r.1 :: t.1, t.2)

/-- What the caller of a call sees once initialization has failed for want
of configuration: `close()` returns, the other calls fail with the error
`initDriver` threw. -/
def DriverCall.whenUnconfigured : DriverCall → Option JsValue
  | .shutdown _ => none
  | _ => some (.error "Error"
      "Failed to initialize Neo4j connection: Neo4j connection details are not properly configured"
      none)

/-- The state of the connection manager when the configuration is
incomplete: no driver object, and either nothing started or the one promise
rejected with the configuration error. -/
def Unconfigured (s : State) : Prop :=
  s.neo.driver = none ∧ createdDrivers s.trace = []
  ∧ ((s.neo.connectionPromise = none ∧ s.promisesCreated = 0)
    ∨ (s.neo.connectionPromise = some ⟨0, .rejected (.error "Error"
        "Failed to initialize Neo4j connection: Neo4j connection details are not properly configured"
        none)⟩ ∧ s.promisesCreated = 1))

/-- The entries `grouped` split `results` by type: no key occurs twice, the
array under a key holds the results of that type in their input order and
is not empty, and the type of every result is a key. -/
def Grouped (grouped : GroupedResults) (results : List SearchResultItem) : Prop :=
  (grouped.map Prod.fst).Nodup
  ∧ (∀ entry ∈ grouped,
      entry.2 = results.filter (fun r => r.type = entry.1) ∧ entry.2 ≠ [])
  ∧ ∀ r ∈ results, r.type ∈ grouped.map Prod.fst

/-! ## Concrete inputs -/

/-- An `Error` with message "boom". -/
def boom : JsValue := .error "Error" "boom" none

/-- A complete configuration. -/
def fullConfig : Config :=
  { neo4jUri := some "bolt://localhost:7687", neo4jUser := some "neo4j"
    neo4jPassword := some "secret" }

/-- A production process with a complete configuration; the rendering of
payloads stands in for `util.inspect`. -/
def production : Runtime :=
  { config := fullConfig, nodeEnv := some "production", inspect := fun _ => "[Object]" }

/-- A production process whose configuration lacks the password. -/
def unconfigured : Runtime :=
  { production with config := { fullConfig with neo4jPassword := none } }

/-- External operations that all succeed. -/
def healthy : External :=
  { createDriver := none, verifyConnectivity := none, openSession := none
    transaction := .returned ["row"], closeSession := none, closeDriver := none
    now := "2025-01-01T00:00:00.000Z", nowCatch := "2025-01-01T00:00:00.001Z" }

/-- External operations where only the transaction fails, with `boom`. -/
def failingTransaction : External :=
  { healthy with transaction := .threw boom }

/-- A subscriber function that returns. -/
def quietListener (n : Nat) : Listener :=
  { fn := .user n, once := false, run := fun _ => none }

/-- A subscriber function that throws `boom`. -/
def raisingListener (n : Nat) : Listener :=
  { fn := .user n, once := false, run := fun _ => some boom }

/-- An emitter with the given listeners subscribed to one event type and
none to the others. -/
def busWith (type : DatabaseEventType) (ls : List Listener) : DatabaseEventSystem :=
  { listeners := fun t => if t = type then ls else [] }

/-- A write call during which every external operation succeeds. -/
def sampleCall : QueryCall :=
  { ext := healthy, cypher := "CREATE (n)", params := [], database := none }

/-- An emitter whose only READ_OPERATION handler raises and whose only
ERROR handler returns. -/
def busReadRaises : DatabaseEventSystem :=
  { listeners := fun t =>
      match t with
      | .READ_OPERATION => [raisingListener 1]
      | .ERROR => [quietListener 2]
      | _ => [] }

/-- The error `initDriver` throws when the configuration is incomplete. -/
def notConfiguredError : JsValue :=
  .error "Error"
    "Failed to initialize Neo4j connection: Neo4j connection details are not properly configured"
    none

/-- External operations where only `verifyConnectivity` fails, with `boom`. -/
def verifyFails : External :=
  { healthy with verifyConnectivity := some boom }

/-- External operations where only `driver.close()` fails, with `boom`. -/
def closeFails : External :=
  { healthy with closeDriver := some boom }

/-- The state after one successful `getSession` in production: driver 0 is
open. -/
def connected : State :=
  (getSession production healthy none (State.init production)).2

/-- An emitter whose only WRITE_OPERATION handler raises and whose only
ERROR handler returns. -/
def busWriteRaises : DatabaseEventSystem :=
  { listeners := fun t =>
      match t with
      | .WRITE_OPERATION => [raisingListener 1]
      | .ERROR => [quietListener 2]
      | _ => [] }

/-- An emitter whose only WRITE_OPERATION handler and only ERROR handler
both return. -/
def busAllQuiet : DatabaseEventSystem :=
  { listeners := fun t =>
      match t with
      | .WRITE_OPERATION => [quietListener 1]
      | .ERROR => [quietListener 2]
      | _ => [] }

/-- A READ_OPERATION payload. -/
def sampleRead : Payload := .read "2025-01-01T00:00:00.000Z" "MATCH (n) RETURN n"

/-- A WRITE_OPERATION payload. -/
def sampleWrite : Payload := .write "2025-01-01T00:00:00.000Z" 1 "CREATE (n)" []

/-- A handler result for the examples: a tool response, a BigInt, a number
or `undefined`. -/
inductive SampleResult where
  | response (r : ToolResponse)
  | bigint (n : Int)
  | number (n : Int)
  | undefined
  deriving DecidableEq, Repr

/-- The runtime on the sample results: only a response is an object with a
`content` key; `JSON.stringify` throws a `TypeError` on a BigInt, writes a
number in decimal and returns `undefined` for `undefined`. -/
def sampleJs : JsRuntime SampleResult where
  isObjectWithContent
    | .response _ => true
    | _ => false
  stringify
    | .response _ => .text "\x7b\x7d"
    | .bigint _ => .threw (.error "Do not know how to serialize a BigInt")
    | .number n => .text (toString n)
    | .undefined => .undefined

/-- A schema that accepts every input as it is. -/
def acceptAll : String → Except Thrown String := fun args => .ok args

/-- A runtime for the examples: `toUpperCase` on the letters a-z, and a date
printed as it was given. -/
def sampleLocale : Locale where
  toUpperCase := fun str => str.map fun u => if 97 ≤ u ∧ u ≤ 122 then u - 32 else u
  dateToLocaleString := fun value => value

/-- A search result of the given type, id and title. -/
def sampleItem (type id title : String) : SearchResultItem where
  type := utf16 type
  id := utf16 id
  title := utf16 title
  entityType := utf16 "research"
  matchedProperty := utf16 "name"
  matchedValue := none
  projectName := none
  createdAt := none
  score := 9

/-- Three results: a task, a project and another task. -/
def sampleResults : List SearchResultItem :=
  [sampleItem "task" "task_1" "Write report", sampleItem "project" "proj_1" "Atlas",
    sampleItem "task" "task_2" "Review report"]

/-- A first page holding the three sample results. -/
def sampleSearch : UnifiedSearchResponse where
  results := some sampleResults
  total := some 3
  page := some 1
  limit := some 20
  totalPages := some 1

/-- A page whose only result has the type "constructor". -/
def constructorSearch : UnifiedSearchResponse where
  results := some [sampleItem "constructor" "x_1" "Builder"]
  total := some 1
  page := some 1
  limit := some 20
  totalPages := some 1

/-! ## The event bus -/

theorem deliver_until_raise (data : Payload) (pre : List Listener) (l : Listener)
    (post : List Listener) (e : JsValue)
    (hpre : ∀ x ∈ pre, x.run data = none) (hl : l.run data = some e) :
    (deliver data (pre ++ l :: post)).2 = ((pre ++ [l]).map Listener.fn, some e) := by
  induction pre with
  | nil => simp [deliver, hl]
  | cons x xs ih =>
    have hx : x.run data = none := hpre x (by simp)
    have := ih (fun y hy => hpre y (by simp [hy]))
    simp [deliver, hx, this]

theorem deliver_all_return (data : Payload) (ls : List Listener)
    (h : ∀ x ∈ ls, x.run data = none) :
    (deliver data ls).2 = (ls.map Listener.fn, none) := by
  induction ls with
  | nil => simp [deliver]
  | cons x xs ih =>
    have hx : x.run data = none := h x (by simp)
    have := ih (fun y hy => h y (by simp [hy]))
    simp [deliver, hx, this]

theorem calledFns_append (a b : List Effect) :
    calledFns (a ++ b) = calledFns a ++ calledFns b := by
  induction a with
  | nil => rfl
  | cons x xs ih => cases x <;> simp [calledFns, ih]

theorem calledFns_map (fs : List Fn) (t : DatabaseEventType) (data : Payload) :
    calledFns (fs.map (fun f => Effect.listenerCalled f t data)) = fs := by
  induction fs with
  | nil => rfl
  | cons x xs ih => simp [calledFns, ih]

theorem emit_nonempty (rt : Runtime) (bus : DatabaseEventSystem) (t : DatabaseEventType)
    (data : Payload) (l : Listener) (ls : List Listener) (h : bus.listeners t = l :: ls) :
    (bus.publish rt t data).thrown = (deliver data (l :: ls)).2.2
    ∧ (bus.publish rt t data).effects =
        .emitted t data ::
          (deliver data (l :: ls)).2.1.map (fun f => Effect.listenerCalled f t data) := by
  unfold DatabaseEventSystem.publish emit
  rw [h]
  constructor
  · simp only
    cases (deliver data (l :: ls)).2.2 <;> rfl
  · simp

/-- C9, as stated, fails: with a raising handler subscribed to
WRITE_OPERATION ahead of a second handler, `publish` throws the handler's
error back to the publisher and the second handler is never invoked. -/
theorem publish_raising_handler_stops_delivery :
    ((busWith .WRITE_OPERATION [raisingListener 1, quietListener 2]).publish production
        .WRITE_OPERATION sampleWrite).thrown = some boom
    ∧ Fn.user 2 ∉ calledFns
        ((busWith .WRITE_OPERATION [raisingListener 1, quietListener 2]).publish production
          .WRITE_OPERATION sampleWrite).effects := by
  decide

/-- C9, amended: `publish` calls the handlers subscribed to the event type in
subscription order, up to and including the first one that raises.  When a
handler raises, its exception reaches the publisher and no handler subscribed
after it is called; when none raises, every handler is called and `publish`
returns normally. -/
theorem publish_delivers_until_first_raise (rt : Runtime) (bus : DatabaseEventSystem)
    (t : DatabaseEventType) (data : Payload) (pre : List Listener) (l : Listener)
    (post : List Listener)
    (hsub : bus.listeners t = pre ++ l :: post)
    (hpre : ∀ x ∈ pre, x.run data = none) :
    (∀ e, l.run data = some e →
      (bus.publish rt t data).thrown = some e
      ∧ (bus.publish rt t data).effects =
          .emitted t data ::
            (pre ++ [l]).map (fun x => Effect.listenerCalled x.fn t data))
    ∧ (l.run data = none → (∀ x ∈ post, x.run data = none) →
      (bus.publish rt t data).thrown = none
      ∧ (bus.publish rt t data).effects =
          .emitted t data ::
            (pre ++ l :: post).map (fun x => Effect.listenerCalled x.fn t data)) := by
  obtain ⟨a, as, has⟩ : ∃ a as, pre ++ l :: post = a :: as := by
    cases pre with
    | nil => exact ⟨l, post, rfl⟩
    | cons x xs => exact ⟨x, xs ++ l :: post, rfl⟩
  have hne := emit_nonempty rt bus t data a as (hsub.trans has)
  rw [← has] at hne
  constructor
  · intro e hl
    have hd := deliver_until_raise data pre l post e hpre hl
    rw [hne.1, hne.2, hd]
    simp [List.map_map, Function.comp_def]
  · intro hl hpost
    have hall : ∀ x ∈ pre ++ l :: post, x.run data = none := by
      intro x hx
      rcases List.mem_append.mp hx with h | h
      · exact hpre x h
      · rcases List.mem_cons.mp h with h | h
        · exact h ▸ hl
        · exact hpost x h
    have hd := deliver_all_return data (pre ++ l :: post) hall
    rw [hne.1, hne.2, hd]
    simp [List.map_map, Function.comp_def]

/-- Witness for C9: one returning handler, then a raising one, then a third. -/
theorem publish_delivers_until_first_raise_witness :
    ((busWith .WRITE_OPERATION [quietListener 1, raisingListener 2, quietListener 3]).publish
        production .WRITE_OPERATION sampleWrite).thrown = some boom
    ∧ ((busWith .WRITE_OPERATION [quietListener 1, raisingListener 2, quietListener 3]).publish
        production .WRITE_OPERATION sampleWrite).effects =
        [.emitted .WRITE_OPERATION sampleWrite,
         .listenerCalled (.user 1) .WRITE_OPERATION sampleWrite,
         .listenerCalled (.user 2) .WRITE_OPERATION sampleWrite] :=
  (publish_delivers_until_first_raise production
    (busWith .WRITE_OPERATION [quietListener 1, raisingListener 2, quietListener 3])
    .WRITE_OPERATION sampleWrite [quietListener 1] (raisingListener 2) [quietListener 3]
    rfl (by simp [quietListener])).1 boom rfl

/-- C10 at its failing input: with no handler subscribed, `publish` of
WRITE_OPERATION, READ_OPERATION and TRANSACTION_COMPLETE returns normally and
calls nothing, but `publish` of ERROR with the payload the driver builds
throws: the emitter treats the event named "error" specially and raises
ERR_UNHANDLED_ERROR. -/
theorem publish_ERROR_without_handler_throws (rt : Runtime) (data : Payload)
    (ts op msg query : String) :
    ((DatabaseEventSystem.mk (fun _ => [])).publish rt .ERROR
        (.error ts op msg query)).thrown
      = some (unhandledError (rt.inspect (.error ts op msg query)))
    ∧ ((DatabaseEventSystem.mk (fun _ => [])).publish rt .WRITE_OPERATION data).thrown = none
    ∧ ((DatabaseEventSystem.mk (fun _ => [])).publish rt .WRITE_OPERATION data).effects
        = [.emitted .WRITE_OPERATION data]
    ∧ ((DatabaseEventSystem.mk (fun _ => [])).publish rt .READ_OPERATION data).thrown = none
    ∧ ((DatabaseEventSystem.mk (fun _ => [])).publish rt .READ_OPERATION data).effects
        = [.emitted .READ_OPERATION data]
    ∧ ((DatabaseEventSystem.mk (fun _ => [])).publish rt .TRANSACTION_COMPLETE data).thrown
        = none
    ∧ ((DatabaseEventSystem.mk (fun _ => [])).publish rt .TRANSACTION_COMPLETE data).effects
        = [.emitted .TRANSACTION_COMPLETE data] := by
  simp [DatabaseEventSystem.publish, emit, DatabaseEventType.value]

/-! ## Traces of the driver methods -/

@[simp] theorem emittedEvents_append (a b : List Effect) :
    emittedEvents (a ++ b) = emittedEvents a ++ emittedEvents b := by
  induction a with
  | nil => rfl
  | cons x xs ih => cases x <;> simp [emittedEvents, ih]

@[simp] theorem closedSessions_append (a b : List Effect) :
    closedSessions (a ++ b) = closedSessions a ++ closedSessions b := by
  induction a with
  | nil => rfl
  | cons x xs ih => cases x <;> simp [closedSessions, ih]

@[simp] theorem openedSessions_append (a b : List Effect) :
    openedSessions (a ++ b) = openedSessions a ++ openedSessions b := by
  induction a with
  | nil => rfl
  | cons x xs ih => cases x <;> simp [openedSessions, ih]

@[simp] theorem createdDrivers_append (a b : List Effect) :
    createdDrivers (a ++ b) = createdDrivers a ++ createdDrivers b := by
  induction a with
  | nil => rfl
  | cons x xs ih => cases x <;> simp [createdDrivers, ih]

@[simp] theorem exportCount_append (a b : List Effect) :
    exportCount (a ++ b) = exportCount a + exportCount b := by
  induction a with
  | nil => simp [exportCount]
  | cons x xs ih =>
    cases x
    all_goals simp [exportCount, ih]
    omega

@[simp] theorem writeEvents_append (a b : List Effect) :
    writeEvents (a ++ b) = writeEvents a ++ writeEvents b := by
  simp [writeEvents]

theorem called_quiet (fs : List Fn) (t : DatabaseEventType) (data : Payload) :
    emittedEvents (fs.map (fun f => Effect.listenerCalled f t data)) = []
    ∧ closedSessions (fs.map (fun f => Effect.listenerCalled f t data)) = []
    ∧ openedSessions (fs.map (fun f => Effect.listenerCalled f t data)) = []
    ∧ createdDrivers (fs.map (fun f => Effect.listenerCalled f t data)) = []
    ∧ exportCount (fs.map (fun f => Effect.listenerCalled f t data)) = 0 := by
  induction fs with
  | nil => simp [emittedEvents, closedSessions, openedSessions, createdDrivers, exportCount]
  | cons x xs ih =>
    simpa [emittedEvents, closedSessions, openedSessions, createdDrivers, exportCount] using ih

theorem publish_effects (rt : Runtime) (bus : DatabaseEventSystem) (t : DatabaseEventType)
    (data : Payload) :
    emittedEvents (bus.publish rt t data).effects = [(t, data)]
    ∧ closedSessions (bus.publish rt t data).effects = []
    ∧ openedSessions (bus.publish rt t data).effects = []
    ∧ createdDrivers (bus.publish rt t data).effects = []
    ∧ exportCount (bus.publish rt t data).effects = 0 := by
  unfold DatabaseEventSystem.publish emit
  have h := called_quiet
  split
  · split
    all_goals simp [emittedEvents, closedSessions, openedSessions, createdDrivers, exportCount]
  · simp [emittedEvents, closedSessions, openedSessions, createdDrivers, exportCount, h]

@[simp] theorem emittedEvents_publish (rt : Runtime) (bus : DatabaseEventSystem)
    (t : DatabaseEventType) (data : Payload) :
    emittedEvents (bus.publish rt t data).effects = [(t, data)] :=
  (publish_effects rt bus t data).1

@[simp] theorem closedSessions_publish (rt : Runtime) (bus : DatabaseEventSystem)
    (t : DatabaseEventType) (data : Payload) :
    closedSessions (bus.publish rt t data).effects = [] :=
  (publish_effects rt bus t data).2.1

@[simp] theorem openedSessions_publish (rt : Runtime) (bus : DatabaseEventSystem)
    (t : DatabaseEventType) (data : Payload) :
    openedSessions (bus.publish rt t data).effects = [] :=
  (publish_effects rt bus t data).2.2.1

@[simp] theorem createdDrivers_publish (rt : Runtime) (bus : DatabaseEventSystem)
    (t : DatabaseEventType) (data : Payload) :
    createdDrivers (bus.publish rt t data).effects = [] :=
  (publish_effects rt bus t data).2.2.2.1

@[simp] theorem exportCount_publish (rt : Runtime) (bus : DatabaseEventSystem)
    (t : DatabaseEventType) (data : Payload) :
    exportCount (bus.publish rt t data).effects = 0 :=
  (publish_effects rt bus t data).2.2.2.2

@[simp] theorem State.publish_trace (rt : Runtime) (s : State) (t : DatabaseEventType)
    (data : Payload) :
    (s.publish rt t data).2.trace = s.trace ++ (s.bus.publish rt t data).effects := rfl

@[simp] theorem State.publish_neo (rt : Runtime) (s : State) (t : DatabaseEventType)
    (data : Payload) : (s.publish rt t data).2.neo = s.neo := rfl

@[simp] theorem State.publish_thrown (rt : Runtime) (s : State) (t : DatabaseEventType)
    (data : Payload) : (s.publish rt t data).1 = (s.bus.publish rt t data).thrown := rfl


theorem closeSession_snd (ext : External) (session : Nat) (r : Outcome Records × State) :
    (closeSession ext session r).2 = r.2.record [.sessionClosed session] := by
  unfold closeSession
  split <;> rfl

theorem closeSession_fst (ext : External) (session : Nat) (r : Outcome Records × State) :
    (closeSession ext session r).1 =
      match ext.closeSession with
      | some e => .threw e
      | none => r.1 := by
  unfold closeSession
  split <;> rfl

theorem catchBlock_snd (rt : Runtime) (ext : External) (operation logMessage cypher : String)
    (error : JsValue) (s : State) :
    (catchBlock rt ext operation logMessage cypher error s).2 =
      ((s.record [.log "error" logMessage]).publish rt .ERROR
        (.error ext.nowCatch operation (errorMessage error) cypher)).2 := by
  unfold catchBlock
  simp only
  split <;> rfl

theorem catchBlock_fst (rt : Runtime) (ext : External) (operation logMessage cypher : String)
    (error : JsValue) (s : State) :
    (catchBlock rt ext operation logMessage cypher error s).1 =
      match (s.bus.publish rt .ERROR
          (.error ext.nowCatch operation (errorMessage error) cypher)).thrown with
      | some e => .threw e
      | none => .threw error := by
  unfold catchBlock
  simp only [State.publish_thrown]
  split <;> simp_all [State.record]

theorem executeQueryBody_failed (rt : Runtime) (ext : External) (cypher : String)
    (params : Params) (session : Nat) (s : State) (e : JsValue)
    (htx : ext.transaction = .threw e) :
    executeQueryBody rt ext cypher params session s =
      closeSession ext session
        (catchBlock rt ext "executeQuery" "Error executing Neo4j query" cypher e
          (s.record [.transaction session true false])) := by
  simp [executeQueryBody, executeQueryTry, htx]

theorem executeQueryBody_committed (rt : Runtime) (ext : External) (cypher : String)
    (params : Params) (session : Nat) (s : State) (result : Records)
    (htx : ext.transaction = .returned result)
    (hp : (publishWriteOperation rt ext cypher params
            (s.record [.transaction session true true])).1 = none) :
    executeQueryBody rt ext cypher params session s =
      closeSession ext session
        (.returned result,
         (publishWriteOperation rt ext cypher params
            (s.record [.transaction session true true])).2) := by
  simp [executeQueryBody, executeQueryTry, htx, hp]

theorem executeQueryBody_publish_raised (rt : Runtime) (ext : External) (cypher : String)
    (params : Params) (session : Nat) (s : State) (result : Records) (e : JsValue)
    (htx : ext.transaction = .returned result)
    (hp : (publishWriteOperation rt ext cypher params
            (s.record [.transaction session true true])).1 = some e) :
    executeQueryBody rt ext cypher params session s =
      closeSession ext session
        (catchBlock rt ext "executeQuery" "Error executing Neo4j query" cypher e
          (publishWriteOperation rt ext cypher params
            (s.record [.transaction session true true])).2) := by
  simp [executeQueryBody, executeQueryTry, htx, hp]

/-- What the body of `executeQuery` appends to the trace. -/
theorem executeQueryBody_trace (rt : Runtime) (ext : External) (cypher : String)
    (params : Params) (session : Nat) (s : State) :
    ∃ es, (executeQueryBody rt ext cypher params session s).2.trace
        = s.trace ++ es ++ [.sessionClosed session]
      ∧ closedSessions es = [] ∧ openedSessions es = [] ∧ createdDrivers es = []
      ∧ exportCount es = 0
      ∧ (∀ result, ext.transaction = .returned result →
          writeEvents es = [.write ext.now (s.neo.transactionCounter + 1) cypher params]
          ∧ (executeQueryBody rt ext cypher params session s).2.neo.transactionCounter
              = s.neo.transactionCounter + 1)
      ∧ (∀ e, ext.transaction = .threw e →
          emittedEvents es = [(.ERROR, .error ext.nowCatch "executeQuery" (errorMessage e) cypher)]
          ∧ (executeQueryBody rt ext cypher params session s).2.neo.transactionCounter
              = s.neo.transactionCounter) := by
  cases htx : ext.transaction with
  | threw e =>
    rw [executeQueryBody_failed rt ext cypher params session s e htx]
    refine ⟨[.transaction session true false, .log "error" "Error executing Neo4j query"]
      ++ (s.bus.publish rt .ERROR
            (.error ext.nowCatch "executeQuery" (errorMessage e) cypher)).effects, ?_, ?_⟩
    · simp [closeSession_snd, catchBlock_snd, State.record]
    · simp [emittedEvents, closedSessions, openedSessions, createdDrivers, exportCount,
        closeSession_snd, catchBlock_snd, State.record]
  | returned result =>
    cases hp : (publishWriteOperation rt ext cypher params
            (s.record [.transaction session true true])).1 with
    | none =>
      rw [executeQueryBody_committed rt ext cypher params session s result htx hp]
      refine ⟨[.transaction session true true]
        ++ (s.bus.publish rt .WRITE_OPERATION
              (.write ext.now (s.neo.transactionCounter + 1) cypher params)).effects, ?_, ?_⟩
      · simp [closeSession_snd, State.record, publishWriteOperation]
      · simp [emittedEvents, closedSessions, openedSessions, createdDrivers, exportCount,
          closeSession_snd, State.record, publishWriteOperation, writeEvents]
    | some e =>
      rw [executeQueryBody_publish_raised rt ext cypher params session s result e htx hp]
      refine ⟨[.transaction session true true]
        ++ (s.bus.publish rt .WRITE_OPERATION
              (.write ext.now (s.neo.transactionCounter + 1) cypher params)).effects
        ++ [.log "error" "Error executing Neo4j query"]
        ++ ((s.bus.publish rt .WRITE_OPERATION
              (.write ext.now (s.neo.transactionCounter + 1) cypher params)).bus.publish rt .ERROR
              (.error ext.nowCatch "executeQuery" (errorMessage e) cypher)).effects, ?_, ?_⟩
      · simp [closeSession_snd, catchBlock_snd, State.record, publishWriteOperation]
        rfl
      · simp [emittedEvents, closedSessions, openedSessions, createdDrivers, exportCount,
          closeSession_snd, catchBlock_snd, State.record, publishWriteOperation, writeEvents]

/-- What `getSession` appends to the trace: nothing is published or closed,
and a session is opened exactly when one is returned. -/
theorem getSession_trace (rt : Runtime) (ext : External) (db : Option String) (s : State) :
    ∃ es, (getSession rt ext db s).2.trace = s.trace ++ es
      ∧ emittedEvents es = [] ∧ closedSessions es = [] ∧ exportCount es = 0
      ∧ calledFns es = []
      ∧ openedSessions es =
          (match (getSession rt ext db s).1 with
            | .returned session => [session]
            | .threw _ => [])
      ∧ (getSession rt ext db s).2.neo.transactionCounter = s.neo.transactionCounter
      ∧ (getSession rt ext db s).2.bus = s.bus := by
  refine ⟨effectsSince s (getSession rt ext db s).2, ?_⟩
  unfold getSession getDriver awaitDriver initDriverStart initDriverResume initDriverCatch
    State.record effectsSince
  simp only
  repeat' split
  all_goals simp_all [emittedEvents, closedSessions, openedSessions, exportCount, calledFns]

/-- The WRITE_OPERATION events and the counter across one `executeQuery`. -/
theorem executeQuery_writeEvents (rt : Runtime) (ext : External) (cypher : String)
    (params : Params) (db : Option String) (s : State) :
    (∀ session result, (getSession rt ext db s).1 = .returned session →
        ext.transaction = .returned result →
        writeEvents (executeQuery rt ext cypher params db s).2.trace
          = writeEvents s.trace ++ [.write ext.now (s.neo.transactionCounter + 1) cypher params]
        ∧ (executeQuery rt ext cypher params db s).2.neo.transactionCounter
          = s.neo.transactionCounter + 1)
    ∧ (((∃ e, (getSession rt ext db s).1 = .threw e) ∨ ∃ e, ext.transaction = .threw e) →
        writeEvents (executeQuery rt ext cypher params db s).2.trace = writeEvents s.trace
        ∧ (executeQuery rt ext cypher params db s).2.neo.transactionCounter
          = s.neo.transactionCounter) := by
  obtain ⟨gs, hg, hge, -, -, -, -, hgc, -⟩ := getSession_trace rt ext db s
  have hgw : writeEvents gs = [] := by simp [writeEvents, hge]
  cases hs : (getSession rt ext db s).1 with
  | threw e0 =>
    have hq : executeQuery rt ext cypher params db s = (.threw e0, (getSession rt ext db s).2) := by
      simp [executeQuery, hs]
    constructor
    · intro session result h
      simp at h
    · intro _
      rw [hq]
      simp [hg, hgw, hgc]
  | returned session =>
    have hq : executeQuery rt ext cypher params db s
        = executeQueryBody rt ext cypher params session (getSession rt ext db s).2 := by
      simp [executeQuery, hs]
    obtain ⟨es, hb, -, -, -, -, hok, hfail⟩ :=
      executeQueryBody_trace rt ext cypher params session (getSession rt ext db s).2
    rw [hq]
    constructor
    · intro _ result _ htx
      obtain ⟨hw, hc⟩ := hok result htx
      have hcl : writeEvents [Effect.sessionClosed session] = [] := rfl
      simp [hb, hg, hgw, hw, hc, hgc, hcl]
    · intro h
      rcases h with ⟨e, he⟩ | ⟨e, he⟩
      · simp at he
      · obtain ⟨hw, hc⟩ := hfail e he
        have hes : writeEvents es = [] := by simp [writeEvents, hw]
        have hcl : writeEvents [Effect.sessionClosed session] = [] := rfl
        simp [hb, hg, hgw, hes, hc, hgc, hcl]

/-! ## Write events and the transaction counter -/

theorem executeQuery_WriteInv (rt : Runtime) (ext : External) (cypher : String)
    (params : Params) (db : Option String) (s : State) (h : WriteInv s) :
    WriteInv (executeQuery rt ext cypher params db s).2 := by
  obtain ⟨hok, hfail⟩ := executeQuery_writeEvents rt ext cypher params db s
  have keep : writeEvents (executeQuery rt ext cypher params db s).2.trace = writeEvents s.trace
      ∧ (executeQuery rt ext cypher params db s).2.neo.transactionCounter
          = s.neo.transactionCounter →
      WriteInv (executeQuery rt ext cypher params db s).2 := by
    rintro ⟨hw, hc⟩ p hp
    rw [hw] at hp
    rw [hc]
    exact h p hp
  cases hs : (getSession rt ext db s).1 with
  | threw e => exact keep (hfail (Or.inl ⟨e, hs⟩))
  | returned session =>
    cases htx : ext.transaction with
    | threw e => exact keep (hfail (Or.inr ⟨e, htx⟩))
    | returned result =>
      obtain ⟨hw, hc⟩ := hok session result hs htx
      intro p hp
      rw [hw] at hp
      rw [hc]
      rcases List.mem_append.mp hp with hp | hp
      · obtain ⟨i, hi, hle⟩ := h p hp
        exact ⟨i, hi, Nat.le_succ_of_le hle⟩
      · rw [List.mem_singleton] at hp
        subst hp
        exact ⟨_, rfl, le_refl _⟩

theorem runQueries_WriteInv (rt : Runtime) (calls : List QueryCall) (s : State)
    (h : WriteInv s) : WriteInv (runQueries rt calls s) := by
  induction calls generalizing s with
  | nil => exact h
  | cons c cs ih =>
    exact ih _ (executeQuery_WriteInv rt c.ext c.cypher c.params c.database s h)

theorem start_WriteInv (rt : Runtime) (bus : DatabaseEventSystem) :
    WriteInv (State.start rt bus) := by
  intro p hp
  simp [State.start, State.init, writeEvents, emittedEvents] at hp

/-- C1: after any sequence of `executeQuery` calls since startup, a further
`executeQuery` call that obtains its session and whose write transaction
succeeds publishes exactly one WRITE_OPERATION event, and the `transactionId`
it carries is strictly greater than the `transactionId` of every
WRITE_OPERATION event published before. -/
theorem executeQuery_publishes_one_increasing_write (rt : Runtime)
    (bus : DatabaseEventSystem) (calls : List QueryCall) (c : QueryCall)
    (session : Nat) (result : Records)
    (hs : (getSession rt c.ext c.database
            (runQueries rt calls (State.start rt bus))).1 = .returned session)
    (htx : c.ext.transaction = .returned result) :
    ∃ tid,
      writeEvents (c.run rt (runQueries rt calls (State.start rt bus))).2.trace
        = writeEvents (runQueries rt calls (State.start rt bus)).trace
            ++ [.write c.ext.now tid c.cypher c.params]
      ∧ ∀ p ∈ writeEvents (runQueries rt calls (State.start rt bus)).trace,
          ∃ i, p.transactionId = some i ∧ i < tid := by
  have hinv := runQueries_WriteInv rt calls _ (start_WriteInv rt bus)
  obtain ⟨hw, -⟩ := (executeQuery_writeEvents rt c.ext c.cypher c.params c.database
    (runQueries rt calls (State.start rt bus))).1 session result hs htx
  refine ⟨(runQueries rt calls (State.start rt bus)).neo.transactionCounter + 1, hw, ?_⟩
  intro p hp
  obtain ⟨i, hi, hle⟩ := hinv p hp
  exact ⟨i, hi, Nat.lt_succ_of_le hle⟩

/-- Witness for C1: a second successful write after a first one. -/
theorem executeQuery_publishes_one_increasing_write_witness :
    ∃ tid,
      writeEvents (sampleCall.run production
          (runQueries production [sampleCall]
            (State.start production (busWith .WRITE_OPERATION [quietListener 1])))).2.trace
        = writeEvents (runQueries production [sampleCall]
            (State.start production (busWith .WRITE_OPERATION [quietListener 1]))).trace
            ++ [.write sampleCall.ext.now tid sampleCall.cypher sampleCall.params]
      ∧ ∀ p ∈ writeEvents (runQueries production [sampleCall]
            (State.start production (busWith .WRITE_OPERATION [quietListener 1]))).trace,
          ∃ i, p.transactionId = some i ∧ i < tid :=
  executeQuery_publishes_one_increasing_write production
    (busWith .WRITE_OPERATION [quietListener 1]) [sampleCall] sampleCall 1 ["row"]
    (by decide) rfl

/-! ## Sessions -/

theorem executeReadQueryBody_failed (rt : Runtime) (ext : External) (cypher : String)
    (session : Nat) (s : State) (e : JsValue) (htx : ext.transaction = .threw e) :
    executeReadQueryBody rt ext cypher session s =
      closeSession ext session
        (catchBlock rt ext "executeReadQuery" "Error executing Neo4j read query" cypher e
          (s.record [.transaction session false false])) := by
  simp [executeReadQueryBody, executeReadQueryTry, htx]

theorem executeReadQueryBody_delivered (rt : Runtime) (ext : External) (cypher : String)
    (session : Nat) (s : State) (result : Records)
    (htx : ext.transaction = .returned result)
    (hp : (s.bus.publish rt .READ_OPERATION (.read ext.now cypher)).thrown = none) :
    executeReadQueryBody rt ext cypher session s =
      closeSession ext session
        (.returned result,
         ((s.record [.transaction session false true]).publish rt .READ_OPERATION
            (.read ext.now cypher)).2) := by
  simp [executeReadQueryBody, executeReadQueryTry, htx, hp, State.record]

theorem executeReadQueryBody_publish_raised (rt : Runtime) (ext : External) (cypher : String)
    (session : Nat) (s : State) (result : Records) (e : JsValue)
    (htx : ext.transaction = .returned result)
    (hp : (s.bus.publish rt .READ_OPERATION (.read ext.now cypher)).thrown = some e) :
    executeReadQueryBody rt ext cypher session s =
      closeSession ext session
        (catchBlock rt ext "executeReadQuery" "Error executing Neo4j read query" cypher e
          ((s.record [.transaction session false true]).publish rt .READ_OPERATION
            (.read ext.now cypher)).2) := by
  simp [executeReadQueryBody, executeReadQueryTry, htx, hp, State.record]

/-- What the body of `executeReadQuery` appends to the trace. -/
theorem executeReadQueryBody_trace (rt : Runtime) (ext : External) (cypher : String)
    (session : Nat) (s : State) :
    ∃ es, (executeReadQueryBody rt ext cypher session s).2.trace
        = s.trace ++ es ++ [.sessionClosed session]
      ∧ closedSessions es = [] ∧ openedSessions es = [] ∧ createdDrivers es = []
      ∧ exportCount es = 0
      ∧ (executeReadQueryBody rt ext cypher session s).2.neo = s.neo
      ∧ (∀ result, ext.transaction = .returned result →
          (s.bus.publish rt .READ_OPERATION (.read ext.now cypher)).thrown = none →
          emittedEvents es = [(.READ_OPERATION, .read ext.now cypher)])
      ∧ (∀ result e, ext.transaction = .returned result →
          (s.bus.publish rt .READ_OPERATION (.read ext.now cypher)).thrown = some e →
          emittedEvents es =
            [(.READ_OPERATION, .read ext.now cypher),
             (.ERROR, .error ext.nowCatch "executeReadQuery" (errorMessage e) cypher)])
      ∧ (∀ e, ext.transaction = .threw e →
          emittedEvents es =
            [(.ERROR, .error ext.nowCatch "executeReadQuery" (errorMessage e) cypher)]) := by
  cases htx : ext.transaction with
  | threw e =>
    rw [executeReadQueryBody_failed rt ext cypher session s e htx]
    refine ⟨[.transaction session false false, .log "error" "Error executing Neo4j read query"]
      ++ (s.bus.publish rt .ERROR
            (.error ext.nowCatch "executeReadQuery" (errorMessage e) cypher)).effects, ?_, ?_⟩
    · simp [closeSession_snd, catchBlock_snd, State.record]
    · simp [emittedEvents, closedSessions, openedSessions, createdDrivers, exportCount,
        closeSession_snd, catchBlock_snd, State.record]
  | returned result =>
    cases hp : (s.bus.publish rt .READ_OPERATION (.read ext.now cypher)).thrown with
    | none =>
      rw [executeReadQueryBody_delivered rt ext cypher session s result htx hp]
      refine ⟨[.transaction session false true]
        ++ (s.bus.publish rt .READ_OPERATION (.read ext.now cypher)).effects, ?_, ?_⟩
      · simp [closeSession_snd, State.record]
      · simp [emittedEvents, closedSessions, openedSessions, createdDrivers, exportCount,
          closeSession_snd, State.record]
    | some e =>
      rw [executeReadQueryBody_publish_raised rt ext cypher session s result e htx hp]
      refine ⟨[.transaction session false true]
        ++ (s.bus.publish rt .READ_OPERATION (.read ext.now cypher)).effects
        ++ [.log "error" "Error executing Neo4j read query"]
        ++ ((s.bus.publish rt .READ_OPERATION (.read ext.now cypher)).bus.publish rt .ERROR
              (.error ext.nowCatch "executeReadQuery" (errorMessage e) cypher)).effects, ?_, ?_⟩
      · simp [closeSession_snd, catchBlock_snd, State.record]
        rfl
      · simp [emittedEvents, closedSessions, openedSessions, createdDrivers, exportCount,
          closeSession_snd, catchBlock_snd, State.record]

theorem executeQuery_of_session (rt : Runtime) (ext : External) (cypher : String)
    (params : Params) (db : Option String) (s : State) (session : Nat)
    (hs : (getSession rt ext db s).1 = .returned session) :
    executeQuery rt ext cypher params db s
      = executeQueryBody rt ext cypher params session (getSession rt ext db s).2 := by
  simp [executeQuery, hs]

theorem executeReadQuery_of_session (rt : Runtime) (ext : External) (cypher : String)
    (db : Option String) (s : State) (session : Nat)
    (hs : (getSession rt ext db s).1 = .returned session) :
    executeReadQuery rt ext cypher db s
      = executeReadQueryBody rt ext cypher session (getSession rt ext db s).2 := by
  simp [executeReadQuery, hs]

/-- C3: an `executeQuery` or `executeReadQuery` call that obtains a session
opens that one session, invokes `close()` on it exactly once, and does so as
its last action, whatever the transaction, the handlers and `close()` itself
do: everything the call appends to the trace is the opening of the session,
effects without any `close()`, and then the one `close()` of that session. -/
theorem session_closed_exactly_once (rt : Runtime) (ext : External) (cypher : String)
    (params : Params) (db : Option String) (s : State) (session : Nat)
    (hs : (getSession rt ext db s).1 = .returned session) :
    (∃ es, (executeQuery rt ext cypher params db s).2.trace
          = s.trace ++ es ++ [.sessionClosed session]
        ∧ closedSessions es = [] ∧ openedSessions es = [session])
    ∧ (∃ es, (executeReadQuery rt ext cypher db s).2.trace
          = s.trace ++ es ++ [.sessionClosed session]
        ∧ closedSessions es = [] ∧ openedSessions es = [session]) := by
  obtain ⟨gs, hg, -, hgc, -, -, hgo, -, -⟩ := getSession_trace rt ext db s
  rw [hs] at hgo
  constructor
  · obtain ⟨es, hb, hc, ho, -⟩ :=
      executeQueryBody_trace rt ext cypher params session (getSession rt ext db s).2
    refine ⟨gs ++ es, ?_, ?_, ?_⟩
    · rw [executeQuery_of_session rt ext cypher params db s session hs, hb, hg]
      simp
    · simp [hgc, hc]
    · simp [hgo, ho]
  · obtain ⟨es, hb, hc, ho, -⟩ :=
      executeReadQueryBody_trace rt ext cypher session (getSession rt ext db s).2
    refine ⟨gs ++ es, ?_, ?_, ?_⟩
    · rw [executeReadQuery_of_session rt ext cypher db s session hs, hb, hg]
      simp
    · simp [hgc, hc]
    · simp [hgo, ho]

/-- Witness for C3: the transaction fails and the only ERROR handler raises. -/
theorem session_closed_exactly_once_witness :
    (∃ es, (executeQuery production failingTransaction "CREATE (n)" [] none
            (State.start production (busWith .ERROR [raisingListener 1]))).2.trace
          = (State.start production (busWith .ERROR [raisingListener 1])).trace
              ++ es ++ [.sessionClosed 0]
        ∧ closedSessions es = [] ∧ openedSessions es = [0])
    ∧ (∃ es, (executeReadQuery production failingTransaction "CREATE (n)" none
            (State.start production (busWith .ERROR [raisingListener 1]))).2.trace
          = (State.start production (busWith .ERROR [raisingListener 1])).trace
              ++ es ++ [.sessionClosed 0]
        ∧ closedSessions es = [] ∧ openedSessions es = [0]) :=
  session_closed_exactly_once production failingTransaction "CREATE (n)" [] none
    (State.start production (busWith .ERROR [raisingListener 1])) 0 (by decide)

/-! ## Failed writes -/

/-- C2 at its failing input: the write transaction fails with `e`, the
session closes cleanly, and no handler is subscribed to ERROR.  The ERROR
event is published, but the emitter throws ERR_UNHANDLED_ERROR out of the
catch block, so the call fails with that error and `throw error` is never
reached. -/
theorem executeQuery_failure_without_ERROR_handler (rt : Runtime) (ext : External)
    (cypher : String) (params : Params) (db : Option String) (s : State) (session : Nat)
    (e : JsValue)
    (hs : (getSession rt ext db s).1 = .returned session)
    (htx : ext.transaction = .threw e)
    (hclose : ext.closeSession = none)
    (hbus : s.bus.listeners .ERROR = []) :
    (executeQuery rt ext cypher params db s).1
      = .threw (unhandledError
          (rt.inspect (.error ext.nowCatch "executeQuery" (errorMessage e) cypher)))
    ∧ (.ERROR, .error ext.nowCatch "executeQuery" (errorMessage e) cypher)
        ∈ emittedEvents (executeQuery rt ext cypher params db s).2.trace := by
  obtain ⟨gs, hg, -, -, -, -, -, -, hgb⟩ := getSession_trace rt ext db s
  rw [executeQuery_of_session rt ext cypher params db s session hs,
    executeQueryBody_failed rt ext cypher params session _ e htx]
  constructor
  · rw [closeSession_fst, catchBlock_fst, hclose]
    simp [State.record, hgb, DatabaseEventSystem.publish, emit, hbus, DatabaseEventType.value]
  · simp [closeSession_snd, catchBlock_snd, State.record, emittedEvents]

/-- Witness for C2: production, nobody subscribed, the transaction throws
`boom`; the caller receives ERR_UNHANDLED_ERROR instead. -/
theorem executeQuery_failure_without_ERROR_handler_witness :
    (executeQuery production failingTransaction "CREATE (n)" [] none
        (State.init production)).1
      = .threw (unhandledError
          (production.inspect (.error failingTransaction.nowCatch "executeQuery"
            (errorMessage boom) "CREATE (n)")))
    ∧ (.ERROR, .error failingTransaction.nowCatch "executeQuery" (errorMessage boom)
          "CREATE (n)")
        ∈ emittedEvents (executeQuery production failingTransaction "CREATE (n)" [] none
            (State.init production)).2.trace :=
  executeQuery_failure_without_ERROR_handler production failingTransaction "CREATE (n)" []
    none (State.init production) 0 boom (by decide) rfl rfl rfl

/-- With at least one handler subscribed to ERROR, none of which raises, and
a clean `close()`, a failed write does fail with the original error. -/
theorem executeQuery_failure_rethrown_with_ERROR_handler (rt : Runtime) (ext : External)
    (cypher : String) (params : Params) (db : Option String) (s : State) (session : Nat)
    (e : JsValue) (l : Listener) (ls : List Listener)
    (hs : (getSession rt ext db s).1 = .returned session)
    (htx : ext.transaction = .threw e)
    (hclose : ext.closeSession = none)
    (hbus : s.bus.listeners .ERROR = l :: ls)
    (hquiet : ∀ x ∈ l :: ls,
      x.run (.error ext.nowCatch "executeQuery" (errorMessage e) cypher) = none) :
    (executeQuery rt ext cypher params db s).1 = .threw e := by
  obtain ⟨gs, hg, -, -, -, -, -, -, hgb⟩ := getSession_trace rt ext db s
  rw [executeQuery_of_session rt ext cypher params db s session hs,
    executeQueryBody_failed rt ext cypher params session _ e htx,
    closeSession_fst, catchBlock_fst, hclose]
  have hp := (emit_nonempty rt s.bus .ERROR
    (.error ext.nowCatch "executeQuery" (errorMessage e) cypher) l ls hbus).1
  rw [deliver_all_return _ _ hquiet] at hp
  simp [State.record, hgb, hp]

/-! ## Reads -/

theorem deliver_thrown (data : Payload) (ls : List Listener) (e : JsValue)
    (h : (deliver data ls).2.2 = some e) : ∃ l ∈ ls, l.run data = some e := by
  induction ls with
  | nil => simp [deliver] at h
  | cons x xs ih =>
    cases hx : x.run data with
    | some e0 =>
      simp [deliver, hx] at h
      exact ⟨x, by simp, by rw [hx, h]⟩
    | none =>
      simp [deliver, hx] at h
      obtain ⟨l, hl, hr⟩ := ih h
      exact ⟨l, by simp [hl], hr⟩

theorem publish_thrown_READ (rt : Runtime) (bus : DatabaseEventSystem) (data : Payload) :
    (bus.publish rt .READ_OPERATION data).thrown
      = (deliver data (bus.listeners .READ_OPERATION)).2.2 := by
  cases hl : bus.listeners .READ_OPERATION with
  | nil => simp [DatabaseEventSystem.publish, emit, hl, DatabaseEventType.value, deliver]
  | cons x xs => exact (emit_nonempty rt bus .READ_OPERATION data x xs hl).1

/-- C4, as stated, fails: the read transaction succeeds, a READ_OPERATION
handler raises, and the call publishes an ERROR event after the
READ_OPERATION event. -/
theorem executeReadQuery_success_publishes_ERROR :
    healthy.transaction = .returned ["row"]
    ∧ emittedEvents (executeReadQuery production healthy "MATCH (n) RETURN n" none
        (State.start production busReadRaises)).2.trace
      = [(.READ_OPERATION, .read healthy.now "MATCH (n) RETURN n"),
         (.ERROR, .error healthy.nowCatch "executeReadQuery" "boom" "MATCH (n) RETURN n")] := by
  decide

/-- C4, amended: an `executeReadQuery` call that obtains a session publishes,
when the read transaction succeeds, exactly one READ_OPERATION event carrying
the query; no ERROR event when no READ_OPERATION handler raises, and when
one raises exactly one ERROR event, carrying the error message of the first
handler that raises, after it; when the transaction fails it publishes
exactly one ERROR event and no READ_OPERATION event.  Every call, with or
without a session, publishes no WRITE_OPERATION event, leaves
`transactionCounter` unchanged and never calls `exportDatabase`. -/
theorem executeReadQuery_events (rt : Runtime) (ext : External) (cypher : String)
    (db : Option String) (s : State) :
    ∃ es, (executeReadQuery rt ext cypher db s).2.trace = s.trace ++ es
      ∧ (∀ session result, (getSession rt ext db s).1 = .returned session →
          ext.transaction = .returned result →
          ((∀ l ∈ s.bus.listeners .READ_OPERATION, l.run (.read ext.now cypher) = none) →
            emittedEvents es = [(.READ_OPERATION, .read ext.now cypher)])
          ∧ (∀ pre l post e, s.bus.listeners .READ_OPERATION = pre ++ l :: post →
              (∀ x ∈ pre, x.run (.read ext.now cypher) = none) →
              l.run (.read ext.now cypher) = some e →
              emittedEvents es =
                [(.READ_OPERATION, .read ext.now cypher),
                 (.ERROR, .error ext.nowCatch "executeReadQuery" (errorMessage e) cypher)]))
      ∧ (∀ session e, (getSession rt ext db s).1 = .returned session →
          ext.transaction = .threw e →
          emittedEvents es =
            [(.ERROR, .error ext.nowCatch "executeReadQuery" (errorMessage e) cypher)])
      ∧ writeEvents es = []
      ∧ exportCount es = 0
      ∧ (executeReadQuery rt ext cypher db s).2.neo.transactionCounter
          = s.neo.transactionCounter := by
  obtain ⟨gs, hg, hge, -, hgx, -, -, hgc, hgb⟩ := getSession_trace rt ext db s
  cases hs : (getSession rt ext db s).1 with
  | threw e0 =>
    have hq : executeReadQuery rt ext cypher db s = (.threw e0, (getSession rt ext db s).2) := by
      simp [executeReadQuery, hs]
    refine ⟨gs, by rw [hq]; exact hg, ?_, ?_, by simp [writeEvents, hge], hgx,
      by rw [hq]; exact hgc⟩
    · intro session result h
      cases h
    · intro session e h
      cases h
  | returned session =>
    obtain ⟨es, hb, -, -, -, hx, hneo, hquiet, hraise, hfail⟩ :=
      executeReadQueryBody_trace rt ext cypher session (getSession rt ext db s).2
    rw [hgb] at hquiet hraise
    have hthrown := publish_thrown_READ rt s.bus (.read ext.now cypher)
    have hcl : emittedEvents [Effect.sessionClosed session] = [] := rfl
    have hxcl : exportCount [Effect.sessionClosed session] = 0 := rfl
    have hall : emittedEvents (gs ++ es ++ [Effect.sessionClosed session])
        = emittedEvents es := by
      simp [hge, hcl]
    refine ⟨gs ++ es ++ [.sessionClosed session], ?_, ?_, ?_, ?_, ?_, ?_⟩
    · rw [executeReadQuery_of_session rt ext cypher db s session hs, hb, hg]
      simp
    · intro _ result _ htx
      rw [hall]
      constructor
      · intro hq
        apply hquiet result htx
        rw [hthrown, deliver_all_return _ _ hq]
      · intro pre l post e hsub hpre hl
        apply hraise result e htx
        rw [hthrown, hsub, deliver_until_raise _ pre l post e hpre hl]
    · intro _ e _ htx
      rw [hall]
      exact hfail e htx
    · unfold writeEvents
      rw [hall]
      cases htx : ext.transaction with
      | threw e => simp [hfail e htx]
      | returned result =>
        cases hp : (s.bus.publish rt .READ_OPERATION (.read ext.now cypher)).thrown with
        | none => simp [hquiet result htx hp]
        | some e => simp [hraise result e htx hp]
    · simp [hgx, hx, hxcl]
    · rw [executeReadQuery_of_session rt ext cypher db s session hs, hneo, hgc]

/-- Witness for C4: a successful read with one returning handler subscribed. -/
theorem executeReadQuery_events_witness :
    ∃ es, (executeReadQuery production healthy "MATCH (n) RETURN n" none
          (State.start production (busWith .READ_OPERATION [quietListener 1]))).2.trace
        = (State.start production (busWith .READ_OPERATION [quietListener 1])).trace ++ es
      ∧ emittedEvents es = [(.READ_OPERATION, .read healthy.now "MATCH (n) RETURN n")]
      ∧ writeEvents es = []
      ∧ exportCount es = 0
      ∧ (executeReadQuery production healthy "MATCH (n) RETURN n" none
          (State.start production (busWith .READ_OPERATION [quietListener 1]))).2.neo.transactionCounter
          = (State.start production
              (busWith .READ_OPERATION [quietListener 1])).neo.transactionCounter := by
  obtain ⟨es, h1, h2, -, h4, h5, h6⟩ :=
    executeReadQuery_events production healthy "MATCH (n) RETURN n" none
      (State.start production (busWith .READ_OPERATION [quietListener 1]))
  exact ⟨es, h1,
    (h2 0 ["row"] (by decide) rfl).1 (by simp [State.start, busWith, quietListener]),
    h4, h5, h6⟩

/-- C5, as stated, fails: when the database is unreachable
(`verifyConnectivity` rejects) `getSession` fails and `executeReadQuery`
fails with the same plain `Error`, which is not a `ConnectionError` and
carries no error code. -/
theorem executeReadQuery_session_failure_is_plain_Error :
    (getSession production verifyFails none (State.init production)).1
      = .threw (.error "Error" "Failed to initialize Neo4j connection: boom" none)
    ∧ (executeReadQuery production verifyFails "MATCH (n) RETURN n" none
        (State.init production)).1
      = .threw (.error "Error" "Failed to initialize Neo4j connection: boom" none)
    ∧ (JsValue.error "Error" "Failed to initialize Neo4j connection: boom" none).isNamed
        "ConnectionError" = false := by
  decide

theorem initDriverStart_outcome (rt : Runtime) (ext : External) (s : State) :
    (∀ e, (initDriverStart rt ext s).1 = .rejected e →
      ∃ m, e = .error "Error" ("Failed to initialize Neo4j connection: " ++ m) none)
    ∧ (∀ d, (initDriverStart rt ext s).1 = .fulfilled d → d = s.neo.driver ∧ d ≠ none)
    ∧ ((initDriverStart rt ext s).1 = .pending →
      (initDriverStart rt ext s).2.neo.driver = some s.driversCreated) := by
  unfold initDriverStart initDriverCatch State.record
  simp only
  repeat' split
  all_goals simp_all

theorem initDriverResume_outcome (ext : External) (s : State) :
    (∀ e, (initDriverResume ext s).1 = .threw e →
      ∃ m, e = .error "Error" ("Failed to initialize Neo4j connection: " ++ m) none)
    ∧ (∀ d, (initDriverResume ext s).1 = .returned d → d = s.neo.driver) := by
  unfold initDriverResume initDriverCatch
  simp only
  split
  all_goals simp_all

/-- C5, amended: when `getSession` fails with `e`, `executeReadQuery` fails
with that same `e`; it publishes no event, calls no handler, opens no session
and closes none.  On first use (no `connectionPromise` yet) `e` is the plain
`Error` of `initDriver`, whose message is "Failed to initialize Neo4j
connection: " followed by the message of the cause, or else what
`driver.session(...)` threw. -/
theorem executeReadQuery_session_failure (rt : Runtime) (ext : External) (cypher : String)
    (db : Option String) (s : State) (e : JsValue)
    (hs : (getSession rt ext db s).1 = .threw e) :
    (executeReadQuery rt ext cypher db s).1 = .threw e
    ∧ (∃ es, (executeReadQuery rt ext cypher db s).2.trace = s.trace ++ es
        ∧ emittedEvents es = [] ∧ calledFns es = []
        ∧ openedSessions es = [] ∧ closedSessions es = [])
    ∧ (s.neo.connectionPromise = none →
        (∃ m, e = .error "Error" ("Failed to initialize Neo4j connection: " ++ m) none)
        ∨ ext.openSession = some e) := by
  have hq : executeReadQuery rt ext cypher db s = (.threw e, (getSession rt ext db s).2) := by
    simp [executeReadQuery, hs]
  refine ⟨by rw [hq], ?_, ?_⟩
  · obtain ⟨gs, hg, hge, hgc, -, hgf, hgo, -, -⟩ := getSession_trace rt ext db s
    rw [hs] at hgo
    exact ⟨gs, by rw [hq]; exact hg, hge, hgf, hgo, hgc⟩
  · intro hnone
    obtain ⟨hrej, hful, hpend⟩ := initDriverStart_outcome rt ext s
    cases hst : (initDriverStart rt ext s).1 with
    | rejected e0 =>
      simp [getSession, getDriver, awaitDriver, hnone, hst] at hs
      exact Or.inl (hs ▸ hrej e0 hst)
    | fulfilled d =>
      obtain ⟨-, hd⟩ := hful d hst
      obtain ⟨d0, rfl⟩ := Option.ne_none_iff_exists'.mp hd
      simp [getSession, getDriver, awaitDriver, hnone, hst] at hs
      cases ho : ext.openSession with
      | none => simp [ho] at hs
      | some e1 =>
        simp [ho] at hs
        exact Or.inr (by rw [hs])
    | pending =>
      have hdrv := hpend hst
      obtain ⟨hthrew, hret⟩ := initDriverResume_outcome ext
        { (initDriverStart rt ext s).2 with
          neo := { (initDriverStart rt ext s).2.neo with
                   connectionPromise := some
                     { id := (initDriverStart rt ext s).2.promisesCreated
                       state := (initDriverStart rt ext s).1 } }
          promisesCreated := (initDriverStart rt ext s).2.promisesCreated + 1 }
      simp only [getSession, getDriver, awaitDriver, hnone, hst] at hs hthrew hret
      revert hs
      cases hr : (initDriverResume ext _).1 with
      | threw e1 =>
        intro hs
        simp at hs
        exact Or.inl (hs ▸ hthrew e1 hr)
      | returned d =>
        have hd := hret d hr
        simp only [hdrv] at hd
        subst hd
        intro hs
        cases ho : ext.openSession with
        | none => simp [ho] at hs
        | some e1 =>
          simp [ho] at hs
          exact Or.inr (by rw [hs])

/-- Witness for C5: the configuration lacks the password. -/
theorem executeReadQuery_session_failure_witness :
    (executeReadQuery unconfigured healthy "MATCH (n) RETURN n" none
        (State.init unconfigured)).1 = .threw notConfiguredError
    ∧ (∃ es, (executeReadQuery unconfigured healthy "MATCH (n) RETURN n" none
          (State.init unconfigured)).2.trace = (State.init unconfigured).trace ++ es
        ∧ emittedEvents es = [] ∧ calledFns es = []
        ∧ openedSessions es = [] ∧ closedSessions es = []) :=
  ⟨(executeReadQuery_session_failure unconfigured healthy "MATCH (n) RETURN n" none
      (State.init unconfigured) notConfiguredError (by decide)).1,
   (executeReadQuery_session_failure unconfigured healthy "MATCH (n) RETURN n" none
      (State.init unconfigured) notConfiguredError (by decide)).2.1⟩

/-! ## Initialization and shutdown -/

/-- C8, as stated, fails: with the password missing `initDriver` throws a
plain `Error`, not a `ConfigurationError`; with `verifyConnectivity` failing
it throws a plain `Error`, not a `ConnectionError`. -/
theorem initDriver_throws_plain_Error :
    (initDriver unconfigured healthy (State.init unconfigured)).1 = .threw notConfiguredError
    ∧ notConfiguredError.isNamed "ConfigurationError" = false
    ∧ (initDriver production verifyFails (State.init production)).1
        = .threw (.error "Error" "Failed to initialize Neo4j connection: boom" none)
    ∧ (JsValue.error "Error" "Failed to initialize Neo4j connection: boom" none).isNamed
        "ConnectionError" = false := by
  decide

/-- C8, amended: while no driver object exists, `initDriver` fails whenever
the URI, the user or the password is absent, and whenever connectivity
verification fails; it never returns a driver then.  In both cases what it
throws is a plain `Error` whose message is "Failed to initialize Neo4j
connection: " followed by the message of the cause; with a parameter absent
`neo4j.driver` is not called at all. -/
theorem initDriver_failures (rt : Runtime) (ext : External) (s : State)
    (hd : s.neo.driver = none) :
    ((falsy rt.config.neo4jUri = true ∨ falsy rt.config.neo4jUser = true
        ∨ falsy rt.config.neo4jPassword = true) →
      (initDriver rt ext s).1 = .threw notConfiguredError
      ∧ createdDrivers (initDriver rt ext s).2.trace = createdDrivers s.trace)
    ∧ (∀ e, falsy rt.config.neo4jUri = false → falsy rt.config.neo4jUser = false →
        falsy rt.config.neo4jPassword = false → ext.createDriver = none →
        ext.verifyConnectivity = some e →
        (initDriver rt ext s).1
          = .threw (.error "Error"
              ("Failed to initialize Neo4j connection: " ++ errorMessage e) none)) := by
  constructor
  · intro h
    have hc : (falsy rt.config.neo4jUri || falsy rt.config.neo4jUser
        || falsy rt.config.neo4jPassword) = true := by
      rcases h with h | h | h <;> simp [h]
    simp [initDriver, initDriverStart, initDriverCatch, hd, hc, State.record,
      notConfiguredError, errorMessage, createdDrivers]
  · intro e h1 h2 h3 hcreate hverify
    simp [initDriver, initDriverStart, initDriverResume, initDriverCatch, hd, h1, h2, h3,
      hcreate, hverify, State.record]

/-- Witness for C8: the password is missing. -/
theorem initDriver_failures_witness :
    (initDriver unconfigured healthy (State.init unconfigured)).1 = .threw notConfiguredError
    ∧ createdDrivers (initDriver unconfigured healthy (State.init unconfigured)).2.trace
        = createdDrivers (State.init unconfigured).trace :=
  (initDriver_failures unconfigured healthy (State.init unconfigured) rfl).1
    (Or.inr (Or.inr rfl))

/-- C7, as stated, fails: with driver 0 open and `driver.close()` rejecting
with `boom`, `close()` fails with `boom` itself, which is not a
`ConnectionError`. -/
theorem close_rethrows_plain_error :
    connected.neo.driver = some 0
    ∧ (close closeFails connected).1 = some boom
    ∧ boom.isNamed "ConnectionError" = false := by
  decide

/-- C7, amended: `close()` called when no driver is open returns normally and
changes nothing; called with an open driver whose close succeeds it returns
normally and sets `driver` and `connectionPromise` to null, after which a
further `close()` again changes nothing; and when closing the underlying
driver errors it fails with that very error, unchanged, leaving `driver` and
`connectionPromise` as they were. -/
theorem close_cases (ext : External) (s : State) :
    (s.neo.driver = none → close ext s = (none, s))
    ∧ (∀ d, s.neo.driver = some d → ext.closeDriver = none →
        (close ext s).1 = none
        ∧ (close ext s).2.neo.driver = none
        ∧ (close ext s).2.neo.connectionPromise = none
        ∧ ∀ ext2, close ext2 (close ext s).2 = (none, (close ext s).2))
    ∧ (∀ d e, s.neo.driver = some d → ext.closeDriver = some e →
        (close ext s).1 = some e ∧ (close ext s).2.neo = s.neo) := by
  refine ⟨?_, ?_, ?_⟩
  · intro h
    simp [close, h]
  · intro d hd hc
    simp [close, hd, hc, State.record]
  · intro d e hd hc
    simp [close, hd, hc, State.record]

/-- Witness for C7: closing the open driver 0 succeeds. -/
theorem close_cases_witness :
    (close healthy connected).1 = none
    ∧ (close healthy connected).2.neo.driver = none
    ∧ (close healthy connected).2.neo.connectionPromise = none
    ∧ ∀ ext2, close ext2 (close healthy connected).2 = (none, (close healthy connected).2) :=
  (close_cases healthy connected).2.1 0 (by decide) rfl

/-! ## One pool -/

@[simp] theorem sessionDrivers_append (a b : List Effect) :
    sessionDrivers (a ++ b) = sessionDrivers a ++ sessionDrivers b := by
  induction a with
  | nil => rfl
  | cons x xs ih => cases x <;> simp [sessionDrivers, ih]

theorem initDriverStart_fresh (rt : Runtime) (ext : External) (s : State)
    (hd : s.neo.driver = none) :
    ((∃ e, (initDriverStart rt ext s).1 = .rejected e)
      ∧ (initDriverStart rt ext s).2.neo = s.neo
      ∧ createdDrivers (initDriverStart rt ext s).2.trace = createdDrivers s.trace
      ∧ sessionDrivers (initDriverStart rt ext s).2.trace = sessionDrivers s.trace
      ∧ (initDriverStart rt ext s).2.driversCreated = s.driversCreated
      ∧ (initDriverStart rt ext s).2.promisesCreated = s.promisesCreated
      ∧ ¬ ((falsy rt.config.neo4jUri = false ∧ falsy rt.config.neo4jUser = false
            ∧ falsy rt.config.neo4jPassword = false) ∧ ext.createDriver = none))
    ∨ ((initDriverStart rt ext s).1 = .pending
      ∧ (initDriverStart rt ext s).2.neo = { s.neo with driver := some s.driversCreated }
      ∧ createdDrivers (initDriverStart rt ext s).2.trace
          = createdDrivers s.trace ++ [s.driversCreated]
      ∧ sessionDrivers (initDriverStart rt ext s).2.trace = sessionDrivers s.trace
      ∧ (initDriverStart rt ext s).2.driversCreated = s.driversCreated + 1
      ∧ (initDriverStart rt ext s).2.promisesCreated = s.promisesCreated) := by
  unfold initDriverStart initDriverCatch State.record
  simp only [hd]
  split
  · left
    rename_i hcfg
    simp only [createdDrivers_append, sessionDrivers_append, createdDrivers, sessionDrivers,
      List.append_nil, true_and, and_true, exists_eq', PromiseState.rejected.injEq]
    rintro ⟨⟨h1, h2, h3⟩, -⟩
    simp [h1, h2, h3] at hcfg
  · split
    · left
      simp_all [createdDrivers, sessionDrivers]
    · right
      simp_all [createdDrivers, sessionDrivers]

theorem getDriver_ConnInv (rt : Runtime) (ext : External) (good : Prop) (s : State)
    (hgood : good → (falsy rt.config.neo4jUri = false ∧ falsy rt.config.neo4jUser = false
      ∧ falsy rt.config.neo4jPassword = false) ∧ ext.createDriver = none)
    (h : ConnInv good s) :
    ConnInv good (getDriver rt ext s).2
    ∧ (getDriver rt ext s).2.neo.connectionPromise = some (getDriver rt ext s).1
    ∧ (getDriver rt ext s).1.id = 0 := by
  obtain ⟨hsess, hfresh | ⟨st, hp, hm, hcase⟩⟩ := h
  · obtain ⟨hp, hd, hc, hn, hm⟩ := hfresh
    have hg : getDriver rt ext s
        = (⟨0, (initDriverStart rt ext s).1⟩,
           { (initDriverStart rt ext s).2 with
             neo := { (initDriverStart rt ext s).2.neo with
                      connectionPromise := some ⟨0, (initDriverStart rt ext s).1⟩ }
             promisesCreated := 1 }) := by
      rcases initDriverStart_fresh rt ext s hd with ⟨-, -, -, -, -, h6, -⟩ | ⟨-, -, -, -, -, h6⟩
      all_goals simp [getDriver, hp, h6, hm]
    rw [hg]
    refine ⟨?_, rfl, rfl⟩
    rcases initDriverStart_fresh rt ext s hd with
      ⟨⟨e, h1⟩, h2, h3, h4, h5, h6, h7⟩ | ⟨h1, h2, h3, h4, h5, h6⟩
    · refine ⟨by simpa [h4] using hsess, Or.inr ⟨_, rfl, rfl, Or.inl ?_⟩⟩
      exact ⟨by simp [h2, hd], by simp [h3, hc], by simp [h5, hn], ⟨e, h1⟩,
        fun hg0 => h7 (hgood hg0)⟩
    · refine ⟨by simpa [h4] using hsess, Or.inr ⟨_, rfl, rfl, Or.inr ?_⟩⟩
      exact ⟨by simp [h2, hn], by simp [h3, hc, hn], by simp [h5, hn], Or.inl h1⟩
  · have hg : getDriver rt ext s = (⟨0, st⟩, s) := by simp [getDriver, hp]
    rw [hg]
    exact ⟨⟨hsess, Or.inr ⟨st, hp, hm, hcase⟩⟩, hp, rfl⟩

theorem awaitDriver_ConnInv (ext : External) (good : Prop) (s : State) (p : Promise)
    (h : ConnInv good s) (hp : s.neo.connectionPromise = some p) :
    ConnInv good (awaitDriver ext p s).2
    ∧ (awaitDriver ext p s).2.neo.connectionPromise ≠ none
    ∧ (∀ d, (awaitDriver ext p s).1 = .returned d → d = some 0) := by
  obtain ⟨hsess, hfresh | ⟨st, hp0, hm, hcase⟩⟩ := h
  · rw [hfresh.1] at hp
    cases hp
  · rw [hp0] at hp
    cases hp
    have hinv : ConnInv good s := ⟨hsess, Or.inr ⟨st, hp0, hm, hcase⟩⟩
    rcases hcase with ⟨hd, hc, hn, ⟨e, he⟩, hng⟩ | ⟨hd, hc, hn, hst | hst | ⟨e, he⟩⟩
    · subst he
      simp only [awaitDriver]
      exact ⟨hinv, by simp [hp0], by simp⟩
    · subst hst
      unfold awaitDriver initDriverResume initDriverCatch State.record ConnInv
      simp only
      split
      · simp_all [sessionDrivers, createdDrivers, PromiseState.settled, Promise.settleIn]
        exact hsess
      · simp_all [sessionDrivers, createdDrivers, PromiseState.settled, Promise.settleIn]
        exact hsess
    · subst hst
      simp only [awaitDriver]
      exact ⟨hinv, by simp [hp0], by simp⟩
    · subst he
      simp only [awaitDriver]
      exact ⟨hinv, by simp [hp0], by simp⟩

theorem settle_ConnInv (ext : External) (good : Prop) (s : State) (h : ConnInv good s) :
    ConnInv good (settle ext s)
    ∧ (s.neo.connectionPromise ≠ none → (settle ext s).neo.connectionPromise ≠ none) := by
  unfold settle
  cases hp : s.neo.connectionPromise with
  | none => simpa [hp] using h
  | some p =>
    simp only
    cases hst : p.state with
    | pending =>
      simp only
      exact ⟨(awaitDriver_ConnInv ext good s p h hp).1,
        fun _ => (awaitDriver_ConnInv ext good s p h hp).2.1⟩
    | fulfilled d => simpa [hp] using h
    | rejected e => simpa [hp] using h

theorem getSession_ConnInv (rt : Runtime) (ext : External) (db : Option String)
    (good : Prop) (s : State)
    (hgood : good → (falsy rt.config.neo4jUri = false ∧ falsy rt.config.neo4jUser = false
      ∧ falsy rt.config.neo4jPassword = false) ∧ ext.createDriver = none)
    (h : ConnInv good s) :
    ConnInv good (getSession rt ext db s).2
    ∧ (getSession rt ext db s).2.neo.connectionPromise ≠ none := by
  obtain ⟨hg, hslot, -⟩ := getDriver_ConnInv rt ext good s hgood h
  obtain ⟨ha, hne, hret⟩ := awaitDriver_ConnInv ext good _ _ hg hslot
  unfold getSession
  simp only
  cases hr : (awaitDriver ext (getDriver rt ext s).1 (getDriver rt ext s).2).1 with
  | threw e => exact ⟨ha, hne⟩
  | returned d =>
    have hd := hret d hr
    subst hd
    simp only
    cases ho : ext.openSession with
    | some e => exact ⟨ha, hne⟩
    | none =>
      simp only
      refine ⟨?_, hne⟩
      obtain ⟨hs1, hs2⟩ := ha
      refine ⟨?_, ?_⟩
      · intro d hdm
        simp [sessionDrivers] at hdm
        rcases hdm with hdm | hdm
        · exact hs1 d hdm
        · exact hdm
      · simpa [createdDrivers] using hs2

theorem ConnStep.run_ConnInv (rt : Runtime) (good : Prop) (a : ConnStep) (s : State)
    (hgood : good → (falsy rt.config.neo4jUri = false ∧ falsy rt.config.neo4jUser = false
      ∧ falsy rt.config.neo4jPassword = false) ∧ a.ext.createDriver = none)
    (h : ConnInv good s) :
    ConnInv good (a.run rt s).2
    ∧ ((a.run rt s).1 ≠ none ∨ s.neo.connectionPromise ≠ none →
        (a.run rt s).2.neo.connectionPromise ≠ none) := by
  cases a with
  | getDriverCall ext =>
    obtain ⟨hg, hslot, -⟩ := getDriver_ConnInv rt ext good s hgood h
    refine ⟨hg, ?_⟩
    intro _
    simp [ConnStep.run, hslot]
  | verifySettles ext =>
    obtain ⟨hs, hkeep⟩ := settle_ConnInv ext good s h
    refine ⟨hs, ?_⟩
    intro hor
    rcases hor with hor | hor
    · simp [ConnStep.run] at hor
    · exact hkeep hor
  | getSessionCall ext db =>
    obtain ⟨hs, hne⟩ := getSession_ConnInv rt ext db good s hgood h
    exact ⟨hs, fun _ => hne⟩

theorem runConn_ConnInv (rt : Runtime) (good : Prop) (steps : List ConnStep) (s : State)
    (hgood : good → (falsy rt.config.neo4jUri = false ∧ falsy rt.config.neo4jUser = false
      ∧ falsy rt.config.neo4jPassword = false) ∧ ∀ a ∈ steps, a.ext.createDriver = none)
    (h : ConnInv good s) :
    ConnInv good (runConn rt steps s).2
    ∧ ((runConn rt steps s).1 ≠ [] ∨ s.neo.connectionPromise ≠ none →
        (runConn rt steps s).2.neo.connectionPromise ≠ none) := by
  induction steps generalizing s with
  | nil => exact ⟨h, by simp [runConn]⟩
  | cons a rest ih =>
    obtain ⟨h1, h3⟩ := ConnStep.run_ConnInv rt good a s
      (fun hg => ⟨(hgood hg).1, (hgood hg).2 a (by simp)⟩) h
    obtain ⟨i1, i3⟩ := ih (a.run rt s).2
      (fun hg => ⟨(hgood hg).1, fun b hb => (hgood hg).2 b (by simp [hb])⟩) h1
    refine ⟨i1, ?_⟩
    intro hor
    apply i3
    by_cases hrest : (runConn rt rest (a.run rt s).2).1 = []
    · right
      apply h3
      rcases hor with hor | hor
      · left
        intro hnone
        apply hor
        simp [runConn, hrest, hnone]
      · exact Or.inr hor
    · exact Or.inl hrest

/-- After `getDriver` the field `connectionPromise` holds what it returned. -/
theorem getDriver_slot (rt : Runtime) (ext : External) (s : State) :
    (getDriver rt ext s).2.neo.connectionPromise = some (getDriver rt ext s).1 := by
  unfold getDriver
  cases hp : s.neo.connectionPromise with
  | none => rfl
  | some p => simp [hp]

/-- With a promise stored, `getDriver` returns it and changes nothing. -/
theorem getDriver_of_slot (rt : Runtime) (ext : External) (s : State) (p : Promise)
    (hp : s.neo.connectionPromise = some p) : getDriver rt ext s = (p, s) := by
  simp [getDriver, hp]

/-- Awaiting the stored promise leaves it stored and settled: as it was when
it had settled before, and else as `initDriver` ends. -/
theorem awaitDriver_slot (ext : External) (p : Promise) (s : State)
    (hp : s.neo.connectionPromise = some p) :
    ∃ st, (awaitDriver ext p s).2.neo.connectionPromise = some ⟨p.id, st⟩
      ∧ (p.state ≠ .pending → st = p.state)
      ∧ PromiseState.settled (awaitDriver ext p s).1 = st := by
  obtain ⟨id, state⟩ := p
  cases state with
  | fulfilled d => exact ⟨.fulfilled d, by simp [awaitDriver, hp], fun _ => rfl, rfl⟩
  | rejected e => exact ⟨.rejected e, by simp [awaitDriver, hp], fun _ => rfl, rfl⟩
  | pending =>
    refine ⟨PromiseState.settled (awaitDriver ext ⟨id, .pending⟩ s).1, ?_,
      fun h => absurd rfl h, rfl⟩
    unfold awaitDriver initDriverResume initDriverCatch State.record
    cases ext.verifyConnectivity with
    | none => simp [hp, Promise.settleIn]
    | some e => simp [hp, Promise.settleIn]

theorem PromiseState.settled_ne_pending (o : Outcome (Option Nat)) :
    PromiseState.settled o ≠ .pending := by
  cases o with
  | returned d => simp [PromiseState.settled]
  | threw e => simp [PromiseState.settled]

/-- The fields of the driver after `getSession` are those after its `await`,
and the call ends as the awaited promise allows. -/
theorem getSession_await (rt : Runtime) (ext : External) (db : Option String) (s : State) :
    (getSession rt ext db s).2.neo
      = (awaitDriver ext (getDriver rt ext s).1 (getDriver rt ext s).2).2.neo
    ∧ (∀ e, (awaitDriver ext (getDriver rt ext s).1 (getDriver rt ext s).2).1 = .threw e →
        (getSession rt ext db s).1 = .threw e)
    ∧ (∀ n, (getSession rt ext db s).1 = .returned n →
        ∃ d, (awaitDriver ext (getDriver rt ext s).1 (getDriver rt ext s).2).1
          = .returned (some d)) := by
  unfold getSession
  simp only
  cases ha : (awaitDriver ext (getDriver rt ext s).1 (getDriver rt ext s).2).1 with
  | threw e => simp
  | returned d =>
    cases d with
    | none => simp
    | some d =>
      cases ho : ext.openSession with
      | some e => simp
      | none => simp

/-- A step keeps the stored promise, and its state once it has settled. -/
theorem ConnStep.run_slot (rt : Runtime) (a : ConnStep) (s : State) (p : Promise)
    (hp : s.neo.connectionPromise = some p) :
    ∃ st, (a.run rt s).2.neo.connectionPromise = some ⟨p.id, st⟩
      ∧ (p.state ≠ .pending → st = p.state) := by
  cases a with
  | getDriverCall ext =>
    refine ⟨p.state, ?_, fun _ => rfl⟩
    simp [ConnStep.run, getDriver_of_slot rt ext s p hp, hp]
  | verifySettles ext =>
    simp only [ConnStep.run, settle, hp]
    cases hst : p.state with
    | pending =>
      obtain ⟨st, h1, h2, -⟩ := awaitDriver_slot ext p s hp
      exact ⟨st, h1, fun h => absurd rfl h⟩
    | fulfilled d =>
      refine ⟨.fulfilled d, ?_, fun _ => rfl⟩
      simp only [hp, ← hst]
    | rejected e =>
      refine ⟨.rejected e, ?_, fun _ => rfl⟩
      simp only [hp, ← hst]
  | getSessionCall ext db =>
    obtain ⟨st, h1, h2, -⟩ := awaitDriver_slot ext p s hp
    refine ⟨st, ?_, h2⟩
    simp only [ConnStep.run]
    rw [(getSession_await rt ext db s).1, getDriver_of_slot rt ext s p hp]
    exact h1

/-- The record of a call agrees with the state the call leaves. -/
theorem ConnStep.run_record (rt : Runtime) (a : ConnStep) (s : State) (c : CallRecord)
    (hc : (a.run rt s).1 = some c) : c.AgreesWith (a.run rt s).2 := by
  cases a with
  | getDriverCall ext =>
    simp only [ConnStep.run, Option.some.injEq] at hc
    subst hc
    exact ⟨(getDriver rt ext s).1.state, by simp [ConnStep.run, getDriver_slot],
      Or.inr rfl, fun o h => by cases h⟩
  | verifySettles ext => simp [ConnStep.run] at hc
  | getSessionCall ext db =>
    simp only [ConnStep.run, Option.some.injEq] at hc
    subst hc
    obtain ⟨st, h1, h2, h3⟩ :=
      awaitDriver_slot ext (getDriver rt ext s).1 (getDriver rt ext s).2
        (getDriver_slot rt ext s)
    obtain ⟨g1, g2, g3⟩ := getSession_await rt ext db s
    refine ⟨st, ?_, ?_, ?_⟩
    · simp only [ConnStep.run]
      rw [g1]
      exact h1
    · by_cases hpend : (getDriver rt ext s).1.state = .pending
      · exact Or.inl hpend
      · exact Or.inr (h2 hpend).symm
    · intro o ho
      simp only [Option.some.injEq] at ho
      subst ho
      refine ⟨h3 ▸ PromiseState.settled_ne_pending _, ?_, ?_⟩
      · intro e he
        apply g2
        rw [← h3] at he
        cases ha : (awaitDriver ext (getDriver rt ext s).1 (getDriver rt ext s).2).1 with
        | returned d => simp [ha, PromiseState.settled] at he
        | threw e2 =>
          simp only [ha, PromiseState.settled, PromiseState.rejected.injEq] at he
          rw [he]
      · intro n hn
        obtain ⟨d, hd⟩ := g3 n hn
        exact ⟨d, by rw [← h3, hd]; rfl⟩

/-- A record that agrees with a state agrees with the state after a step. -/
theorem ConnStep.run_AgreesWith (rt : Runtime) (a : ConnStep) (s : State) (c : CallRecord)
    (h : c.AgreesWith s) : c.AgreesWith (a.run rt s).2 := by
  obtain ⟨st, hslot, hseen, hsession⟩ := h
  obtain ⟨st2, h1, h2⟩ := ConnStep.run_slot rt a s ⟨c.followed.id, st⟩ hslot
  refine ⟨st2, h1, ?_, ?_⟩
  · rcases hseen with hseen | hseen
    · exact Or.inl hseen
    · by_cases hpend : st = .pending
      · exact Or.inl (hseen.trans hpend)
      · exact Or.inr (hseen.trans (h2 hpend).symm)
  · intro o ho
    obtain ⟨hne, hrej, hret⟩ := hsession o ho
    have heq : st2 = st := h2 hne
    rw [heq]
    exact ⟨hne, hrej, hret⟩

theorem runConn_AgreesWith (rt : Runtime) (steps : List ConnStep) :
    ∀ (s : State) (c : CallRecord), c.AgreesWith s → c.AgreesWith (runConn rt steps s).2 := by
  induction steps with
  | nil =>
    intro s c h
    exact h
  | cons a rest ih =>
    intro s c h
    exact ih _ c (ConnStep.run_AgreesWith rt a s c h)

/-- Every record of a run agrees with the state at its end. -/
theorem runConn_records (rt : Runtime) (steps : List ConnStep) :
    ∀ (s : State), ∀ c ∈ (runConn rt steps s).1, c.AgreesWith (runConn rt steps s).2 := by
  induction steps with
  | nil =>
    intro s c hc
    simp [runConn] at hc
  | cons a rest ih =>
    intro s c hc
    simp only [runConn, List.mem_append] at hc
    rcases hc with hc | hc
    · have hsome : (a.run rt s).1 = some c := by
        cases hr : (a.run rt s).1 with
        | none => simp [hr] at hc
        | some c2 =>
          simp only [hr, Option.toList_some, List.mem_singleton] at hc
          rw [hc]
      exact runConn_AgreesWith rt rest _ c (ConnStep.run_record rt a s c hsome)
    · exact ih _ c hc

/-- The promise of a call whose record agrees with a state is, in that
state, in the state of the stored promise. -/
theorem CallRecord.AgreesWith.stateIn {c : CallRecord} {s : State} {st : PromiseState}
    (hslot : s.neo.connectionPromise = some ⟨c.followed.id, st⟩)
    (hseen : c.followed.state = .pending ∨ c.followed.state = st) :
    c.followed.stateIn s = st := by
  unfold Promise.stateIn
  cases hst : c.followed.state with
  | pending => simp [hslot]
  | fulfilled d =>
    rcases hseen with h | h
    · rw [hst] at h
      cases h
    · rw [← h, hst]
  | rejected e =>
    rcases hseen with h | h
    · rw [hst] at h
      cases h
    · rw [← h, hst]

/-- C6, as stated, fails: with the password missing, two calls create no
pool at all: `initDriver` throws before `neo4j.driver` is called, the stored
promise is rejected, and both calls fail with its error. -/
theorem unconfigured_calls_create_no_pool :
    createdDrivers (runConn unconfigured
        [.getDriverCall healthy, .getSessionCall healthy none]
        (State.init unconfigured)).2.trace = []
    ∧ (runConn unconfigured [.getDriverCall healthy, .getSessionCall healthy none]
        (State.init unconfigured)).2.neo.connectionPromise
      = some ⟨0, .rejected notConfiguredError⟩
    ∧ (runConn unconfigured [.getDriverCall healthy, .getSessionCall healthy none]
        (State.init unconfigured)).1
      = [{ followed := ⟨0, .rejected notConfiguredError⟩, session := none },
         { followed := ⟨0, .rejected notConfiguredError⟩
           session := some (.threw notConfiguredError) }] := by
  decide

/-- C6, amended: over every sequence of `getDriver` and `getSession` calls
with no `close()`, calls arriving while the first initialization is still
pending included, `neo4j.driver` is called at most once, and exactly once
when the configuration is complete and `neo4j.driver` does not throw;
`initDriver` runs at most once, and the promise of every call follows the
one promise it returned, so that at the end every call is in the state of
that promise and all calls settle alike: fulfilled only with the one driver
object, on which every session is opened, or rejected, in which case every
`getSession` call failed with the reason of the rejection. -/
theorem one_pool (rt : Runtime) (bus : DatabaseEventSystem) (steps : List ConnStep) :
    (createdDrivers (runConn rt steps (State.start rt bus)).2.trace).length ≤ 1
    ∧ (runConn rt steps (State.start rt bus)).2.promisesCreated ≤ 1
    ∧ (∀ c ∈ (runConn rt steps (State.start rt bus)).1,
        ∃ st, (runConn rt steps (State.start rt bus)).2.neo.connectionPromise = some ⟨0, st⟩
          ∧ c.followed.id = 0
          ∧ c.followed.stateIn (runConn rt steps (State.start rt bus)).2 = st
          ∧ (c.followed.state = .pending ∨ c.followed.state = st)
          ∧ ∀ o, c.session = some o →
              st ≠ .pending ∧ (∀ e, st = .rejected e → o = .threw e)
              ∧ ∀ n, o = .returned n → st = .fulfilled (some 0))
    ∧ (∀ d ∈ sessionDrivers (runConn rt steps (State.start rt bus)).2.trace, d = 0)
    ∧ (∀ p d, (runConn rt steps (State.start rt bus)).2.neo.connectionPromise = some p →
        p.state = .fulfilled d →
        d = some 0
        ∧ createdDrivers (runConn rt steps (State.start rt bus)).2.trace = [0])
    ∧ (falsy rt.config.neo4jUri = false → falsy rt.config.neo4jUser = false →
        falsy rt.config.neo4jPassword = false →
        (∀ a ∈ steps, a.ext.createDriver = none) →
        (runConn rt steps (State.start rt bus)).1 ≠ [] →
        createdDrivers (runConn rt steps (State.start rt bus)).2.trace = [0]) := by
  have hstart : ∀ good, ConnInv good (State.start rt bus) := by
    intro good
    refine ⟨?_, Or.inl ?_⟩
    · simp [State.start, State.init, sessionDrivers]
    · simp [State.start, State.init, Neo4jDriver.new, createdDrivers]
  obtain ⟨⟨hsess, hcase⟩, -⟩ :=
    runConn_ConnInv rt False steps (State.start rt bus) (fun hf => hf.elim) (hstart False)
  have hfulfilled : ∀ p d,
      (runConn rt steps (State.start rt bus)).2.neo.connectionPromise = some p →
      p.state = .fulfilled d →
      d = some 0
      ∧ createdDrivers (runConn rt steps (State.start rt bus)).2.trace = [0] := by
    intro p d hp hst
    rcases hcase with ⟨hnone, -⟩ | ⟨st, hp0, -, ⟨-, -, -, ⟨e, he⟩, -⟩ | ⟨-, hc, -, h3⟩⟩
    · rw [hnone] at hp
      cases hp
    · rw [hp0] at hp
      cases hp
      rw [he] at hst
      cases hst
    · rw [hp0] at hp
      cases hp
      rcases h3 with h3 | h3 | ⟨e, h3⟩
      · rw [h3] at hst
        cases hst
      · rw [h3] at hst
        cases hst
        exact ⟨rfl, hc⟩
      · rw [h3] at hst
        cases hst
  refine ⟨?_, ?_, ?_, hsess, hfulfilled, ?_⟩
  · rcases hcase with ⟨-, -, hc, -⟩ | ⟨st, -, -, ⟨-, hc, -⟩ | ⟨-, hc, -⟩⟩
    all_goals simp [hc]
  · rcases hcase with ⟨-, -, -, -, hm⟩ | ⟨st, -, hm, -⟩
    all_goals simp [hm]
  · intro c hc
    obtain ⟨st, hslot, hseen, hsession⟩ := runConn_records rt steps (State.start rt bus) c hc
    have hid : c.followed.id = 0 := by
      rcases hcase with ⟨hnone, -⟩ | ⟨st0, hp0, -⟩
      · rw [hnone] at hslot
        cases hslot
      · rw [hp0] at hslot
        simp only [Option.some.injEq, Promise.mk.injEq] at hslot
        exact hslot.1.symm
    refine ⟨st, by rw [hslot, hid], hid, CallRecord.AgreesWith.stateIn hslot hseen, hseen, ?_⟩
    intro o ho
    obtain ⟨hne, hrej, hret⟩ := hsession o ho
    refine ⟨hne, hrej, ?_⟩
    intro n hn
    obtain ⟨d, hd⟩ := hret n hn
    have := (hfulfilled ⟨c.followed.id, st⟩ (some d) hslot hd).1
    rw [hd, this]
  · intro h1 h2 h3 hall hne
    obtain ⟨⟨-, hcase2⟩, hslot⟩ :=
      runConn_ConnInv rt True steps (State.start rt bus)
        (fun _ => ⟨⟨h1, h2, h3⟩, hall⟩) (hstart True)
    have hsome := hslot (Or.inl hne)
    rcases hcase2 with ⟨hnone, -⟩ | ⟨st, -, -, ⟨-, -, -, -, hng⟩ | ⟨-, hc, -⟩⟩
    · exact absurd hnone hsome
    · exact absurd trivial hng
    · exact hc

/-- Witness for C6: a call of `getDriver`, a call of `getSession` before the
verification has finished, the verification finishing, a further call. -/
theorem one_pool_witness :
    createdDrivers (runConn production
        [.getDriverCall healthy, .getSessionCall healthy none, .verifySettles healthy,
         .getDriverCall healthy]
        (State.start production (busWith .ERROR []))).2.trace = [0] :=
  (one_pool production (busWith .ERROR [])
    [.getDriverCall healthy, .getSessionCall healthy none, .verifySettles healthy,
     .getDriverCall healthy]).2.2.2.2.2 rfl rfl rfl (by decide) (by decide)

/-! ## Publishing after commit -/

theorem publish_effects_head (rt : Runtime) (bus : DatabaseEventSystem)
    (t : DatabaseEventType) (data : Payload) :
    ∃ tail, (bus.publish rt t data).effects = .emitted t data :: tail
      ∧ emittedEvents tail = [] := by
  unfold DatabaseEventSystem.publish emit
  split
  · split
    all_goals exact ⟨[], by simp, rfl⟩
  · exact ⟨_, by simp; rfl, (called_quiet _ t data).1⟩

theorem writeEvents_publish_ERROR (rt : Runtime) (bus : DatabaseEventSystem)
    (data : Payload) : writeEvents (bus.publish rt .ERROR data).effects = [] := by
  simp [writeEvents]

/-- C13: an `executeQuery` call that fails to obtain a session or whose
transaction fails publishes no WRITE_OPERATION event and leaves
`transactionCounter` unchanged; in a call whose transaction succeeds, the
WRITE_OPERATION event is published directly after the transaction function
has returned, nothing is published before that, and no second
WRITE_OPERATION event follows. -/
theorem write_event_only_after_commit (rt : Runtime) (ext : External) (cypher : String)
    (params : Params) (db : Option String) (s : State) :
    (((∃ e, (getSession rt ext db s).1 = .threw e) ∨ ∃ e, ext.transaction = .threw e) →
        writeEvents (executeQuery rt ext cypher params db s).2.trace = writeEvents s.trace
        ∧ (executeQuery rt ext cypher params db s).2.neo.transactionCounter
          = s.neo.transactionCounter)
    ∧ (∀ session result, (getSession rt ext db s).1 = .returned session →
        ext.transaction = .returned result →
        ∃ pre post, (executeQuery rt ext cypher params db s).2.trace
            = s.trace ++ pre
              ++ [.transaction session true true,
                  .emitted .WRITE_OPERATION
                    (.write ext.now (s.neo.transactionCounter + 1) cypher params)]
              ++ post
          ∧ emittedEvents pre = [] ∧ writeEvents post = []) := by
  refine ⟨(executeQuery_writeEvents rt ext cypher params db s).2, ?_⟩
  intro session result hs htx
  obtain ⟨gs, hg, hge, -, -, -, -, hgc, hgb⟩ := getSession_trace rt ext db s
  obtain ⟨tail, htail, htaile⟩ := publish_effects_head rt s.bus .WRITE_OPERATION
    (.write ext.now (s.neo.transactionCounter + 1) cypher params)
  have htailw : writeEvents tail = [] := by simp [writeEvents, htaile]
  rw [executeQuery_of_session rt ext cypher params db s session hs]
  cases hp : (publishWriteOperation rt ext cypher params
      ((getSession rt ext db s).2.record [.transaction session true true])).1 with
  | none =>
    rw [executeQueryBody_committed rt ext cypher params session _ result htx hp]
    refine ⟨gs, tail ++ [.sessionClosed session], ?_, hge, ?_⟩
    · simp [closeSession_snd, State.record, publishWriteOperation, hg, hgb, hgc, htail]
    · have hcl : writeEvents [Effect.sessionClosed session] = [] := rfl
      simp [htailw, hcl]
  | some e =>
    rw [executeQueryBody_publish_raised rt ext cypher params session _ result e htx hp]
    refine ⟨gs, tail ++ [.log "error" "Error executing Neo4j query"]
      ++ ((s.bus.publish rt .WRITE_OPERATION
            (.write ext.now (s.neo.transactionCounter + 1) cypher params)).bus.publish rt
            .ERROR (.error ext.nowCatch "executeQuery" (errorMessage e) cypher)).effects
      ++ [.sessionClosed session], ?_, hge, ?_⟩
    · simp [closeSession_snd, catchBlock_snd, State.record, publishWriteOperation, hg, hgb,
        hgc, htail]
      rfl
    · have hcl : writeEvents [Effect.sessionClosed session] = [] := rfl
      have hlog : writeEvents [Effect.log "error" "Error executing Neo4j query"] = [] := rfl
      simp only [writeEvents_append, htailw, hcl, hlog, writeEvents_publish_ERROR,
        List.append_nil]

/-! ## Subscribers and the outcome of a write -/

theorem publish_thrown_of_quiet (rt : Runtime) (bus : DatabaseEventSystem)
    (t : DatabaseEventType) (data : Payload)
    (hq : ∀ l ∈ bus.listeners t, l.run data = none)
    (h : t ≠ .ERROR ∨ bus.listeners t ≠ []) :
    (bus.publish rt t data).thrown = none := by
  cases hl : bus.listeners t with
  | nil =>
    rcases h with h | h
    · cases t <;> simp_all [DatabaseEventSystem.publish, emit, DatabaseEventType.value]
    · exact absurd hl h
  | cons x xs =>
    rw [(emit_nonempty rt bus t data x xs hl).1, ← hl, deliver_all_return data _ hq]

theorem initDriverStart_bus (rt : Runtime) (ext : External) (s : State)
    (bus2 : DatabaseEventSystem) :
    initDriverStart rt ext { s with bus := bus2 }
      = ((initDriverStart rt ext s).1, { (initDriverStart rt ext s).2 with bus := bus2 }) := by
  unfold initDriverStart initDriverCatch State.record
  simp only
  split
  · rfl
  · split
    · rfl
    · split <;> rfl

theorem initDriverResume_bus (ext : External) (s : State) (bus2 : DatabaseEventSystem) :
    initDriverResume ext { s with bus := bus2 }
      = ((initDriverResume ext s).1, { (initDriverResume ext s).2 with bus := bus2 }) := by
  unfold initDriverResume initDriverCatch State.record
  simp only
  split <;> rfl

theorem getDriver_bus (rt : Runtime) (ext : External) (s : State)
    (bus2 : DatabaseEventSystem) :
    getDriver rt ext { s with bus := bus2 }
      = ((getDriver rt ext s).1, { (getDriver rt ext s).2 with bus := bus2 }) := by
  unfold getDriver
  simp only [initDriverStart_bus]
  split <;> rfl

theorem awaitDriver_bus (ext : External) (p : Promise) (s : State)
    (bus2 : DatabaseEventSystem) :
    awaitDriver ext p { s with bus := bus2 }
      = ((awaitDriver ext p s).1, { (awaitDriver ext p s).2 with bus := bus2 }) := by
  unfold awaitDriver
  simp only [initDriverResume_bus]
  split <;> rfl

theorem getSession_bus (rt : Runtime) (ext : External) (db : Option String) (s : State)
    (bus2 : DatabaseEventSystem) :
    getSession rt ext db { s with bus := bus2 }
      = ((getSession rt ext db s).1, { (getSession rt ext db s).2 with bus := bus2 }) := by
  unfold getSession
  simp only [getDriver_bus, awaitDriver_bus]
  split
  · rfl
  · rfl
  · split <;> rfl

theorem executeQueryBody_outcome_quiet (rt : Runtime) (ext : External) (cypher : String)
    (params : Params) (session : Nat) (s : State)
    (hw : ∀ l ∈ s.bus.listeners .WRITE_OPERATION, ∀ d, l.run d = none)
    (he : s.bus.listeners .ERROR ≠ [] ∧ ∀ l ∈ s.bus.listeners .ERROR, ∀ d, l.run d = none) :
    (executeQueryBody rt ext cypher params session s).1 =
      match ext.closeSession with
      | some e => .threw e
      | none => ext.transaction := by
  cases htx : ext.transaction with
  | threw e =>
    rw [executeQueryBody_failed rt ext cypher params session s e htx, closeSession_fst,
      catchBlock_fst]
    have hp := publish_thrown_of_quiet rt s.bus .ERROR
      (.error ext.nowCatch "executeQuery" (errorMessage e) cypher)
      (fun l hl => he.2 l hl _) (Or.inr he.1)
    simp [State.record, hp]
  | returned result =>
    have hp : (publishWriteOperation rt ext cypher params
        (s.record [.transaction session true true])).1 = none := by
      simp only [publishWriteOperation, State.publish_thrown, State.record]
      exact publish_thrown_of_quiet rt s.bus .WRITE_OPERATION _
        (fun l hl => hw l hl _) (Or.inl (by decide))
    rw [executeQueryBody_committed rt ext cypher params session s result htx hp,
      closeSession_fst]

/-- C11, as stated, fails: with the same statement and the same store
behaviour (the write commits), the call returns the records when the
WRITE_OPERATION handler returns, and fails with the handler's error when the
WRITE_OPERATION handler raises. -/
theorem raising_subscriber_turns_success_into_failure :
    (executeQuery production healthy "CREATE (n)" [] none
        (State.start production busAllQuiet)).1 = .returned ["row"]
    ∧ (executeQuery production healthy "CREATE (n)" [] none
        (State.start production busWriteRaises)).1 = .threw boom := by
  decide

/-- C11, amended: for every statement, parameters and store behaviour, the
outcome of `executeQuery` seen by its caller is the same for any two sets of
handlers in which no WRITE_OPERATION handler and no ERROR handler raises and
at least one handler is subscribed to ERROR. -/
theorem executeQuery_outcome_same_for_quiet_handlers (rt : Runtime) (ext : External)
    (cypher : String) (params : Params) (db : Option String) (s : State)
    (bus2 : DatabaseEventSystem)
    (hw1 : ∀ l ∈ s.bus.listeners .WRITE_OPERATION, ∀ d, l.run d = none)
    (he1 : s.bus.listeners .ERROR ≠ [] ∧ ∀ l ∈ s.bus.listeners .ERROR, ∀ d, l.run d = none)
    (hw2 : ∀ l ∈ bus2.listeners .WRITE_OPERATION, ∀ d, l.run d = none)
    (he2 : bus2.listeners .ERROR ≠ [] ∧ ∀ l ∈ bus2.listeners .ERROR, ∀ d, l.run d = none) :
    (executeQuery rt ext cypher params db s).1
      = (executeQuery rt ext cypher params db { s with bus := bus2 }).1 := by
  obtain ⟨-, -, -, -, -, -, -, -, hgb⟩ := getSession_trace rt ext db s
  have hg2 := getSession_bus rt ext db s bus2
  cases hs : (getSession rt ext db s).1 with
  | threw e =>
    simp [executeQuery, hg2, hs]
  | returned session =>
    have hs2 : (getSession rt ext db { s with bus := bus2 }).1 = .returned session := by
      rw [hg2]
      exact hs
    rw [executeQuery_of_session rt ext cypher params db s session hs,
      executeQuery_of_session rt ext cypher params db _ session hs2,
      executeQueryBody_outcome_quiet rt ext cypher params session _
        (by rw [hgb]; exact hw1) (by rw [hgb]; exact he1),
      executeQueryBody_outcome_quiet rt ext cypher params session _
        (by rw [hg2]; exact hw2) (by rw [hg2]; exact he2)]

/-- Witness for C11: a failing write seen through two different sets of
returning handlers. -/
theorem executeQuery_outcome_same_for_quiet_handlers_witness :
    (executeQuery production failingTransaction "CREATE (n)" [] none
        (State.start production busAllQuiet)).1
      = (executeQuery production failingTransaction "CREATE (n)" [] none
          { State.start production busAllQuiet with
            bus := busWith .ERROR [quietListener 3, quietListener 4] }).1 :=
  executeQuery_outcome_same_for_quiet_handlers production failingTransaction "CREATE (n)"
    [] none (State.start production busAllQuiet)
    (busWith .ERROR [quietListener 3, quietListener 4])
    (by simp [State.start, busAllQuiet, quietListener])
    (by simp [State.start, busAllQuiet, quietListener])
    (by simp [busWith])
    (by simp [busWith, quietListener])

/-! ## Subscribing and unsubscribing -/

theorem deliver_prefix (data : Payload) (ls : List Listener) :
    ∃ k, (deliver data ls).2.1 = (ls.take k).map Listener.fn := by
  induction ls with
  | nil => exact ⟨0, rfl⟩
  | cons x xs ih =>
    cases hx : x.run data with
    | some e => exact ⟨1, by simp [deliver, hx]⟩
    | none =>
      obtain ⟨k, hk⟩ := ih
      exact ⟨k + 1, by simp [deliver, hx, hk]⟩

theorem publish_called (rt : Runtime) (bus : DatabaseEventSystem) (t : DatabaseEventType)
    (data : Payload) :
    calledFns (bus.publish rt t data).effects = (deliver data (bus.listeners t)).2.1
    ∧ (∀ f t2 d, Effect.listenerCalled f t2 d ∈ (bus.publish rt t data).effects →
        t2 = t ∧ d = data) := by
  cases hl : bus.listeners t with
  | nil =>
    unfold DatabaseEventSystem.publish emit
    simp only [hl]
    split <;> simp [calledFns, deliver]
  | cons x xs =>
    rw [(emit_nonempty rt bus t data x xs hl).2]
    constructor
    · simp [calledFns, calledFns_map]
    · intro f t2 d hmem
      simp at hmem
      obtain ⟨-, -, -, h2, h3⟩ := hmem
      exact ⟨h2.symm, h3.symm⟩

/-- C12, as stated, fails: of two handlers subscribed to READ_OPERATION, the
first of which raises, `publish` invokes only the first. -/
theorem publish_invokes_only_up_to_raise :
    calledFns
      ((((DatabaseEventSystem.new production).subscribe .READ_OPERATION (.user 1)
            (fun _ => some boom)).subscribe .READ_OPERATION (.user 2)
            (fun _ => none)).publish production .READ_OPERATION sampleRead).effects
      = [.user 1] := by
  decide

/-- C12, amended: `subscribe` appends the handler to the list of its event
type and leaves the other types alone; `publish` invokes handlers of that
type only, each with the payload.  When a handler raises and those
subscribed before it do not, `publish` invokes exactly the handlers up to
and including that one, in subscription order, each once, and none
subscribed after it, and throws its error; when no handler raises it invokes
every handler subscribed to the type, in subscription order, each once, and
then returns. -/
theorem publish_invokes_subscribers_in_order (rt : Runtime) (bus : DatabaseEventSystem)
    (t : DatabaseEventType) (data : Payload) :
    (∀ pre l post e, bus.listeners t = pre ++ l :: post →
        (∀ x ∈ pre, x.run data = none) → l.run data = some e →
        calledFns (bus.publish rt t data).effects = (pre ++ [l]).map Listener.fn
        ∧ (bus.publish rt t data).thrown = some e)
    ∧ ((∀ l ∈ bus.listeners t, l.run data = none) →
        calledFns (bus.publish rt t data).effects = (bus.listeners t).map Listener.fn
        ∧ (t ≠ .ERROR ∨ bus.listeners t ≠ [] → (bus.publish rt t data).thrown = none))
    ∧ (∀ f t2 d, Effect.listenerCalled f t2 d ∈ (bus.publish rt t data).effects →
        t2 = t ∧ d = data)
    ∧ (∀ fn run,
        (bus.subscribe t fn run).listeners t
          = bus.listeners t ++ [{ fn := fn, once := false, run := run }]
        ∧ ∀ t2, t2 ≠ t → (bus.subscribe t fn run).listeners t2 = bus.listeners t2) := by
  obtain ⟨hc, htype⟩ := publish_called rt bus t data
  refine ⟨?_, ?_, htype, ?_⟩
  · intro pre l post e hsub hpre hl
    have hd := deliver_until_raise data pre l post e hpre hl
    obtain ⟨a, as, has⟩ : ∃ a as, pre ++ l :: post = a :: as := by
      cases pre with
      | nil => exact ⟨l, post, rfl⟩
      | cons x xs => exact ⟨x, xs ++ l :: post, rfl⟩
    have hne := emit_nonempty rt bus t data a as (hsub.trans has)
    rw [← has] at hne
    constructor
    · rw [hc, hsub, hd]
    · rw [hne.1, hd]
  · intro hq
    constructor
    · rw [hc, deliver_all_return data _ hq]
    · intro h
      exact publish_thrown_of_quiet rt bus t data hq h
  · intro fn run
    constructor
    · simp [DatabaseEventSystem.subscribe]
    · intro t2 hne
      simp [DatabaseEventSystem.subscribe, Function.update_noteq hne]

/-- Witness for C12: two returning handlers subscribed in turn are invoked
in that order, and `publish` returns. -/
theorem publish_invokes_subscribers_in_order_witness :
    calledFns
      ((((DatabaseEventSystem.new production).subscribe .READ_OPERATION (.user 1)
            (fun _ => none)).subscribe .READ_OPERATION (.user 2)
            (fun _ => none)).publish production .READ_OPERATION sampleRead).effects
      = ((((DatabaseEventSystem.new production).subscribe .READ_OPERATION (.user 1)
            (fun _ => none)).subscribe .READ_OPERATION (.user 2)
            (fun _ => none)).listeners .READ_OPERATION).map Listener.fn :=
  ((publish_invokes_subscribers_in_order production
    (((DatabaseEventSystem.new production).subscribe .READ_OPERATION (.user 1)
        (fun _ => none)).subscribe .READ_OPERATION (.user 2) (fun _ => none))
    .READ_OPERATION sampleRead).2.1
    (by simp [DatabaseEventSystem.subscribe, DatabaseEventSystem.new, production])).1

/-- C18: `subscribe(t, h)` followed by `unsubscribe(t, h)` gives back the
emitter as it was: every list of handlers, that of `t` included, is the same,
in the same order; and when `h` was not subscribed to `t` before, no later
`publish` of `t` invokes it. -/
theorem subscribe_unsubscribe_restores (bus : DatabaseEventSystem) (t : DatabaseEventType)
    (fn : Fn) (run : Payload → Option JsValue) :
    (bus.subscribe t fn run).unsubscribe t fn = bus
    ∧ ((∀ l ∈ bus.listeners t, l.fn ≠ fn) →
        ∀ rt data,
          fn ∉ calledFns
            (((bus.subscribe t fn run).unsubscribe t fn).publish rt t data).effects) := by
  have hrestore : (bus.subscribe t fn run).unsubscribe t fn = bus := by
    cases bus with
    | mk ls =>
      simp [DatabaseEventSystem.subscribe, DatabaseEventSystem.unsubscribe, removeLast]
  refine ⟨hrestore, ?_⟩
  intro hfresh rt data hmem
  rw [hrestore, (publish_called rt bus t data).1] at hmem
  obtain ⟨k, hk⟩ := deliver_prefix data (bus.listeners t)
  rw [hk] at hmem
  obtain ⟨l, hl, hfn⟩ := List.mem_map.mp hmem
  exact hfresh l (List.mem_of_mem_take hl) hfn

/-- Witness for C18: a handler subscribed to WRITE_OPERATION next to another
one and unsubscribed again is not invoked. -/
theorem subscribe_unsubscribe_restores_witness :
    Fn.user 7 ∉ calledFns
      ((((busWith .WRITE_OPERATION [quietListener 1]).subscribe .WRITE_OPERATION (.user 7)
          (fun _ => none)).unsubscribe .WRITE_OPERATION (.user 7)).publish production
          .WRITE_OPERATION sampleWrite).effects :=
  (subscribe_unsubscribe_restores (busWith .WRITE_OPERATION [quietListener 1])
    .WRITE_OPERATION (.user 7) (fun _ => none)).2
    (by simp [busWith, quietListener]) production sampleWrite

/-! ## Handlers registered once -/

theorem deliver_balance (data : Payload) (f : Fn) (ls : List Listener)
    (honce : ∀ l ∈ ls, l.fn = f → l.once = true) :
    (deliver data ls).2.1.count f + (deliver data ls).1.countP (fun l => l.fn = f)
        = ls.countP (fun l => l.fn = f)
    ∧ ∀ l ∈ (deliver data ls).1, l ∈ ls := by
  induction ls with
  | nil => simp [deliver]
  | cons x xs ih =>
    obtain ⟨ih1, ih2⟩ := ih (fun l hl => honce l (by simp [hl]))
    have hx := honce x (by simp)
    by_cases hf : x.fn = f
    · have ho := hx hf
      cases hr : x.run data with
      | some e =>
        simp [deliver, hr, ho, hf, List.countP_cons]
        exact ⟨by omega, fun l hl => Or.inr hl⟩
      | none =>
        simp only [deliver, hr, ho, hf, List.countP_cons]
        constructor
        · simp
          omega
        · intro l hl
          simp at hl
          exact List.mem_cons_of_mem _ (ih2 l hl)
    · cases hr : x.run data with
      | some e =>
        cases ho : x.once
        · simp [deliver, hr, ho, hf, List.countP_cons, List.count_cons]
        · simp [deliver, hr, ho, hf, List.countP_cons, List.count_cons]
          exact fun l hl => Or.inr hl
      | none =>
        cases ho : x.once
        · simp only [deliver, hr, ho, List.countP_cons]
          constructor
          · simp [hf, List.count_cons]
            omega
          · intro l hl
            simp at hl
            rcases hl with hl | hl
            · simp [hl]
            · exact List.mem_cons_of_mem _ (ih2 l hl)
        · simp only [deliver, hr, ho, List.countP_cons]
          constructor
          · simp [hf, List.count_cons]
            omega
          · intro l hl
            simp at hl
            exact List.mem_cons_of_mem _ (ih2 l hl)

theorem publish_bus_listeners (rt : Runtime) (bus : DatabaseEventSystem)
    (t : DatabaseEventType) (data : Payload) :
    (bus.publish rt t data).bus.listeners t = (deliver data (bus.listeners t)).1 := by
  unfold DatabaseEventSystem.publish emit
  cases hl : bus.listeners t with
  | nil =>
    simp only
    split <;> simp [deliver, hl]
  | cons x xs => simp

theorem publish_balance (rt : Runtime) (bus : DatabaseEventSystem) (t : DatabaseEventType)
    (data : Payload) (f : Fn)
    (honce : ∀ l ∈ bus.listeners t, l.fn = f → l.once = true) :
    (calledFns (bus.publish rt t data).effects).count f
        + ((bus.publish rt t data).bus.listeners t).countP (fun l => l.fn = f)
      = (bus.listeners t).countP (fun l => l.fn = f)
    ∧ ∀ l ∈ (bus.publish rt t data).bus.listeners t, l ∈ bus.listeners t := by
  rw [(publish_called rt bus t data).1, publish_bus_listeners]
  exact deliver_balance data f _ honce

theorem publishAll_balance (rt : Runtime) (t : DatabaseEventType) (f : Fn)
    (datas : List Payload) (bus : DatabaseEventSystem)
    (honce : ∀ l ∈ bus.listeners t, l.fn = f → l.once = true) :
    (calledFns (publishAll rt t datas bus).1).count f
      ≤ (bus.listeners t).countP (fun l => l.fn = f) := by
  induction datas generalizing bus with
  | nil => simp [publishAll, calledFns]
  | cons d ds ih =>
    obtain ⟨hb, hsub⟩ := publish_balance rt bus t d f honce
    have hrest := ih (bus.publish rt t d).bus (fun l hl => honce l (hsub l hl))
    simp only [publishAll, calledFns_append, List.count_append]
    omega

/-- C17, as stated, fails: a handler registered with `subscribeOnce` behind a
handler that raises is not invoked by the first `publish`; over this sequence
of one `publish` it runs zero times. -/
theorem subscribeOnce_handler_skipped_after_raise :
    (calledFns (publishAll production .WRITE_OPERATION [sampleWrite]
      ((busWith .WRITE_OPERATION [raisingListener 1]).subscribeOnce .WRITE_OPERATION
        (.user 2) (fun _ => none))).1).count (.user 2) = 0 := by
  decide

/-- C17, amended: a handler `h` registered with `subscribeOnce` (and not
otherwise subscribed to the type) is invoked at most once over any sequence
of publishes of that type; when no handler subscribed before it raises
during the first publish after registration, `h` is invoked by that publish,
and across any sequence of n >= 1 publishes it runs exactly once. -/
theorem subscribeOnce_runs_once (rt : Runtime) (bus : DatabaseEventSystem)
    (t : DatabaseEventType) (fn : Fn) (run : Payload → Option JsValue)
    (hfresh : ∀ l ∈ bus.listeners t, l.fn ≠ fn) :
    (∀ datas,
      (calledFns (publishAll rt t datas (bus.subscribeOnce t fn run)).1).count fn ≤ 1)
    ∧ (∀ d ds, (∀ l ∈ bus.listeners t, l.run d = none) →
        fn ∈ calledFns ((bus.subscribeOnce t fn run).publish rt t d).effects
        ∧ (calledFns (publishAll rt t (d :: ds) (bus.subscribeOnce t fn run)).1).count fn
            = 1) := by
  have hls : (bus.subscribeOnce t fn run).listeners t
      = bus.listeners t ++ [{ fn := fn, once := true, run := run }] := by
    simp [DatabaseEventSystem.subscribeOnce]
  have honce : ∀ l ∈ (bus.subscribeOnce t fn run).listeners t, l.fn = fn → l.once = true := by
    intro l hl hf
    rw [hls] at hl
    rcases List.mem_append.mp hl with hl | hl
    · exact absurd hf (hfresh l hl)
    · simp at hl
      rw [hl]
  have hcount : ((bus.subscribeOnce t fn run).listeners t).countP (fun l => l.fn = fn) = 1 := by
    rw [hls, List.countP_append]
    have h0 : (bus.listeners t).countP (fun l => l.fn = fn) = 0 := by
      rw [List.countP_eq_zero]
      intro l hl
      simpa using hfresh l hl
    simp [h0]
  have hmost : ∀ datas,
      (calledFns (publishAll rt t datas (bus.subscribeOnce t fn run)).1).count fn ≤ 1 := by
    intro datas
    have := publishAll_balance rt t fn datas _ honce
    omega
  refine ⟨hmost, ?_⟩
  intro d ds hquiet
  have hfirst : fn ∈ calledFns ((bus.subscribeOnce t fn run).publish rt t d).effects := by
    rw [(publish_called rt _ t d).1, hls]
    cases hr : run d with
    | some e =>
      have := deliver_until_raise d (bus.listeners t)
        { fn := fn, once := true, run := run } [] e hquiet hr
      rw [this]
      simp
    | none =>
      have := deliver_all_return d (bus.listeners t ++ [{ fn := fn, once := true, run := run }])
        (by
          intro x hx
          rcases List.mem_append.mp hx with hx | hx
          · exact hquiet x hx
          · simp at hx
            rw [hx]
            exact hr)
      rw [this]
      simp
  refine ⟨hfirst, ?_⟩
  have hle := hmost (d :: ds)
  have hge : 1 ≤ (calledFns (publishAll rt t (d :: ds) (bus.subscribeOnce t fn run)).1).count fn := by
    simp only [publishAll, calledFns_append, List.count_append]
    have : 0 < (calledFns ((bus.subscribeOnce t fn run).publish rt t d).effects).count fn :=
      List.count_pos_iff.mpr hfirst
    omega
  omega

/-- Witness for C17: registered behind a returning handler, the handler runs
once over three publishes. -/
theorem subscribeOnce_runs_once_witness :
    (calledFns (publishAll production .WRITE_OPERATION
      [sampleWrite, sampleWrite, sampleWrite]
      ((busWith .WRITE_OPERATION [quietListener 1]).subscribeOnce .WRITE_OPERATION
        (.user 2) (fun _ => none))).1).count (.user 2) = 1 :=
  ((subscribeOnce_runs_once production (busWith .WRITE_OPERATION [quietListener 1])
    .WRITE_OPERATION (.user 2) (fun _ => none)
    (by simp [busWith, quietListener])).2 sampleWrite [sampleWrite, sampleWrite]
    (by simp [busWith, quietListener])).2

/-! ## Background backups -/

theorem triggerTimes_counts (n : Nat) (s : State) :
    exportCount (triggerTimes n s).trace = exportCount s.trace + n
    ∧ settledCount (triggerTimes n s).trace = settledCount s.trace := by
  induction n generalizing s with
  | zero => simp [triggerTimes]
  | succ k ih =>
    obtain ⟨h1, h2⟩ := ih (triggerBackgroundBackup s)
    simp only [triggerTimes, h1, h2]
    constructor
    · simp [triggerBackgroundBackup, State.record, exportCount]
      omega
    · simp only [triggerBackgroundBackup, State.record]
      induction s.trace with
      | nil => rfl
      | cons x xs iha => cases x <;> simp [settledCount, iha]

theorem executeQuery_exportCount (rt : Runtime) (ext : External) (cypher : String)
    (params : Params) (db : Option String) (s : State) :
    exportCount (executeQuery rt ext cypher params db s).2.trace = exportCount s.trace := by
  obtain ⟨gs, hg, -, -, hgx, -⟩ := getSession_trace rt ext db s
  cases hs : (getSession rt ext db s).1 with
  | threw e =>
    have hq : executeQuery rt ext cypher params db s = (.threw e, (getSession rt ext db s).2) := by
      simp [executeQuery, hs]
    rw [hq]
    simp [hg, hgx]
  | returned session =>
    obtain ⟨es, hb, -, -, -, hx, -⟩ :=
      executeQueryBody_trace rt ext cypher params session (getSession rt ext db s).2
    rw [executeQuery_of_session rt ext cypher params db s session hs, hb, hg]
    simp [hgx, hx, exportCount]

theorem executeReadQuery_exportCount (rt : Runtime) (ext : External) (cypher : String)
    (db : Option String) (s : State) :
    exportCount (executeReadQuery rt ext cypher db s).2.trace = exportCount s.trace := by
  obtain ⟨gs, hg, -, -, hgx, -⟩ := getSession_trace rt ext db s
  cases hs : (getSession rt ext db s).1 with
  | threw e =>
    have hq : executeReadQuery rt ext cypher db s = (.threw e, (getSession rt ext db s).2) := by
      simp [executeReadQuery, hs]
    rw [hq]
    simp [hg, hgx]
  | returned session =>
    obtain ⟨es, hb, -, -, -, hx, -⟩ :=
      executeReadQueryBody_trace rt ext cypher session (getSession rt ext db s).2
    rw [executeReadQuery_of_session rt ext cypher db s session hs, hb, hg]
    simp [hgx, hx, exportCount]

/-- C15, as stated, fails: two calls of `triggerBackgroundBackup` in a row
leave two `exportDatabase` jobs in flight. -/
theorem two_triggers_two_exports_in_flight :
    exportsInFlight (triggerTimes 2 (State.init production)).trace = 2 := by
  decide

/-- C15, amended: every call of `triggerBackgroundBackup` starts one
`exportDatabase` job at once, whether or not another is running: a burst of
`n` triggers starts `n` exports and settles none.  The driver itself never
triggers a backup: `executeQuery` and `executeReadQuery` start no export. -/
theorem every_trigger_starts_an_export (n : Nat) (s : State) :
    exportCount (triggerTimes n s).trace = exportCount s.trace + n
    ∧ settledCount (triggerTimes n s).trace = settledCount s.trace
    ∧ (∀ rt ext cypher params db,
        exportCount (executeQuery rt ext cypher params db s).2.trace = exportCount s.trace)
    ∧ (∀ rt ext cypher db,
        exportCount (executeReadQuery rt ext cypher db s).2.trace = exportCount s.trace) :=
  ⟨(triggerTimes_counts n s).1, (triggerTimes_counts n s).2,
   fun rt ext cypher params db => executeQuery_exportCount rt ext cypher params db s,
   fun rt ext cypher db => executeReadQuery_exportCount rt ext cypher db s⟩

/-- C16: `triggerBackgroundBackup` returns having only logged and started
the export, before the export settles and whatever it settles to; when the
export settles, resolved or rejected with any value, the callbacks add one
log entry (level "error" for a rejection) and nothing else: no event is
published, no handler is called, and the driver fields and the emitter are
as they were, so nothing reaches the caller of a write. -/
theorem background_backup_only_logs (s : State) (outcome : Outcome String) :
    (triggerBackgroundBackup s).trace
      = s.trace ++ [.log "debug" "Triggering background database backup with rotation...",
                    .exportStarted]
    ∧ (triggerBackgroundBackup s).neo = s.neo
    ∧ (triggerBackgroundBackup s).bus = s.bus
    ∧ (backupSettled outcome (triggerBackgroundBackup s)).neo = s.neo
    ∧ (backupSettled outcome (triggerBackgroundBackup s)).bus = s.bus
    ∧ (∃ es, (backupSettled outcome (triggerBackgroundBackup s)).trace
          = (triggerBackgroundBackup s).trace ++ es
        ∧ emittedEvents es = [] ∧ calledFns es = [] ∧ exportCount es = 0
        ∧ settledCount es = 1
        ∧ (∀ backupPath, outcome = .returned backupPath →
            logEntries es
              = [("info", "Background database backup successful: " ++ backupPath)])
        ∧ (∀ error, outcome = .threw error →
            logEntries es = [("error", "Background database backup failed:")])) := by
  refine ⟨rfl, rfl, rfl, ?_, ?_, ?_⟩
  · cases outcome <;> rfl
  · cases outcome <;> rfl
  · cases outcome with
    | returned path =>
      exact ⟨_, rfl, rfl, rfl, rfl, rfl, fun b hb => (by cases hb; rfl),
        fun e he => (by cases he)⟩
    | threw e0 =>
      exact ⟨_, rfl, rfl, rfl, rfl, rfl, fun b hb => (by cases hb), fun e he => rfl⟩

/-! ## Delete responses -/

/-- C19: each of `formatKnowledgeDeleteResponse`,
`formatProjectDeleteResponse` and `formatTaskDeleteResponse` returns the same
response whatever `isError` it is given, and the `isError` flag of the
response is computed from the data alone: for a single response it is the
negation of `success`, for a bulk response it is set when `success` is false
or `errors` has at least one entry. -/
theorem delete_response_ignores_isError (data : DeleteResponse) :
    formatKnowledgeDeleteResponse data true = formatKnowledgeDeleteResponse data false
    ∧ formatProjectDeleteResponse data true = formatProjectDeleteResponse data false
    ∧ formatTaskDeleteResponse data true = formatTaskDeleteResponse data false
    ∧ (∀ isError,
        (formatKnowledgeDeleteResponse data isError).isError
          = (formatProjectDeleteResponse data isError).isError
        ∧ (formatProjectDeleteResponse data isError).isError
          = (formatTaskDeleteResponse data isError).isError
        ∧ (formatTaskDeleteResponse data isError).isError
          = some (match data with
              | .single success _ _ => !success
              | .bulk success _ _ errors => !success || decide (errors.length > 0))) := by
  cases data with
  | single success id message =>
    simp only [formatKnowledgeDeleteResponse, formatProjectDeleteResponse,
      formatTaskDeleteResponse, formatDeleteResponse, createToolResponse, and_self,
      implies_true]
  | bulk success message deleted errors =>
    simp only [formatKnowledgeDeleteResponse, formatProjectDeleteResponse,
      formatTaskDeleteResponse, formatDeleteResponse, createToolResponse, and_self,
      implies_true]

/-! ## Truncating a snippet -/

/-- C20, as stated, fails: with `maxLength` 2 the text "abcd" is cut to
"...", whose length 3 exceeds `maxLength`. -/
theorem truncateText_exceeds_small_maxLength :
    truncateText [97, 98, 99, 100] 2 = ellipsis
    ∧ ¬ ((truncateText [97, 98, 99, 100] 2).length : Int) ≤ 2 := by
  decide

/-- C20, amended: for every string `text` and every integer `maxLength` of
at least 3, `truncateText(text, maxLength)` returns a string of length at
most `maxLength`: `text` itself when `text.length <= maxLength`, and otherwise
the first `maxLength - 3` characters of `text` followed by "...". -/
theorem truncateText_bounded (text : JsString) (maxLength : Int) (h : 3 ≤ maxLength) :
    ((truncateText text maxLength).length : Int) ≤ maxLength
    ∧ ((text.length : Int) ≤ maxLength → truncateText text maxLength = text)
    ∧ (maxLength < (text.length : Int) →
        truncateText text maxLength = text.take (maxLength - 3).toNat ++ ellipsis) := by
  unfold truncateText substringTo
  by_cases h0 : text.length = 0
  · have hnil : text = [] := List.length_eq_zero.mp h0
    subst hnil
    refine ⟨by simp; omega, by simp, ?_⟩
    intro hlt
    simp at hlt
    omega
  · by_cases hle : (text.length : Int) ≤ maxLength
    · simp [h0, hle]
    · rw [if_neg h0, if_neg hle]
      refine ⟨?_, fun hc => absurd hc hle, fun _ => rfl⟩
      simp [ellipsis, List.length_take]
      omega

/-- Witness for C20: ten characters cut to five. -/
theorem truncateText_bounded_witness :
    ((truncateText [97, 98, 99, 100, 101, 102, 103, 104, 105, 106] 5).length : Int) ≤ 5
    ∧ truncateText [97, 98, 99, 100, 101, 102, 103, 104, 105, 106] 5
        = [97, 98] ++ ellipsis :=
  ⟨(truncateText_bounded [97, 98, 99, 100, 101, 102, 103, 104, 105, 106] 5 (by decide)).1,
   (truncateText_bounded [97, 98, 99, 100, 101, 102, 103, 104, 105, 106] 5 (by decide)).2.2
     (by decide)⟩

/-! ## Dependency cycles -/

theorem mem_dependenciesOf (scope : DependencyScope) (graph : List DependsOn)
    (a b : String) :
    b ∈ dependenciesOf scope graph a ↔ (⟨scope, a, b⟩ : DependsOn) ∈ graph := by
  unfold dependenciesOf
  simp only [List.mem_map, List.mem_filter, decide_eq_true_eq]
  constructor
  · rintro ⟨e, ⟨he, hs, ha⟩, hb⟩
    cases e
    simp_all
  · intro h
    exact ⟨_, ⟨h, rfl, rfl⟩, rfl⟩

theorem dropWhile_nil_all {α : Type} (p : α → Bool) (l : List α)
    (h : l.dropWhile p = []) : ∀ x ∈ l, p x = true := by
  induction l with
  | nil => simp
  | cons a as ih =>
    by_cases ha : p a = true
    · rw [List.dropWhile_cons_of_pos ha] at h
      intro x hx
      rcases List.mem_cons.mp hx with hx | hx
      · rw [hx]
        exact ha
      · exact ih h x hx
    · rw [List.dropWhile_cons_of_neg ha] at h
      cases h

theorem dropWhile_cons_split {α : Type} (p : α → Bool) (l : List α) (a : α) (r : List α)
    (h : l.dropWhile p = a :: r) :
    p a = false ∧ a ∈ l ∧ (∀ x ∈ r, x ∈ l) ∧ ∀ x ∈ l, p x = true ∨ x = a ∨ x ∈ r := by
  induction l with
  | nil => simp at h
  | cons b bs ih =>
    by_cases hb : p b = true
    · rw [List.dropWhile_cons_of_pos hb] at h
      obtain ⟨h1, h2, h3, h4⟩ := ih h
      refine ⟨h1, List.mem_cons_of_mem _ h2, fun x hx => List.mem_cons_of_mem _ (h3 x hx), ?_⟩
      intro x hx
      rcases List.mem_cons.mp hx with hx | hx
      · left
        rw [hx]
        exact hb
      · exact h4 x hx
    · rw [List.dropWhile_cons_of_neg hb] at h
      cases h
      refine ⟨by simpa using hb, by simp, fun x hx => List.mem_cons_of_mem _ hx, ?_⟩
      intro x hx
      rcases List.mem_cons.mp hx with hx | hx
      · exact Or.inr (Or.inl hx)
      · exact Or.inr (Or.inr hx)

/-- Soundness of the search: a property that holds of the stack and of the
marked nodes and is passed along edges holds of every node in the result. -/
theorem reachableFrom_sound (scope : DependencyScope) (graph : List DependsOn)
    (P : String → Prop)
    (hP : ∀ a b, P a → (⟨scope, a, b⟩ : DependsOn) ∈ graph → P b)
    (fuel : Nat) (stack visited : List String)
    (hs : ∀ x ∈ stack, P x) (hv : ∀ x ∈ visited, P x) :
    ∀ x ∈ reachableFrom scope graph fuel stack visited, P x := by
  induction fuel generalizing stack visited with
  | zero => simpa [reachableFrom] using hv
  | succ n ih =>
    unfold reachableFrom
    split
    · exact hv
    · rename_i node rest hd
      obtain ⟨-, hnode, hrest, -⟩ := dropWhile_cons_split _ _ _ _ hd
      apply ih
      · intro x hx
        rcases List.mem_append.mp hx with hx | hx
        · exact hP node x (hs node hnode) ((mem_dependenciesOf scope graph node x).mp hx)
        · exact hs x (hrest x hx)
      · intro x hx
        rcases List.mem_cons.mp hx with hx | hx
        · rw [hx]
          exact hs node hnode
        · exact hv x hx

theorem unmarked_decreases (nodes visited : List String) (node : String)
    (hn : node ∈ nodes) (hv : node ∉ visited) :
    (nodes.toFinset \ (node :: visited).toFinset).card
      < (nodes.toFinset \ visited.toFinset).card := by
  apply Finset.card_lt_card
  rw [Finset.ssubset_iff_of_subset]
  · exact ⟨node, by simp [hn, hv], by simp⟩
  · intro x hx
    simp only [Finset.mem_sdiff, List.mem_toFinset, List.mem_cons, not_or] at hx ⊢
    exact ⟨hx.1, hx.2.2⟩

/-- Completeness of the search: with fuel beyond the number of unmarked
nodes, the result contains the marked nodes and the stack and is closed under
the edges of the scope. -/
theorem reachableFrom_closed (scope : DependencyScope) (graph : List DependsOn)
    (nodes : List String)
    (hnodes : ∀ a b, (⟨scope, a, b⟩ : DependsOn) ∈ graph → b ∈ nodes)
    (fuel : Nat) (stack visited : List String)
    (hfuel : (nodes.toFinset \ visited.toFinset).card < fuel)
    (hstack : ∀ x ∈ stack, x ∈ nodes)
    (hinv : ∀ v ∈ visited, ∀ w, (⟨scope, v, w⟩ : DependsOn) ∈ graph →
      w ∈ visited ∨ w ∈ stack) :
    (∀ x ∈ visited, x ∈ reachableFrom scope graph fuel stack visited)
    ∧ (∀ x ∈ stack, x ∈ reachableFrom scope graph fuel stack visited)
    ∧ (∀ v ∈ reachableFrom scope graph fuel stack visited, ∀ w,
        (⟨scope, v, w⟩ : DependsOn) ∈ graph →
        w ∈ reachableFrom scope graph fuel stack visited) := by
  induction fuel generalizing stack visited with
  | zero => exact absurd hfuel (Nat.not_lt_zero _)
  | succ n ih =>
    unfold reachableFrom
    split
    · rename_i hd
      have hall := dropWhile_nil_all _ _ hd
      have hsv : ∀ x ∈ stack, x ∈ visited := fun x hx => by simpa using hall x hx
      refine ⟨fun x hx => hx, hsv, ?_⟩
      intro v hv w hw
      rcases hinv v hv w hw with h | h
      · exact h
      · exact hsv w h
    · rename_i node rest hd
      obtain ⟨hnot, hnode, hrest, hsplit⟩ := dropWhile_cons_split _ _ _ _ hd
      have hnv : node ∉ visited := by simpa using hnot
      have hlt := unmarked_decreases nodes visited node (hstack node hnode) hnv
      obtain ⟨h1, h2, h3⟩ := ih (dependenciesOf scope graph node ++ rest) (node :: visited)
        (by omega)
        (by
          intro x hx
          rcases List.mem_append.mp hx with hx | hx
          · exact hnodes node x ((mem_dependenciesOf scope graph node x).mp hx)
          · exact hstack x (hrest x hx))
        (by
          intro v hv w hw
          rcases List.mem_cons.mp hv with hv | hv
          · right
            rw [hv] at hw
            exact List.mem_append_left _ ((mem_dependenciesOf scope graph node w).mpr hw)
          · rcases hinv v hv w hw with h | h
            · exact Or.inl (List.mem_cons_of_mem _ h)
            · rcases hsplit w h with h | h | h
              · exact Or.inl (List.mem_cons_of_mem _ (by simpa using h))
              · exact Or.inl (by rw [h]; exact List.mem_cons_self _ _)
              · exact Or.inr (List.mem_append_right _ h))
      refine ⟨fun x hx => h1 x (List.mem_cons_of_mem _ hx), ?_, h3⟩
      intro x hx
      rcases hsplit x hx with h | h | h
      · exact h1 x (List.mem_cons_of_mem _ (by simpa using h))
      · exact h1 x (by rw [h]; exact List.mem_cons_self _ _)
      · exact h2 x (List.mem_append_right _ h)

/-- C14: for every scope, committed graph and proposed edge `source`
DEPENDS_ON `target`, `wouldCreateCycle` (a total function: the search stops
on every finite graph) returns true if and only if `source` equals `target`
or the DEPENDS_ON edges of that scope already lead from `target` back to
`source`. -/
theorem wouldCreateCycle_iff (scope : DependencyScope) (graph : List DependsOn)
    (source target : String) :
    wouldCreateCycle scope graph source target = true
      ↔ source = target
        ∨ Relation.TransGen (fun a b => (⟨scope, a, b⟩ : DependsOn) ∈ graph) target source := by
  unfold wouldCreateCycle
  by_cases hst : source = target
  · simp [hst]
  · rw [if_neg hst, decide_eq_true_eq]
    have hclosed := reachableFrom_closed scope graph (target :: graph.map DependsOn.target)
      (fun a b h => List.mem_cons_of_mem _ (List.mem_map.mpr ⟨_, h, rfl⟩))
      (graph.length + 2) [target] []
      (by
        have h1 : ((target :: graph.map DependsOn.target).toFinset \ ([] : List String).toFinset).card
            ≤ (target :: graph.map DependsOn.target).toFinset.card :=
          Finset.card_le_card Finset.sdiff_subset
        have h2 := List.toFinset_card_le (target :: graph.map DependsOn.target)
        simp only [List.length_cons, List.length_map] at h2
        omega)
      (by simp)
      (by simp)
    obtain ⟨-, hstart, hclose⟩ := hclosed
    have hall : ∀ x, Relation.ReflTransGen
        (fun a b => (⟨scope, a, b⟩ : DependsOn) ∈ graph) target x →
        x ∈ reachableFrom scope graph (graph.length + 2) [target] [] := by
      intro x hx
      induction hx with
      | refl => exact hstart target (by simp)
      | tail _ hbc ihb => exact hclose _ ihb _ hbc
    constructor
    · intro hmem
      right
      have hsound := reachableFrom_sound scope graph
        (fun x => Relation.ReflTransGen (fun a b => (⟨scope, a, b⟩ : DependsOn) ∈ graph)
          target x)
        (fun a b ha hab => Relation.ReflTransGen.tail ha hab)
        (graph.length + 2) [target] []
        (by
          intro x hx
          simp at hx
          rw [hx])
        (by simp)
        source hmem
      rcases Relation.reflTransGen_iff_eq_or_transGen.mp hsound with h | h
      · exact absurd h hst
      · exact h
    · rintro (h | h)
      · exact absurd h hst
      · exact hall source h.to_reflTransGen

/-- Witness for C14, scenarios A and B of the specification: with P1
DEPENDS_ON P2 committed, P2 DEPENDS_ON P1 would close a cycle in the project
scope but not in the task scope; T1 DEPENDS_ON T1 always would. -/
theorem wouldCreateCycle_iff_witness :
    wouldCreateCycle .project [⟨.project, "P1", "P2"⟩] "P2" "P1" = true
    ∧ wouldCreateCycle .task [⟨.project, "P1", "P2"⟩] "P2" "P1" = false
    ∧ wouldCreateCycle .task [] "T1" "T1" = true :=
  ⟨(wouldCreateCycle_iff .project [⟨.project, "P1", "P2"⟩] "P2" "P1").mpr
      (Or.inr (Relation.TransGen.single (by decide))),
   by decide, by decide⟩

/-! ## Status line and error flag of a bulk delete -/

/-- C24 at its failing input: a bulk delete response with `success` false
and no entry in `errors` is flagged `isError`, yet its status line is the
"✅ Success (No items or no errors)" line, for each of the three tools.  For
every other bulk response the flag and the status line agree: the response
is flagged exactly when the status line is the "⚠️" line. -/
theorem bulk_failure_without_errors_shows_success :
    formatKnowledgeDeleteResponse (.bulk false "Nothing was removed" [] []) false
      = createToolResponse
          (some "Knowledge Cleanup Operation\n\nStatus: ✅ Success (No items or no errors)\nSummary: Nothing was removed\nRemoved: 0 knowledge item(s)\nErrors: 0 error(s)")
          (some true)
    ∧ formatProjectDeleteResponse (.bulk false "Nothing was removed" [] []) false
      = createToolResponse
          (some "Project Cleanup Operation\n\nStatus: ✅ Success (No items or no errors)\nSummary: Nothing was removed\nRemoved: 0 project(s)\nErrors: 0 error(s)")
          (some true)
    ∧ formatTaskDeleteResponse (.bulk false "Nothing was removed" [] []) false
      = createToolResponse
          (some "Task Cleanup Operation\n\nStatus: ✅ Success (No items or no errors)\nSummary: Nothing was removed\nRemoved: 0 task(s)\nErrors: 0 error(s)")
          (some true)
    ∧ (∀ (success : Bool) (errors : List DeleteError), success = true ∨ errors ≠ [] →
        ((!success || decide (errors.length > 0)) = true
          ↔ bulkStatus success errors = "⚠️ Partial Success / Errors")) := by
  refine ⟨by decide, by decide, by decide, ?_⟩
  intro success errors h
  cases errors with
  | nil =>
    rcases h with h | h
    · subst h
      simp [bulkStatus]
    · exact absurd rfl h
  | cons e es =>
    cases success <;> simp [bulkStatus]

/-! ## A cached configuration failure -/

theorem DriverCall.run_Unconfigured (rt : Runtime) (c : DriverCall) (s : State)
    (hcfg : falsy rt.config.neo4jUri = true ∨ falsy rt.config.neo4jUser = true
      ∨ falsy rt.config.neo4jPassword = true)
    (h : Unconfigured s) :
    (c.run rt s).1 = c.whenUnconfigured
    ∧ Unconfigured (c.run rt s).2
    ∧ (s.neo.connectionPromise ≠ none → (c.run rt s).2.promisesCreated = s.promisesCreated)
    ∧ (c.whenUnconfigured ≠ none → (c.run rt s).2.neo.connectionPromise ≠ none) := by
  have hc : (falsy rt.config.neo4jUri || falsy rt.config.neo4jUser
      || falsy rt.config.neo4jPassword) = true := by
    rcases hcfg with h1 | h1 | h1 <;> simp [h1]
  obtain ⟨hd, hcr, hslot⟩ := h
  cases c with
  | shutdown ext =>
    have hq : close ext s = (none, s) := by simp [close, hd]
    simp only [DriverCall.run, hq]
    exact ⟨rfl, ⟨hd, hcr, hslot⟩, by simp, by simp [DriverCall.whenUnconfigured]⟩
  | driver ext =>
    rcases hslot with ⟨hp, hn⟩ | ⟨hp, hn⟩
    · simp [DriverCall.run, DriverCall.whenUnconfigured, Unconfigured, getDriver, awaitDriver,
        initDriverStart, initDriverCatch, State.record, hp, hd, hc, hn, hcr, errorMessage,
        createdDrivers]
    · simp [DriverCall.run, DriverCall.whenUnconfigured, Unconfigured, getDriver, awaitDriver,
        hp, hd, hn, hcr]
  | session ext db =>
    rcases hslot with ⟨hp, hn⟩ | ⟨hp, hn⟩
    · simp [DriverCall.run, DriverCall.whenUnconfigured, Unconfigured, getSession, getDriver,
        awaitDriver, initDriverStart, initDriverCatch, State.record, hp, hd, hc, hn, hcr,
        errorMessage, createdDrivers]
    · simp [DriverCall.run, DriverCall.whenUnconfigured, Unconfigured, getSession, getDriver,
        awaitDriver, hp, hd, hn, hcr]

theorem runCalls_Unconfigured (rt : Runtime) (calls : List DriverCall) (s : State)
    (hcfg : falsy rt.config.neo4jUri = true ∨ falsy rt.config.neo4jUser = true
      ∨ falsy rt.config.neo4jPassword = true)
    (h : Unconfigured s) :
    (runCalls rt calls s).1 = calls.map DriverCall.whenUnconfigured
    ∧ Unconfigured (runCalls rt calls s).2
    ∧ (s.neo.connectionPromise ≠ none →
        (runCalls rt calls s).2.promisesCreated = s.promisesCreated) := by
  induction calls generalizing s with
  | nil => exact ⟨rfl, h, fun _ => rfl⟩
  | cons c rest ih =>
    obtain ⟨h1, h2, h3, -⟩ := DriverCall.run_Unconfigured rt c s hcfg h
    obtain ⟨i1, i2, i3⟩ := ih (c.run rt s).2 h2
    refine ⟨by simp [runCalls, h1, i1], i2, ?_⟩
    intro hne
    have hkeep : (c.run rt s).2.neo.connectionPromise ≠ none := by
      obtain ⟨-, -, hs⟩ := h
      obtain ⟨-, -, hs2⟩ := h2
      rcases hs2 with ⟨hp2, hn2⟩ | ⟨hp2, hn2⟩
      · rcases hs with ⟨hp, -⟩ | ⟨-, hn⟩
        · exact absurd hp hne
        · have := h3 hne
          omega
      · simp [hp2]
    simp only [runCalls]
    rw [i3 hkeep, h3 hne]

/-- C22: when the configuration is incomplete, the first `getDriver` or
`getSession` call fails and the failure is cached: every later `getDriver`
or `getSession` call fails with that same error, `initDriver` is run once
only (one promise is ever made) and `neo4j.driver` never, and this stays so
across `close()` calls, each of which returns normally and changes nothing
because no driver object exists. -/
theorem failed_configuration_is_cached (rt : Runtime) (bus : DatabaseEventSystem)
    (first : DriverCall) (later : List DriverCall)
    (hcfg : falsy rt.config.neo4jUri = true ∨ falsy rt.config.neo4jUser = true
      ∨ falsy rt.config.neo4jPassword = true)
    (hfirst : first.whenUnconfigured ≠ none) :
    (runCalls rt (first :: later) (State.start rt bus)).1
      = (first :: later).map DriverCall.whenUnconfigured
    ∧ (runCalls rt (first :: later) (State.start rt bus)).2.promisesCreated = 1
    ∧ (runCalls rt (first :: later) (State.start rt bus)).2.neo.connectionPromise
      = some ⟨0, .rejected notConfiguredError⟩
    ∧ (runCalls rt (first :: later) (State.start rt bus)).2.neo.driver = none
    ∧ createdDrivers (runCalls rt (first :: later) (State.start rt bus)).2.trace = [] := by
  have hstart : Unconfigured (State.start rt bus) :=
    ⟨rfl, rfl, Or.inl ⟨rfl, rfl⟩⟩
  obtain ⟨h1, h2, -, h4⟩ := DriverCall.run_Unconfigured rt first _ hcfg hstart
  obtain ⟨i1, i2, i3⟩ := runCalls_Unconfigured rt later (first.run rt (State.start rt bus)).2
    hcfg h2
  have hslot := h4 hfirst
  have hone : (first.run rt (State.start rt bus)).2.promisesCreated = 1 := by
    obtain ⟨-, -, hs⟩ := h2
    rcases hs with ⟨hp, -⟩ | ⟨-, hn⟩
    · exact absurd hp hslot
    · exact hn
  have hcount := i3 hslot
  obtain ⟨j1, j2, j3⟩ := i2
  simp only [runCalls]
  refine ⟨by simp [h1, i1], by rw [hcount, hone], ?_, j1, j2⟩
  rcases j3 with ⟨hp, hn⟩ | ⟨hp, -⟩
  · rw [hcount, hone] at hn
    cases hn
  · exact hp

/-- Witness for C22: the password is missing; a `getSession`, a `close()`,
a `getDriver` and another `getSession`. -/
theorem failed_configuration_is_cached_witness :
    (runCalls unconfigured
        [.session healthy none, .shutdown healthy, .driver healthy, .session healthy none]
        (State.start unconfigured (busWith .ERROR []))).1
      = [some notConfiguredError, none, some notConfiguredError, some notConfiguredError]
    ∧ (runCalls unconfigured
        [.session healthy none, .shutdown healthy, .driver healthy, .session healthy none]
        (State.start unconfigured (busWith .ERROR []))).2.promisesCreated = 1 :=
  ⟨(failed_configuration_is_cached unconfigured (busWith .ERROR [])
      (.session healthy none) [.shutdown healthy, .driver healthy, .session healthy none]
      (Or.inr (Or.inr rfl)) (by simp [DriverCall.whenUnconfigured])).1,
   (failed_configuration_is_cached unconfigured (busWith .ERROR [])
      (.session healthy none) [.shutdown healthy, .driver healthy, .session healthy none]
      (Or.inr (Or.inr rfl)) (by simp [DriverCall.whenUnconfigured])).2.1⟩

/-! ## The database clean schema -/

/-- C21: `AtlasDatabaseCleanSchema` accepts an input if and only if it is an
object whose `acknowledgement` is the boolean `true`, whose `responseFormat`
is absent or one of "formatted" and "json", and which has no other key; an
accepted input parses to an object whose `acknowledgement` is `true` and
whose `responseFormat` is the given value, or "formatted" when absent.  An
input with `acknowledgement` missing, `false` or the string "true" is
rejected. -/
theorem AtlasDatabaseCleanSchema_accepts_iff (input : ToolArgs) :
    ((AtlasDatabaseCleanSchema.parse input).isSome = true
      ↔ ∃ fields, input = .object fields
          ∧ fields.lookup "acknowledgement" = some (.bool true)
          ∧ (fields.lookup "responseFormat" = none
            ∨ fields.lookup "responseFormat" = some (.string "formatted")
            ∨ fields.lookup "responseFormat" = some (.string "json"))
          ∧ ∀ kv ∈ fields, kv.1 = "acknowledgement" ∨ kv.1 = "responseFormat")
    ∧ (∀ fields parsed, input = .object fields →
        AtlasDatabaseCleanSchema.parse input = some parsed →
        parsed.acknowledgement = true
        ∧ parsed.responseFormat.value
            = (match fields.lookup "responseFormat" with
                | some (.string s) => s
                | _ => "formatted"))
    ∧ AtlasDatabaseCleanSchema.parse (.object []) = none
    ∧ AtlasDatabaseCleanSchema.parse (.object [("acknowledgement", .bool false)]) = none
    ∧ AtlasDatabaseCleanSchema.parse (.object [("acknowledgement", .string "true")]) = none := by
  refine ⟨?_, ?_, by decide, by decide, by decide⟩
  · cases input with
    | notObject => simp [AtlasDatabaseCleanSchema.parse]
    | object fields =>
      simp only [AtlasDatabaseCleanSchema.parse, ToolArgs.object.injEq, exists_eq_left']
      constructor
      · intro h
        split at h
        · rename_i a f ha hf hall
          refine ⟨?_, ?_, ?_⟩
          · unfold zLiteralTrue at ha
            split at ha
            · rename_i heq
              exact heq
            · cases ha
          · unfold responseFormatSchema at hf
            split at hf
            · rename_i heq
              exact Or.inl heq
            · rename_i v heq
              unfold createResponseFormatEnum at hf
              split at hf
              · rename_i s hs
                cases hs
                split at hf
                · rename_i h1
                  exact Or.inr (Or.inl (by rw [heq, h1]; rfl))
                · split at hf
                  · rename_i h2
                    exact Or.inr (Or.inr (by rw [heq, h2]; rfl))
                  · cases hf
              · cases hf
          · simpa using hall
        · simp at h
      · rintro ⟨ha, hf, hall⟩
        have h1 : zLiteralTrue (fields.lookup "acknowledgement") = some true := by
          rw [ha]
          rfl
        have h3 : fields.all (fun kv => kv.1 = "acknowledgement" ∨ kv.1 = "responseFormat")
            = true := by simpa using hall
        rcases hf with hf | hf | hf
        all_goals
          rw [h1, hf, h3]
          decide
  · intro fields parsed hin hp
    subst hin
    simp only [AtlasDatabaseCleanSchema.parse] at hp
    split at hp
    · rename_i a f ha hf hall
      cases hp
      constructor
      · unfold zLiteralTrue at ha
        split at ha
        · cases ha
          rfl
        · cases ha
      · unfold responseFormatSchema at hf
        split at hf
        · rename_i heq
          rw [heq]
          simp only
          unfold createResponseFormatEnum at hf
          simp [ResponseFormat.value] at hf
          rw [← hf]
          rfl
        · rename_i v heq
          rw [heq]
          unfold createResponseFormatEnum at hf
          split at hf
          · rename_i s hs
            cases hs
            split at hf
            · rename_i h1
              cases hf
              simp [h1]
            · split at hf
              · rename_i h2
                cases hf
                simp [h2]
              · cases hf
          · cases hf
    · cases hp

/-! ## The wrapped tool handler -/

/-- C23, counterexample: `wrappedHandler` rejects when the handler throws an
`McpError` whose `details` cannot be serialised; a handler result that
cannot be serialised is not wrapped but answered with an "Error: " response;
a `ZodError` thrown by the handler itself gets the "Validation error: "
response although the handler was called; and a handler whose promise never
settles leaves `wrappedHandler` pending. -/
theorem wrappedHandler_rejects_on_unserialisable_details :
    (wrappedHandler sampleJs acceptAll
        (fun _ (_ : Unit) => .threw (.mcpError "INTERNAL_ERROR" "Export failed"
          (.truthy (.threw (.error "Do not know how to serialize a BigInt")))))
        "input" ()).settled
      = .rejected (.error "Do not know how to serialize a BigInt")
    ∧ (wrappedHandler sampleJs acceptAll (fun _ (_ : Unit) => .returned (.bigint 10))
        "input" ()).settled
      = .resolved (.response (createToolResponse
          (some "Error: Do not know how to serialize a BigInt") (some true)))
    ∧ (wrappedHandler sampleJs acceptAll
        (fun _ (_ : Unit) => (.threw (.zodError ["Required"]) : HandlerOutcome SampleResult))
        "input" ())
      = { settled := .resolved (.response (createToolResponse
            (some "Validation error: Required") (some true)))
          handlerCalls := ["input"] }
    ∧ (wrappedHandler sampleJs acceptAll
        (fun _ (_ : Unit) => (.pending : HandlerOutcome SampleResult)) "input" ()).settled
      = .pending := by
  refine ⟨?_, ?_, ?_, ?_⟩
  · rfl
  · simp only [wrappedHandler, acceptAll, sampleJs, wrappedHandlerCatch]
    rfl
  · simp only [wrappedHandler, acceptAll, wrappedHandlerCatch]
    rfl
  · rfl

/-- What `toResponse` answers: an `isError` response whose text is
"Error [code]: message", followed by the serialised `details` when they are
truthy; when serialising them throws, so does `toResponse`. -/
theorem McpError.toResponse_cases (code message : String) (details : Details) :
    (∀ e, details = .truthy (.threw e) →
      McpError.toResponse code message details = .error e)
    ∧ ((∀ e, details ≠ .truthy (.threw e)) →
      McpError.toResponse code message details
        = .ok { content :=
                  [{ type := "text"
                     text := some ("Error [" ++ code ++ "]: " ++ message
                       ++ (match details with
                          | .truthy (.text s) => "\nDetails: " ++ s
                          | .truthy .undefined => "\nDetails: undefined"
                          | _ => ""))
                     _type := none }]
                isError := some true
                _type := "tool_response" }) := by
  cases details with
  | falsy => exact ⟨fun e h => (by cases h), fun _ => rfl⟩
  | truthy json =>
    cases json with
    | text s => exact ⟨fun e h => (by cases h), fun _ => rfl⟩
    | undefined => exact ⟨fun e h => (by cases h), fun _ => rfl⟩
    | threw e0 =>
      refine ⟨fun e h => ?_, fun h => absurd rfl (h e0)⟩
      cases h
      rfl

/-- C23, amended: the handler is called once with the parsed input, and not
at all when the schema rejects; `wrappedHandler` stays pending exactly when
the handler does.  A result that is an object with a `content` key is
returned unchanged, any other result whose `JSON.stringify` returns is
wrapped by `createToolResponse`.  A value thrown by the schema, by the
handler or by `JSON.stringify(result)` reaches the `catch` block: there an
`McpError` whose `details` cannot be serialised makes `wrappedHandler`
reject with what the serialisation threw, and this is the only rejection;
every other `McpError` becomes its `toResponse()` (`isError` true, text
"Error [code]: message" followed by the serialised details, if any); a
`ZodError` becomes the "Validation error: " response, another `Error`
"Error: " with its message, any other value
"Error: An unknown error occurred". -/
theorem wrappedHandler_settles {α β ε ρ : Type} (js : JsRuntime ρ)
    (parse : α → Except Thrown β) (handler : β → ε → HandlerOutcome ρ) (args : α)
    (extra : ε) :
    (∀ e, parse args = .error e →
      wrappedHandler js parse handler args extra
        = { settled := wrappedHandlerCatch e, handlerCalls := [] })
    ∧ (∀ v, parse args = .ok v →
        (wrappedHandler js parse handler args extra).handlerCalls = [v]
        ∧ (handler v extra = .pending ↔
            (wrappedHandler js parse handler args extra).settled = .pending)
        ∧ (∀ e, handler v extra = .threw e →
            (wrappedHandler js parse handler args extra).settled = wrappedHandlerCatch e)
        ∧ ∀ result, handler v extra = .returned result →
            (js.isObjectWithContent result = true →
              (wrappedHandler js parse handler args extra).settled
                = .resolved (.unchanged result))
            ∧ (js.isObjectWithContent result = false →
                (∀ text, js.stringify result = .text text →
                  (wrappedHandler js parse handler args extra).settled
                    = .resolved (.response (createToolResponse (some text) none)))
                ∧ (js.stringify result = .undefined →
                    (wrappedHandler js parse handler args extra).settled
                      = .resolved (.response (createToolResponse none none)))
                ∧ ∀ e, js.stringify result = .threw e →
                    (wrappedHandler js parse handler args extra).settled
                      = wrappedHandlerCatch e))
    ∧ (∀ code message e,
        (wrappedHandlerCatch (.mcpError code message (.truthy (.threw e))) : Settled ρ)
          = .rejected e)
    ∧ (∀ code message details, (∀ e, details ≠ .truthy (.threw e)) →
        (wrappedHandlerCatch (.mcpError code message details) : Settled ρ)
          = .resolved (.response
              { content :=
                  [{ type := "text"
                     text := some ("Error [" ++ code ++ "]: " ++ message
                       ++ (match details with
                          | .truthy (.text s) => "\nDetails: " ++ s
                          | .truthy .undefined => "\nDetails: undefined"
                          | _ => ""))
                     _type := none }]
                isError := some true
                _type := "tool_response" }))
    ∧ (∀ messages, (wrappedHandlerCatch (.zodError messages) : Settled ρ)
        = .resolved (.response (createToolResponse
            (some ("Validation error: " ++ ", ".intercalate messages)) (some true))))
    ∧ (∀ message, (wrappedHandlerCatch (.error message) : Settled ρ)
        = .resolved (.response (createToolResponse (some ("Error: " ++ message))
            (some true))))
    ∧ (wrappedHandlerCatch .other : Settled ρ)
        = .resolved (.response (createToolResponse
            (some "Error: An unknown error occurred") (some true)))
    ∧ (∀ caught e, (wrappedHandlerCatch caught : Settled ρ) = .rejected e →
        ∃ code message, caught = .mcpError code message (.truthy (.threw e)))
    ∧ ∀ caught, (wrappedHandlerCatch caught : Settled ρ) ≠ .pending := by
  have hrej : ∀ code message e,
      (wrappedHandlerCatch (.mcpError code message (.truthy (.threw e))) : Settled ρ)
        = .rejected e := by
    intro code message e
    simp only [wrappedHandlerCatch,
      (McpError.toResponse_cases code message (.truthy (.threw e))).1 e rfl]
  have hres : ∀ code message details, (∀ e, details ≠ .truthy (.threw e)) →
      (wrappedHandlerCatch (.mcpError code message details) : Settled ρ)
        = .resolved (.response
            { content :=
                [{ type := "text"
                   text := some ("Error [" ++ code ++ "]: " ++ message
                     ++ (match details with
                        | .truthy (.text s) => "\nDetails: " ++ s
                        | .truthy .undefined => "\nDetails: undefined"
                        | _ => ""))
                   _type := none }]
              isError := some true
              _type := "tool_response" }) := by
    intro code message details h
    simp only [wrappedHandlerCatch, (McpError.toResponse_cases code message details).2 h]
  have hthrows : ∀ details : Details,
      (∃ e, details = .truthy (.threw e)) ∨ ∀ e, details ≠ .truthy (.threw e) := by
    intro details
    cases details with
    | falsy => exact Or.inr fun e h => by cases h
    | truthy json =>
      cases json with
      | text s => exact Or.inr fun e h => by cases h
      | undefined => exact Or.inr fun e h => by cases h
      | threw e => exact Or.inl ⟨e, rfl⟩
  have hnp : ∀ caught, (wrappedHandlerCatch caught : Settled ρ) ≠ .pending := by
    intro caught
    cases caught with
    | mcpError code message details =>
      rcases hthrows details with ⟨e, rfl⟩ | h
      · rw [hrej]
        simp
      · rw [hres code message details h]
        simp
    | zodError messages => simp [wrappedHandlerCatch]
    | error message => simp [wrappedHandlerCatch]
    | other => simp [wrappedHandlerCatch]
  refine ⟨?_, ?_, hrej, hres, fun _ => rfl, fun _ => rfl, rfl, ?_, hnp⟩
  · intro e h
    simp only [wrappedHandler, h]
  · intro v h
    simp only [wrappedHandler, h]
    cases hh : handler v extra with
    | pending => simp
    | threw e =>
      simp only [true_and, reduceCtorEq, false_iff, HandlerOutcome.threw.injEq,
        forall_eq', false_implies, implies_true, and_true]
      exact hnp e
    | returned result =>
      simp only [true_and, reduceCtorEq, false_implies, implies_true,
        HandlerOutcome.returned.injEq, forall_eq', false_iff]
      cases hc : js.isObjectWithContent result with
      | true => simp
      | false =>
        cases hs : js.stringify result with
        | text t => simp
        | undefined => simp
        | threw e =>
          simp only [Bool.false_eq_true, if_false, false_implies, true_implies,
            reduceCtorEq, implies_true, Stringified.threw.injEq, forall_eq', and_true,
            true_and]
          exact hnp e
  · intro caught e h
    cases caught with
    | mcpError code message details =>
      rcases hthrows details with ⟨e1, rfl⟩ | hd
      · rw [hrej] at h
        cases h
        exact ⟨code, message, rfl⟩
      · rw [hres code message details hd] at h
        cases h
    | zodError messages => simp [wrappedHandlerCatch] at h
    | error message => simp [wrappedHandlerCatch] at h
    | other => simp [wrappedHandlerCatch] at h

/-! ## Grouping search results by type -/

/-- Pushing under a key that is not an own property changes nothing. -/
theorem pushResult_of_not_mem (grouped : GroupedResults) (key : JsString)
    (result : SearchResultItem) (h : key ∉ grouped.map Prod.fst) :
    pushResult grouped key result = grouped := by
  unfold pushResult
  conv_rhs => rw [← List.map_id grouped]
  apply List.map_congr_left
  intro entry hentry
  have hne : entry.1 ≠ key := by
    intro heq
    exact h (heq ▸ List.mem_map_of_mem Prod.fst hentry)
  simp [hne]

/-- Pushing keeps the keys. -/
theorem pushResult_keys (grouped : GroupedResults) (key : JsString)
    (result : SearchResultItem) :
    (pushResult grouped key result).map Prod.fst = grouped.map Prod.fst := by
  unfold pushResult
  rw [List.map_map]
  apply List.map_congr_left
  intro entry _
  by_cases h : entry.1 = key
  all_goals simp [h]

/-- The callback of `results.forEach` by cases on the key `result.type`. -/
theorem groupResult_eq (grouped : GroupedResults) (result : SearchResultItem) :
    groupResult grouped result
      = if result.type ∈ grouped.map Prod.fst then
          .ok (pushResult grouped result.type result)
        else if result.type ∈ objectPrototypeKeys then
          .error (.error "groupedResults[result.type].push is not a function")
        else .ok (grouped ++ [(result.type, [result])]) := by
  by_cases h1 : result.type ∈ grouped.map Prod.fst
  · simp only [groupResult, getProperty, h1, if_true]
  · by_cases h2 : result.type ∈ objectPrototypeKeys
    · simp only [groupResult, getProperty, h1, h2, if_true, if_false]
    · have h3 : pushResult (grouped ++ [(result.type, [])]) result.type result
          = grouped ++ [(result.type, [result])] := by
        have h4 := pushResult_of_not_mem grouped result.type result h1
        unfold pushResult at h4 ⊢
        rw [List.map_append, h4]
        simp
      simp only [groupResult, getProperty, h1, h2, if_false, List.map_append, List.map_cons,
        List.map_nil, List.mem_append, List.mem_singleton, or_true, if_true, h3]

/-- One step of the grouping keeps the split, for a type that is not a member
of `Object.prototype`. -/
theorem groupResult_Grouped (grouped : GroupedResults) (seen : List SearchResultItem)
    (result : SearchResultItem) (h : Grouped grouped seen)
    (hkey : result.type ∉ objectPrototypeKeys) :
    ∃ next, groupResult grouped result = .ok next ∧ Grouped next (seen ++ [result]) := by
  obtain ⟨hnodup, hentries, hcover⟩ := h
  rw [groupResult_eq]
  by_cases h1 : result.type ∈ grouped.map Prod.fst
  · rw [if_pos h1]
    refine ⟨_, rfl, ?_, ?_, ?_⟩
    · rw [pushResult_keys]
      exact hnodup
    · intro entry hentry
      unfold pushResult at hentry
      obtain ⟨old, hold, rfl⟩ := List.mem_map.mp hentry
      obtain ⟨hfilter, hne⟩ := hentries old hold
      by_cases hk : old.1 = result.type
      · simp only [hk, if_true]
        rw [← hk, List.filter_append, ← hfilter]
        simp [hk]
      · have hk2 : ¬ result.type = old.1 := fun h => hk h.symm
        simp [hk, hk2, List.filter_append, ← hfilter, hne]
    · intro r hr
      rw [pushResult_keys]
      rcases List.mem_append.mp hr with hr | hr
      · exact hcover r hr
      · rw [List.mem_singleton.mp hr]
        exact h1
  · rw [if_neg h1, if_neg hkey]
    refine ⟨_, rfl, ?_, ?_, ?_⟩
    · rw [List.map_append, List.nodup_append]
      refine ⟨hnodup, by simp, ?_⟩
      intro a ha hb
      simp only [List.map_cons, List.map_nil, List.mem_singleton] at hb
      exact h1 (hb ▸ ha)
    · intro entry hentry
      rcases List.mem_append.mp hentry with hold | hnew
      · obtain ⟨hfilter, hne⟩ := hentries entry hold
        have hk : ¬ result.type = entry.1 := by
          intro heq
          exact h1 (heq ▸ List.mem_map_of_mem Prod.fst hold)
        simp [List.filter_append, ← hfilter, hne, hk]
      · rw [List.mem_singleton.mp hnew]
        have hnone : seen.filter (fun r => r.type = result.type) = [] := by
          rw [List.filter_eq_nil_iff]
          intro r hr
          have := hcover r hr
          simp only [decide_eq_true_eq]
          intro heq
          exact h1 (heq ▸ this)
        simp [List.filter_append, hnone]
    · intro r hr
      rw [List.map_append]
      rcases List.mem_append.mp hr with hr | hr
      · exact List.mem_append_left _ (hcover r hr)
      · rw [List.mem_singleton.mp hr]
        simp

/-- The whole `results.forEach` keeps the split. -/
theorem foldlM_groupResult_Grouped (rest : List SearchResultItem) :
    ∀ (grouped : GroupedResults) (seen : List SearchResultItem), Grouped grouped seen →
      (∀ r ∈ rest, r.type ∉ objectPrototypeKeys) →
      ∃ final, rest.foldlM groupResult grouped = .ok final ∧ Grouped final (seen ++ rest) := by
  induction rest with
  | nil =>
    intro grouped seen h _
    exact ⟨grouped, rfl, by simpa using h⟩
  | cons r rest ih =>
    intro grouped seen h hkeys
    obtain ⟨next, hnext, hgrouped⟩ :=
      groupResult_Grouped grouped seen r h (hkeys r (List.mem_cons_self _ _))
    obtain ⟨final, hfinal, hsplit⟩ :=
      ih next (seen ++ [r]) hgrouped (fun x hx => hkeys x (List.mem_cons_of_mem _ hx))
    refine ⟨final, ?_, by simpa using hsplit⟩
    rw [List.foldlM_cons, hnext]
    exact hfinal

/-- Two filters that never both hold split the filter of their union. -/
theorem filter_append_perm_of_disjoint {α : Type} (p q : α → Bool) (l : List α)
    (h : ∀ a ∈ l, ¬ (p a = true ∧ q a = true)) :
    (l.filter p ++ l.filter q).Perm (l.filter fun a => p a || q a) := by
  induction l with
  | nil => simp
  | cons a l ih =>
    have ih1 := ih fun x hx => h x (List.mem_cons_of_mem _ hx)
    have ha := h a (List.mem_cons_self _ _)
    cases hp : p a with
    | true =>
      have hq : q a = false := by
        cases hq : q a with
        | true => exact absurd ⟨hp, hq⟩ ha
        | false => rfl
      simp only [List.filter_cons, hp, hq, if_true, Bool.true_or, List.cons_append,
        Bool.false_eq_true, if_false]
      exact ih1.cons a
    | false =>
      cases hq : q a with
      | true =>
        simp only [List.filter_cons, hp, hq, if_true, Bool.or_true, Bool.false_eq_true,
          if_false]
        exact List.perm_middle.trans (ih1.cons a)
      | false =>
        simp only [List.filter_cons, hp, hq, Bool.or_self, Bool.false_eq_true, if_false]
        exact ih1

/-- The results of the types in a duplicate-free list of keys, key by key,
are the results whose type is among the keys. -/
theorem flatMap_filter_type_perm (results : List SearchResultItem) (keys : List JsString)
    (hnodup : keys.Nodup) :
    (keys.flatMap fun key => results.filter fun r => r.type = key).Perm
      (results.filter fun r => r.type ∈ keys) := by
  induction keys with
  | nil => simp
  | cons key keys ih =>
    obtain ⟨hkey, hrest⟩ := List.nodup_cons.mp hnodup
    rw [List.flatMap_cons]
    refine ((ih hrest).append_left _).trans ?_
    have hsplit := filter_append_perm_of_disjoint
      (fun r : SearchResultItem => decide (r.type = key))
      (fun r : SearchResultItem => decide (r.type ∈ keys)) results (by
        intro r _ hboth
        simp only [decide_eq_true_eq] at hboth
        exact hkey (hboth.1 ▸ hboth.2))
    refine hsplit.trans ?_
    have hfun : (fun r : SearchResultItem => decide (r.type = key) || decide (r.type ∈ keys))
        = fun r : SearchResultItem => decide (r.type ∈ key :: keys) := by
      funext r
      simp
    rw [hfun]

/-- A split holds every result exactly once. -/
theorem Grouped.perm {groups : GroupedResults} {results : List SearchResultItem}
    (h : Grouped groups results) : (groups.flatMap Prod.snd).Perm results := by
  obtain ⟨hnodup, hentries, hcover⟩ := h
  have h1 : groups.flatMap Prod.snd
      = (groups.map Prod.fst).flatMap fun key => results.filter fun r => r.type = key := by
    rw [List.flatMap_map, List.flatMap_def, List.flatMap_def]
    congr 1
    apply List.map_congr_left
    intro entry hentry
    exact (hentries entry hentry).1
  have h2 : (results.filter fun r => r.type ∈ groups.map Prod.fst) = results := by
    rw [List.filter_eq_self]
    intro r hr
    simpa using hcover r hr
  rw [h1]
  have h3 := flatMap_filter_type_perm results (groups.map Prod.fst) hnodup
  rw [h2] at h3
  exact h3

/-- The lengths of the arrays of a split add up to the number of results. -/
theorem Grouped.sum_length {groups : GroupedResults} {results : List SearchResultItem}
    (h : Grouped groups results) :
    (groups.map fun g => g.2.length).sum = results.length := by
  rw [← h.perm.length_eq, List.length_flatMap]
  rfl

/-- A split stays one when its entries are reordered. -/
theorem Grouped.of_perm {a b : GroupedResults} {results : List SearchResultItem}
    (hperm : a.Perm b) (h : Grouped a results) : Grouped b results := by
  obtain ⟨hnodup, hentries, hcover⟩ := h
  refine ⟨((hperm.map Prod.fst).nodup_iff).mp hnodup, ?_, ?_⟩
  · intro entry hentry
    exact hentries entry (hperm.mem_iff.mpr hentry)
  · intro r hr
    exact ((hperm.map Prod.fst).mem_iff).mp (hcover r hr)

/-- The call `Object.entries` reorders the own properties, no more. -/
theorem objectEntries_perm (grouped : GroupedResults) :
    (objectEntries grouped).Perm grouped := by
  unfold objectEntries
  exact ((List.perm_insertionSort _ _).append_right _).trans
    (List.filter_append_perm _ grouped)

/-- A loop that appends to `resultsOutput` appends the pieces in order. -/
theorem foldl_append_pieces {α : Type} (step : JsString → α → JsString)
    (hstep : ∀ out a, step out a = out ++ step [] a) (l : List α) :
    ∀ out, l.foldl step out = out ++ (l.map (step [])).flatten := by
  induction l with
  | nil => simp
  | cons a l ih =>
    intro out
    rw [List.foldl_cons, ih, hstep out a]
    simp

/-- The callback of `items.forEach` only appends to `resultsOutput`. -/
theorem formatItem_append (rt : Locale) (out : JsString) (item : SearchResultItem)
    (index : Nat) :
    formatItem rt out item index = out ++ formatItem rt [] item index := by
  simp only [formatItem]
  split
  all_goals split
  all_goals split_ifs
  all_goals simp only [List.append_assoc, List.nil_append]

/-- The callback of the loop over the groups only appends to `resultsOutput`:
the heading of the group, then its items numbered from index 0. -/
theorem formatGroup_eq (rt : Locale) (out : JsString)
    (entry : JsString × List SearchResultItem) :
    formatGroup rt out entry
      = out ++ ((utf16 "\n" ++ capitalizeFirstLetter rt entry.1 ++ utf16 " Results ("
            ++ numberText entry.2.length ++ utf16 ")\n\n")
          ++ (entry.2.enum.map fun p => formatItem rt [] p.2 p.1).flatten) := by
  unfold formatGroup
  simp only
  rw [foldl_append_pieces
    (fun resultsOutput (p : Nat × SearchResultItem) => formatItem rt resultsOutput p.2 p.1)
    (fun out p => formatItem_append rt out p.2 p.1)]
  simp only [List.append_assoc]

/-- The text of an item begins with its number in the group, the index plus
one, then the relevance indicator and the title. -/
theorem formatItem_numbered (rt : Locale) (item : SearchResultItem) (index : Nat) :
    ∃ rest, formatItem rt [] item index
      = numberText (index + 1) ++ utf16 ". "
          ++ getRelevanceIndicator
              (toDouble ((mathRound (toDouble (toDouble item.score * 10)) : ℚ) / 10)) ++ utf16 " "
          ++ item.title ++ utf16 "\n" ++ rest := by
  rw [formatItem_append]
  simp only [formatItem]
  split
  all_goals split
  all_goals split_ifs
  all_goals
    exact ⟨_, by
      simp only [List.append_assoc, List.nil_append]
      rfl⟩

/-- C25, counterexample: a results array whose only entry has the type
"constructor" is not rendered at all: reading `groupedResults["constructor"]`
gives the inherited `Object`, no array is created, and `push` throws. -/
theorem format_throws_on_inherited_key :
    UnifiedSearchFormatter.format sampleLocale constructorSearch
      = .error (.error "groupedResults[result.type].push is not a function") := by
  rfl

/-- A result whose type names a member of `Object.prototype` makes the
grouping throw: such a name never becomes an own key, so the read finds the
inherited member. -/
theorem foldlM_groupResult_throws (rest : List SearchResultItem) :
    ∀ grouped : GroupedResults, (∀ key ∈ grouped.map Prod.fst, key ∉ objectPrototypeKeys) →
      (∃ r ∈ rest, r.type ∈ objectPrototypeKeys) →
      rest.foldlM groupResult grouped
        = .error (.error "groupedResults[result.type].push is not a function") := by
  induction rest with
  | nil =>
    intro grouped _ h
    obtain ⟨r, hr, -⟩ := h
    cases hr
  | cons x rest ih =>
    intro grouped hown hbad
    rw [List.foldlM_cons, groupResult_eq]
    by_cases h1 : x.type ∈ grouped.map Prod.fst
    · rw [if_pos h1]
      have hx : x.type ∉ objectPrototypeKeys := hown _ h1
      have hrest : ∃ r ∈ rest, r.type ∈ objectPrototypeKeys := by
        obtain ⟨r, hr, hk⟩ := hbad
        rcases List.mem_cons.mp hr with rfl | hr
        · exact absurd hk hx
        · exact ⟨r, hr, hk⟩
      exact ih _ (by rw [pushResult_keys]; exact hown) hrest
    · rw [if_neg h1]
      by_cases h2 : x.type ∈ objectPrototypeKeys
      · rw [if_pos h2]
        rfl
      · rw [if_neg h2]
        have hrest : ∃ r ∈ rest, r.type ∈ objectPrototypeKeys := by
          obtain ⟨r, hr, hk⟩ := hbad
          rcases List.mem_cons.mp hr with rfl | hr
          · exact absurd hk h2
          · exact ⟨r, hr, hk⟩
        refine ih _ ?_ hrest
        intro key hkey
        rw [List.map_append, List.mem_append] at hkey
        rcases hkey with hkey | hkey
        · exact hown key hkey
        · simp only [List.map_cons, List.map_nil, List.mem_singleton] at hkey
          rw [hkey]
          exact h2

/-- C25, amended: for a non-empty results array none of whose types names a
member of `Object.prototype`, `format` returns the summary, then one group
per type, then the pagination help.  No type has two groups, the group of a
type holds the results of that type in their input order, every result is
in the group of its type, so each result is rendered exactly once and the
counts in the headings add up to `results.length`; a group is its heading
with the count followed by its items, numbered from 1.  For a results array
that holds such a type `format` throws a `TypeError`.  For a `results` that
is empty or not an array the output is the summary and the no-matches
line. -/
theorem format_partitions_results_by_type (rt : Locale)
    (responseData : UnifiedSearchResponse) (results : List SearchResultItem)
    (hresults : responseData.results = some results) (hne : results ≠ []) :
    ((∀ r ∈ results, r.type ∉ objectPrototypeKeys) →
      ∃ groups : GroupedResults,
        UnifiedSearchFormatter.format rt responseData
          = .ok (summaryText responseData ++ (groups.map (formatGroup rt [])).flatten
              ++ paginationHelp responseData)
        ∧ (groups.map Prod.fst).Nodup
        ∧ (∀ g ∈ groups, g.2 = results.filter (fun r => r.type = g.1) ∧ g.2 ≠ [])
        ∧ (∀ r ∈ results, r.type ∈ groups.map Prod.fst)
        ∧ (groups.flatMap Prod.snd).Perm results
        ∧ (groups.map fun g => g.2.length).sum = results.length)
    ∧ ((∃ r ∈ results, r.type ∈ objectPrototypeKeys) →
      UnifiedSearchFormatter.format rt responseData
        = .error (.error "groupedResults[result.type].push is not a function"))
    ∧ (∀ g : JsString × List SearchResultItem,
        formatGroup rt [] g
          = (utf16 "\n" ++ capitalizeFirstLetter rt g.1 ++ utf16 " Results ("
              ++ numberText g.2.length ++ utf16 ")\n\n")
            ++ (g.2.enum.map fun p => formatItem rt [] p.2 p.1).flatten)
    ∧ (∀ item index, ∃ rest, formatItem rt [] item index
        = numberText (index + 1) ++ utf16 ". "
            ++ getRelevanceIndicator
              (toDouble ((mathRound (toDouble (toDouble item.score * 10)) : ℚ) / 10)) ++ utf16 " "
            ++ item.title ++ utf16 "\n" ++ rest)
    ∧ ∀ data : UnifiedSearchResponse, data.results = none ∨ data.results = some [] →
        UnifiedSearchFormatter.format rt data
          = .ok (summaryText data
              ++ utf16 "\nNo matches found for the specified search criteria.") := by
  have hlen : ¬ results.length = 0 := by
    intro h
    exact hne (List.length_eq_zero.mp h)
  refine ⟨?_, ?_, ?_, formatItem_numbered rt, ?_⟩
  · intro hkeys
    obtain ⟨final, hfinal, hsplit⟩ :=
      foldlM_groupResult_Grouped results [] [] ⟨by simp, by simp, by simp⟩ hkeys
    rw [List.nil_append] at hsplit
    have hentries := Grouped.of_perm (objectEntries_perm final).symm hsplit
    refine ⟨objectEntries final, ?_, hentries.1, hentries.2.1, hentries.2.2, hentries.perm,
      hentries.sum_length⟩
    simp only [UnifiedSearchFormatter.format, hresults, hlen, if_false, hfinal]
    rw [foldl_append_pieces (formatGroup rt) (fun out entry => by
      rw [formatGroup_eq rt out entry, formatGroup_eq rt [] entry, List.nil_append])]
    simp only [List.nil_append]
  · intro hbad
    have hthrow := foldlM_groupResult_throws results [] (by simp) hbad
    simp only [UnifiedSearchFormatter.format, hresults, hlen, if_false, hthrow]
  · intro g
    rw [formatGroup_eq, List.nil_append]
  · intro data h
    rcases h with h | h
    · simp only [UnifiedSearchFormatter.format, h]
    · simp only [UnifiedSearchFormatter.format, h, List.length_nil, if_true]

/-- C25, witness: the three sample results, a task, a project and a task,
are rendered in groups whose counts add up to three. -/
theorem format_partitions_results_by_type_witness :
    sampleSearch.results = some sampleResults ∧ sampleResults ≠ []
    ∧ (∀ r ∈ sampleResults, r.type ∉ objectPrototypeKeys)
    ∧ ∃ groups : GroupedResults,
        UnifiedSearchFormatter.format sampleLocale sampleSearch
          = .ok (summaryText sampleSearch ++ (groups.map (formatGroup sampleLocale [])).flatten
              ++ paginationHelp sampleSearch)
        ∧ (groups.map fun g => g.2.length).sum = sampleResults.length :=
  ⟨rfl, List.cons_ne_nil _ _, by decide,
    ((format_partitions_results_by_type sampleLocale sampleSearch sampleResults rfl
      (List.cons_ne_nil _ _)).1 (by decide)).imp fun _ h => ⟨h.1, h.2.2.2.2.2⟩⟩

end Atlas
